import Mathlib

/-!
# Generic BTLE protocol layer (`generic_btle.c`)

A shallow embedding of the descriptor encoder, the actuator dispatch and the
sensor publisher of `src/main/generic_btle.c`.

`generic_btle.c` calls the TinyCBOR library (`cbor.h`), which is an external
component and not part of the repository sources.  The encoder and parser
entry points that `generic_btle.c` uses are embedded here after TinyCBOR's
`cborencoder.c` / `cborparser.c` (release 0.6, the one shipped with ESP-IDF),
for the 32-bit target (`size_t`, `int` and pointers are 32 bits wide).

Bytes are natural numbers; a C string is the list of its bytes before the
terminating NUL.
-/

namespace GenericBtle

/-! ## Data model (`generic_btle.h`) -/

/-- `GBLE_VERSION` -/
def GBLE_VERSION : Nat := 1

/-- `SIZE_MAX` of the 32-bit target. -/
def SIZE_MAX : Nat := 4294967295

/-- `struct gble_actuator_feature`.  `cb` is the callback function pointer
(`none` is `NULL`), `cb_context` the opaque context pointer. -/
structure gble_actuator_feature where
  description : List Nat
  feature_type : Nat
  step_range_low : Nat
  step_range_high : Nat
  message_type : Nat
  cb : Option Nat
  cb_context : Nat
  id : Nat
  last_value : Nat
  deriving DecidableEq, Repr

/-- `struct gble_sensor_feature`; the value range and the last value are
`int32_t`. -/
structure gble_sensor_feature where
  description : List Nat
  feature_type : Nat
  value_range_low : Int
  value_range_high : Int
  message_type : Nat
  id : Nat
  last_value : Int
  deriving DecidableEq, Repr

/-- `struct gble_server`.  The arrays `actuators` / `sensors` are kept together
with their element counts. -/
structure gble_server where
  descriptor_buffer : List Nat
  descriptor_size : Nat
  name : List Nat
  actuators : List gble_actuator_feature
  actuator_count : Nat
  sensors : List gble_sensor_feature
  sensors_count : Nat
  sensor_cb : Option Nat
  sensor_cb_context : Nat
  deriving DecidableEq, Repr

/-- The fields of an actuator lie in the ranges of their C types. -/
def gble_actuator_feature.wf (a : gble_actuator_feature) : Prop :=
  a.feature_type < 2 ^ 8 ∧ a.step_range_low < 2 ^ 32 ∧ a.step_range_high < 2 ^ 32 ∧
  a.message_type < 2 ^ 8 ∧ a.id < 2 ^ 32 ∧ a.last_value < 2 ^ 32

/-- The fields of a sensor lie in the ranges of their C types. -/
def gble_sensor_feature.wf (s : gble_sensor_feature) : Prop :=
  s.feature_type < 2 ^ 8 ∧ -2 ^ 31 ≤ s.value_range_low ∧ s.value_range_low < 2 ^ 31 ∧
  -2 ^ 31 ≤ s.value_range_high ∧ s.value_range_high < 2 ^ 31 ∧
  s.message_type < 2 ^ 8 ∧ s.id < 2 ^ 32 ∧ -2 ^ 31 ≤ s.last_value ∧ s.last_value < 2 ^ 31

/-- Conversion of a signed integer argument to `uint64_t` (value modulo `2^64`). -/
def to_uint64 (v : Int) : Nat := (v % 2 ^ 64).toNat

/-! ## TinyCBOR encoder (`cborencoder.c`) -/

/-- `CborError`, the codes that the calls used here can return. -/
inductive CborError
  | CborNoError
  | CborErrorUnknownLength
  | CborErrorAdvancePastEOF
  | CborErrorUnexpectedEOF
  | CborErrorUnexpectedBreak
  | CborErrorUnknownType
  | CborErrorIllegalNumber
  | CborErrorIllegalSimpleType
  | CborErrorTooManyItems
  | CborErrorTooFewItems
  | CborErrorDataTooLarge
  | CborErrorOutOfMemory
  deriving DecidableEq, Repr

open CborError

/-- `struct CborEncoder`.  `out` is the content of the target buffer from its
start up to `data.ptr`, `size` the distance from the start of the buffer to
`end`; `end_null` says that `end` was reset to `NULL` by an overflow, after
which `data.bytes_needed` counts. -/
structure CborEncoder where
  out : List Nat
  size : Nat
  end_null : Bool
  bytes_needed : Nat
  remaining : Nat
  flag_UnknownLength : Bool
  flag_ContainerIsMap : Bool
  deriving DecidableEq, Repr

def MajorTypeShift : Nat := 5
def UnsignedIntegerType : Nat := 0
def NegativeIntegerType : Nat := 1
def TextStringType : Nat := 3
def ArrayType : Nat := 4
def Value8Bit : Nat := 24
def IndefiniteLength : Nat := 31
def BreakByte : Nat := 255
def CborIndefiniteLength : Nat := SIZE_MAX

/-- `cbor_encoder_init` -/
def cbor_encoder_init (size : Nat) : CborEncoder :=
  { out := [], size := size, end_null := false, bytes_needed := 0, remaining := 2,
    flag_UnknownLength := false, flag_ContainerIsMap := false }

/-- `would_overflow` -/
def would_overflow (encoder : CborEncoder) (len : Nat) : Bool :=
  if encoder.end_null then decide (0 < encoder.bytes_needed + len)
  else decide (encoder.size < encoder.out.length + len)

/-- `append_to_buffer`: on overflow nothing is stored, `end` becomes `NULL` and
the missing bytes are counted. -/
def append_to_buffer (encoder : CborEncoder) (data : List Nat) : CborError × CborEncoder :=
  if would_overflow encoder data.length then
    if encoder.end_null then
      (CborErrorOutOfMemory, { encoder with bytes_needed := encoder.bytes_needed + data.length })
    else
      (CborErrorOutOfMemory,
        { encoder with end_null := true,
                       bytes_needed := data.length - (encoder.size - encoder.out.length) })
  else
    (CborNoError, { encoder with out := encoder.out ++ data })

/-- `append_byte_to_buffer` -/
def append_byte_to_buffer (encoder : CborEncoder) (byte : Nat) : CborError × CborEncoder :=
  append_to_buffer encoder [byte]

/-- `put64`: the eight bytes of a `uint64_t` in network order. -/
def put64 (ui : Nat) : List Nat :=
  [ui / 2 ^ 56 % 256, ui / 2 ^ 48 % 256, ui / 2 ^ 40 % 256, ui / 2 ^ 32 % 256,
   ui / 2 ^ 24 % 256, ui / 2 ^ 16 % 256, ui / 2 ^ 8 % 256, ui % 256]

/-- The bytes `bufstart .. bufend` that `encode_number_no_update` hands to
`append_to_buffer`. -/
def encode_number_bytes (ui : Nat) (shiftedMajorType : Nat) : List Nat :=
  if ui < Value8Bit then
    [(ui % 256 + shiftedMajorType) % 256]
  else
    let more := (if ui > 0xff then 1 else 0) + (if ui > 0xffff then 1 else 0) +
      (if ui > 0xffffffff then 1 else 0)
    ((shiftedMajorType + Value8Bit + more) % 256) :: (put64 ui).drop (8 - 2 ^ more)

/-- `encode_number_no_update` -/
def encode_number_no_update (encoder : CborEncoder) (ui : Nat) (shiftedMajorType : Nat) :
    CborError × CborEncoder :=
  append_to_buffer encoder (encode_number_bytes ui shiftedMajorType)

/-- `saturated_decrement` -/
def saturated_decrement (encoder : CborEncoder) : CborEncoder :=
  if encoder.remaining ≠ 0 then { encoder with remaining := encoder.remaining - 1 } else encoder

/-- `encode_number` -/
def encode_number (encoder : CborEncoder) (ui : Nat) (shiftedMajorType : Nat) :
    CborError × CborEncoder :=
  encode_number_no_update (saturated_decrement encoder) ui shiftedMajorType

/-- `cbor_encode_uint` -/
def cbor_encode_uint (encoder : CborEncoder) (value : Nat) : CborError × CborEncoder :=
  encode_number encoder value (UnsignedIntegerType * 2 ^ MajorTypeShift)

/-- `cbor_encode_int`: for a negative `value` the complement `-1 - value` is
stored under major type 1. -/
def cbor_encode_int (encoder : CborEncoder) (value : Int) : CborError × CborEncoder :=
  if value < 0 then encode_number encoder (-1 - value).toNat (NegativeIntegerType * 2 ^ MajorTypeShift)
  else encode_number encoder value.toNat (UnsignedIntegerType * 2 ^ MajorTypeShift)

/-- `encode_string`: an out-of-memory error of the head does not stop the
attempt to append the payload. -/
def encode_string (encoder : CborEncoder) (length : Nat) (shiftedMajorType : Nat)
    (string : List Nat) : CborError × CborEncoder :=
  let r := encode_number encoder length shiftedMajorType
  if r.1 ≠ CborNoError ∧ r.1 ≠ CborErrorOutOfMemory then r
  else append_to_buffer r.2 string

/-- `cbor_encode_text_stringz`: `cbor_encode_text_string` with `strlen`. -/
def cbor_encode_text_stringz (encoder : CborEncoder) (string : List Nat) :
    CborError × CborEncoder :=
  encode_string encoder string.length (TextStringType * 2 ^ MajorTypeShift) string

/-- `create_container` for arrays (`cbor_encoder_create_array`): returns the
error code, the parent encoder and the new container encoder. -/
def cbor_encoder_create_array (encoder : CborEncoder) (length : Nat) :
    CborError × CborEncoder × CborEncoder :=
  let container : CborEncoder :=
    { out := encoder.out, size := encoder.size, end_null := encoder.end_null,
      bytes_needed := encoder.bytes_needed,
      remaining := (length + 1) % 2 ^ 32,
      flag_UnknownLength := false, flag_ContainerIsMap := false }
  let encoder := saturated_decrement encoder
  if length = CborIndefiniteLength then
    let r := append_byte_to_buffer { container with flag_UnknownLength := true }
      (ArrayType * 2 ^ MajorTypeShift + IndefiniteLength)
    (r.1, encoder, r.2)
  else
    let r := encode_number_no_update container length (ArrayType * 2 ^ MajorTypeShift)
    (r.1, encoder, r.2)

/-- `cbor_encoder_close_container` -/
def cbor_encoder_close_container (encoder : CborEncoder) (containerEncoder : CborEncoder) :
    CborError × CborEncoder :=
  let encoder := { encoder with out := containerEncoder.out,
                                bytes_needed := containerEncoder.bytes_needed,
                                end_null := containerEncoder.end_null }
  if containerEncoder.flag_UnknownLength then
    append_byte_to_buffer encoder BreakByte
  else if containerEncoder.remaining ≠ 1 then
    (if containerEncoder.remaining = 0 then CborErrorTooManyItems else CborErrorTooFewItems,
      encoder)
  else if encoder.end_null then (CborErrorOutOfMemory, encoder)
  else (CborNoError, encoder)

/-- `cbor_encoder_get_buffer_size` -/
def cbor_encoder_get_buffer_size (encoder : CborEncoder) : Nat := encoder.out.length

/-! ## `gble_init` (`generic_btle.c`) -/

/-- The macro `CBOR_CHECKED_RET`: when the statement did not yield
`CborNoError` the enclosing function returns (`leave`, given the state the
statement left behind), otherwise it goes on with `k`. -/
def CBOR_CHECKED_RET {σ β : Type} (stmt : CborError × σ) (leave : σ → β) (k : σ → β) : β :=
  if stmt.1 ≠ CborNoError then leave stmt.2 else k stmt.2

/-- The state of the server when `gble_init` returns: the descriptor buffer
holds what was stored through `encoder`, the feature arrays are as given. -/
def gble_init_leave (server : gble_server) (encoder : CborEncoder)
    (actuators : List gble_actuator_feature) (sensors : List gble_sensor_feature) :
    gble_server :=
  { server with
    descriptor_buffer := encoder.out ++ server.descriptor_buffer.drop encoder.out.length,
    actuators := actuators, sensors := sensors }

/-- Body of the actuator loop of `gble_init` up to and including
`cbor_encoder_close_container`.  The result is `false` when a checked call
failed and `gble_init` returns there (with the encoder through which the last
bytes were stored), otherwise `true` with `actuators_array`. -/
def gble_init_actuator_entry (actuators_array : CborEncoder)
    (actuator : gble_actuator_feature) : Bool × CborEncoder :=
  CBOR_CHECKED_RET (cbor_encoder_create_array actuators_array 5)
    (fun c => (false, c.2)) fun c =>
  CBOR_CHECKED_RET (cbor_encode_text_stringz c.2 actuator.description)
    (fun tmp => (false, tmp)) fun tmp =>
  CBOR_CHECKED_RET (cbor_encode_uint tmp actuator.feature_type)
    (fun tmp => (false, tmp)) fun tmp =>
  CBOR_CHECKED_RET (cbor_encode_uint tmp actuator.step_range_low)
    (fun tmp => (false, tmp)) fun tmp =>
  CBOR_CHECKED_RET (cbor_encode_uint tmp actuator.step_range_high)
    (fun tmp => (false, tmp)) fun tmp =>
  CBOR_CHECKED_RET (cbor_encode_uint tmp actuator.message_type)
    (fun tmp => (false, tmp)) fun tmp =>
  CBOR_CHECKED_RET (cbor_encoder_close_container c.1 tmp)
    (fun actuators_array => (false, actuators_array)) fun actuators_array =>
  (true, actuators_array)

/-- The actuator loop of `gble_init`, from index `idx` on: each feature is
encoded and then receives `id = idx`.  Returns `false` when `gble_init`
returns from inside the loop, the encoder (as in `gble_init_actuator_entry`)
and the array of features. -/
def gble_init_actuators (actuators_array : CborEncoder) (idx : Nat) :
    List gble_actuator_feature → Bool × CborEncoder × List gble_actuator_feature
  | [] => (true, actuators_array, [])
  | actuator :: rest =>
    let r := gble_init_actuator_entry actuators_array actuator
    if r.1 = false then (false, r.2, actuator :: rest) else
    let actuator := { actuator with id := idx }
    let l := gble_init_actuators r.2 (idx + 1) rest
    (l.1, l.2.1, actuator :: l.2.2)

/-- Body of the sensor loop of `gble_init` up to and including
`cbor_encoder_close_container`; the `int32_t` range bounds are passed to
`cbor_encode_uint`, whose parameter is `uint64_t`. -/
def gble_init_sensor_entry (sensors_array : CborEncoder)
    (sensor : gble_sensor_feature) : Bool × CborEncoder :=
  CBOR_CHECKED_RET (cbor_encoder_create_array sensors_array 5)
    (fun c => (false, c.2)) fun c =>
  CBOR_CHECKED_RET (cbor_encode_text_stringz c.2 sensor.description)
    (fun tmp => (false, tmp)) fun tmp =>
  CBOR_CHECKED_RET (cbor_encode_uint tmp sensor.feature_type)
    (fun tmp => (false, tmp)) fun tmp =>
  CBOR_CHECKED_RET (cbor_encode_uint tmp (to_uint64 sensor.value_range_low))
    (fun tmp => (false, tmp)) fun tmp =>
  CBOR_CHECKED_RET (cbor_encode_uint tmp (to_uint64 sensor.value_range_high))
    (fun tmp => (false, tmp)) fun tmp =>
  CBOR_CHECKED_RET (cbor_encode_uint tmp sensor.message_type)
    (fun tmp => (false, tmp)) fun tmp =>
  CBOR_CHECKED_RET (cbor_encoder_close_container c.1 tmp)
    (fun sensors_array => (false, sensors_array)) fun sensors_array =>
  (true, sensors_array)

/-- The sensor loop of `gble_init`, from index `idx` on. -/
def gble_init_sensors (sensors_array : CborEncoder) (idx : Nat) :
    List gble_sensor_feature → Bool × CborEncoder × List gble_sensor_feature
  | [] => (true, sensors_array, [])
  | sensor :: rest =>
    let r := gble_init_sensor_entry sensors_array sensor
    if r.1 = false then (false, r.2, sensor :: rest) else
    let sensor := { sensor with id := idx }
    let l := gble_init_sensors r.2 (idx + 1) rest
    (l.1, l.2.1, sensor :: l.2.2)

/-- `gble_init`.  The arrays come with their element counts
(`actuator_count = actuators.length`, `sensor_count = sensors.length`).
Returns the result and the server; the feature arrays, which the server
points to, are part of it. -/
def gble_init (server : gble_server) (name : List Nat)
    (actuators : List gble_actuator_feature) (sensors : List gble_sensor_feature) :
    Bool × gble_server :=
  let server : gble_server :=
    { server with descriptor_size := 0, name := name,
                  actuators := actuators, actuator_count := actuators.length,
                  sensors := sensors, sensors_count := sensors.length }
  let root_encoder := cbor_encoder_init 512
  CBOR_CHECKED_RET (cbor_encoder_create_array root_encoder 4)
    (fun c => (false, gble_init_leave server c.2 actuators sensors)) fun c =>
  let root_encoder := c.1
  CBOR_CHECKED_RET (cbor_encode_uint c.2 GBLE_VERSION)
    (fun e => (false, gble_init_leave server e actuators sensors)) fun root_array_encoder =>
  CBOR_CHECKED_RET (cbor_encode_text_stringz root_array_encoder name)
    (fun e => (false, gble_init_leave server e actuators sensors)) fun root_array_encoder =>
  CBOR_CHECKED_RET (cbor_encoder_create_array root_array_encoder actuators.length)
    (fun c => (false, gble_init_leave server c.2 actuators sensors)) fun c =>
  let root_array_encoder := c.1
  let l := gble_init_actuators c.2 0 actuators
  if l.1 = false then (false, gble_init_leave server l.2.1 l.2.2 sensors) else
  let actuators := l.2.2
  CBOR_CHECKED_RET (cbor_encoder_close_container root_array_encoder l.2.1)
    (fun e => (false, gble_init_leave server e actuators sensors)) fun root_array_encoder =>
  CBOR_CHECKED_RET (cbor_encoder_create_array root_array_encoder sensors.length)
    (fun c => (false, gble_init_leave server c.2 actuators sensors)) fun c =>
  let root_array_encoder := c.1
  let l := gble_init_sensors c.2 0 sensors
  if l.1 = false then (false, gble_init_leave server l.2.1 actuators l.2.2) else
  let sensors := l.2.2
  CBOR_CHECKED_RET (cbor_encoder_close_container root_array_encoder l.2.1)
    (fun e => (false, gble_init_leave server e actuators sensors)) fun root_array_encoder =>
  CBOR_CHECKED_RET (cbor_encoder_close_container root_encoder root_array_encoder)
    (fun e => (false, gble_init_leave server e actuators sensors)) fun root_encoder =>
  (true, { gble_init_leave server root_encoder actuators sensors with
             descriptor_size := cbor_encoder_get_buffer_size root_encoder })

/-- `gble_get_descriptor`: the buffer and, through the out parameter, the size. -/
def gble_get_descriptor (server : gble_server) : List Nat × Nat :=
  (server.descriptor_buffer, server.descriptor_size)

/-- The descriptor that a reader of the descriptor characteristic is given:
the first `descriptor_size` bytes of the buffer. -/
def gble_descriptor_bytes (server : gble_server) : List Nat :=
  (gble_get_descriptor server).1.take (gble_get_descriptor server).2

/-! ## TinyCBOR parser (`cborparser.c`, `cbor.h`) -/

/-- `struct CborParser`: the input, from the start of the buffer to `end`. -/
structure CborParser where
  buffer : List Nat
  deriving DecidableEq, Repr

/-- `struct CborValue`.  `ptr` is the offset of the current item from the
start of the buffer; the three flags are the bits of `flags`. -/
structure CborValue where
  parser : CborParser
  ptr : Nat
  remaining : Nat
  extra : Nat
  type : Nat
  flag_IntegerValueTooLarge : Bool
  flag_NegativeInteger : Bool
  flag_UnknownLength : Bool
  deriving DecidableEq, Repr

def CborIntegerType : Nat := 0
def CborByteStringType : Nat := 64
def CborTextStringType : Nat := 96
def CborArrayType : Nat := 128
def CborMapType : Nat := 160
def CborTagType : Nat := 192
def CborSimpleType : Nat := 224
def CborBooleanType : Nat := 245
def CborInvalidType : Nat := 255
def SimpleTypesType : Nat := 7
def Value16Bit : Nat := 25
def Value32Bit : Nat := 26
def Value64Bit : Nat := 27
def FalseValue : Nat := 20
def TrueValue : Nat := 21
def NullValue : Nat := 22
def UndefinedValue : Nat := 23
def SimpleTypeInNextByte : Nat := 24
def HalfPrecisionFloat : Nat := 25
def SinglePrecisionFloat : Nat := 26
def DoublePrecisionFloat : Nat := 27
def UINT32_MAX : Nat := 4294967295

/-- The byte at offset `p` of the input. -/
def CborParser.byte (parser : CborParser) (p : Nat) : Nat := parser.buffer.getD p 0

/-- `get16`, `get32`, `get64`: the `k` bytes from offset `p` on, read in
network byte order. -/
def CborParser.get (parser : CborParser) (p k : Nat) : Nat :=
  ((parser.buffer.drop p).take k).foldl (fun acc b => acc * 256 + b) 0

/-- `is_fixed_type` -/
def is_fixed_type (type : Nat) : Bool :=
  type ≠ CborTextStringType ∧ type ≠ CborByteStringType ∧ type ≠ CborArrayType ∧
    type ≠ CborMapType

/-- `preparse_value` -/
def preparse_value (it : CborValue) : CborError × CborValue :=
  let it := { it with type := CborInvalidType }
  if it.ptr = it.parser.buffer.length then (CborErrorUnexpectedEOF, it) else
  let byte := it.parser.byte it.ptr
  let type := byte / 32 * 32
  let descriptor := byte % 32
  let it := { it with type := type, flag_IntegerValueTooLarge := false,
                      flag_NegativeInteger := false, flag_UnknownLength := false,
                      extra := descriptor }
  if descriptor > Value64Bit then
    if descriptor ≠ IndefiniteLength then
      (if type = CborSimpleType then CborErrorUnknownType else CborErrorIllegalNumber, it)
    else if ¬ is_fixed_type type then
      (CborNoError, { it with flag_UnknownLength := true })
    else
      (if type = CborSimpleType then CborErrorUnexpectedBreak else CborErrorIllegalNumber, it)
  else
  let bytesNeeded := if descriptor < Value8Bit then 0 else 2 ^ (descriptor - Value8Bit)
  if bytesNeeded + 1 > it.parser.buffer.length - it.ptr then (CborErrorUnexpectedEOF, it) else
  let majortype := type / 2 ^ MajorTypeShift
  if majortype = SimpleTypesType then
    if descriptor = FalseValue then
      (CborNoError, { it with extra := 0, type := CborBooleanType })
    else if descriptor = SinglePrecisionFloat ∨ descriptor = DoublePrecisionFloat then
      (CborNoError, { it with flag_IntegerValueTooLarge := true, type := byte })
    else if descriptor = TrueValue ∨ descriptor = NullValue ∨ descriptor = UndefinedValue ∨
        descriptor = HalfPrecisionFloat then
      (CborNoError, { it with type := byte })
    else if descriptor = SimpleTypeInNextByte then
      if it.parser.byte (it.ptr + 1) < 32 then
        (CborErrorIllegalSimpleType,
          { it with extra := it.parser.byte (it.ptr + 1), type := CborInvalidType })
      else (CborNoError, { it with extra := it.parser.byte (it.ptr + 1) })
    else (CborNoError, it)
  else
  let it :=
    if majortype = NegativeIntegerType then
      { it with flag_NegativeInteger := true, type := CborIntegerType }
    else it
  if descriptor < Value8Bit then (CborNoError, it)
  else if descriptor = Value8Bit then
    (CborNoError, { it with extra := it.parser.byte (it.ptr + 1) })
  else if descriptor = Value16Bit then
    (CborNoError, { it with extra := it.parser.get (it.ptr + 1) 2 })
  else (CborNoError, { it with flag_IntegerValueTooLarge := true })

/-- `cbor_parser_init` -/
def cbor_parser_init (buffer : List Nat) : CborError × CborValue :=
  preparse_value
    { parser := { buffer := buffer }, ptr := 0, remaining := 1, extra := 0,
      type := CborInvalidType, flag_IntegerValueTooLarge := false,
      flag_NegativeInteger := false, flag_UnknownLength := false }

/-- `cbor_value_is_array` -/
def cbor_value_is_array (value : CborValue) : Bool := value.type = CborArrayType

/-- `cbor_value_is_integer` -/
def cbor_value_is_integer (value : CborValue) : Bool := value.type = CborIntegerType

/-- `_cbor_value_decode_int64_internal`: the 32-bit or 64-bit argument that
follows the initial byte. -/
def _cbor_value_decode_int64_internal (value : CborValue) : Nat :=
  if value.parser.byte value.ptr % 2 = Value32Bit % 2 then value.parser.get (value.ptr + 1) 4
  else value.parser.get (value.ptr + 1) 8

/-- `_cbor_value_extract_int64_helper` -/
def _cbor_value_extract_int64_helper (value : CborValue) : Nat :=
  if value.flag_IntegerValueTooLarge then _cbor_value_decode_int64_internal value
  else value.extra

/-- `cbor_value_get_array_length`; the result is a `size_t`. -/
def cbor_value_get_array_length (value : CborValue) : CborError × Nat :=
  if value.flag_UnknownLength then (CborErrorUnknownLength, 0)
  else
    let v := _cbor_value_extract_int64_helper value
    if v % 2 ^ 32 ≠ v then (CborErrorDataTooLarge, v % 2 ^ 32)
    else (CborNoError, v % 2 ^ 32)

/-- `extract_number`: moves `ptr` over the head of the current item and yields
its argument. -/
def extract_number (parser : CborParser) (ptr : Nat) : CborError × Nat × Nat :=
  let additional_information := parser.byte ptr % 32
  let ptr := ptr + 1
  if additional_information < Value8Bit then (CborNoError, ptr, additional_information)
  else if additional_information > Value64Bit then (CborErrorIllegalNumber, ptr, 0)
  else
    let bytesNeeded := 2 ^ (additional_information - Value8Bit)
    if bytesNeeded > parser.buffer.length - ptr then (CborErrorUnexpectedEOF, ptr, 0)
    else (CborNoError, ptr + bytesNeeded, parser.get ptr bytesNeeded)

/-- `preparse_next_value` -/
def preparse_next_value (it : CborValue) : CborError × CborValue :=
  if it.remaining ≠ UINT32_MAX then
    if it.type ≠ CborTagType ∧ it.remaining - 1 = 0 then
      (CborNoError, { it with remaining := it.remaining - 1, type := CborInvalidType })
    else
      preparse_value
        (if it.type ≠ CborTagType then { it with remaining := it.remaining - 1 } else it)
  else if it.ptr ≠ it.parser.buffer.length ∧ it.parser.byte it.ptr = BreakByte then
    (CborNoError, { it with ptr := it.ptr + 1, type := CborInvalidType, remaining := 0 })
  else preparse_value it

/-- `cbor_value_enter_container` for a container of known length, the only
case in which `gble_handle_actuators_changed` calls it (an array whose length
was read before). -/
def cbor_value_enter_container (it : CborValue) : CborError × CborValue :=
  let n := extract_number it.parser it.ptr
  let recursed := { it with ptr := n.2.1, remaining := n.2.2 % 2 ^ 32 }
  if recursed.remaining ≠ n.2.2 ∨ n.2.2 = UINT32_MAX then
    (CborErrorDataTooLarge, { recursed with ptr := it.ptr })
  else if recursed.type = CborMapType ∧ recursed.remaining > UINT32_MAX / 2 then
    (CborErrorDataTooLarge, { recursed with ptr := it.ptr })
  else
    let recursed :=
      if recursed.type = CborMapType then { recursed with remaining := recursed.remaining * 2 }
      else recursed
    if n.2.2 ≠ 0 then preparse_value recursed
    else (CborNoError, { recursed with type := CborInvalidType, remaining := 0 })

/-- `advance_internal` -/
def advance_internal (it : CborValue) : CborError × CborValue :=
  let n := extract_number it.parser it.ptr
  let it := { it with ptr := n.2.1 }
  let it :=
    if it.type = CborByteStringType ∨ it.type = CborTextStringType then
      { it with ptr := it.ptr + n.2.2 }
    else it
  preparse_next_value it

/-- `cbor_value_advance` for an item of fixed type, the only case in which
`gble_handle_actuators_changed` calls it (an integer). -/
def cbor_value_advance (it : CborValue) : CborError × CborValue :=
  if it.remaining = 0 then (CborErrorAdvancePastEOF, it)
  else advance_internal it

/-- Conversion to `int` (32 bits, two's complement, wrapping). -/
def to_int32 (v : Int) : Int := (v + 2 ^ 31) % 2 ^ 32 - 2 ^ 31

/-- Conversion to `uint32_t`. -/
def to_uint32 (v : Int) : Nat := (v % 2 ^ 32).toNat

/-- `cbor_value_get_int`: always `CborNoError`; the argument is cut to an
`int`, and complemented for a negative integer. -/
def cbor_value_get_int (value : CborValue) : CborError × Int :=
  let result := to_int32 (_cbor_value_extract_int64_helper value)
  if value.flag_NegativeInteger then (CborNoError, to_int32 (-result - 1))
  else (CborNoError, result)

/-! ## `gble_handle_actuators_changed` (`generic_btle.c`) -/

/-- One invocation of an actuator callback: the function called and its
arguments `(actuator_id, value, context)`. -/
structure actuator_call where
  cb : Nat
  actuator_id : Nat
  value : Nat
  context : Nat
  deriving DecidableEq, Repr

/-- `gble_handle_actuators_changed`; `buf_size` is the length of `buf`.
Returns the server and the callback invocations in the order they were made
(the callbacks are application code, which is taken not to touch the
server). -/
def gble_handle_actuators_changed (server : gble_server) (buf : List Nat) :
    gble_server × List actuator_call :=
  CBOR_CHECKED_RET (cbor_parser_init buf) (fun _ => (server, [])) fun root =>
  if ¬ cbor_value_is_array root then (server, []) else
  CBOR_CHECKED_RET (cbor_value_get_array_length root) (fun _ => (server, [])) fun array_len =>
  if array_len ≠ 2 then (server, []) else
  CBOR_CHECKED_RET (cbor_value_enter_container root) (fun _ => (server, [])) fun item =>
  if ¬ cbor_value_is_integer item then (server, []) else
  CBOR_CHECKED_RET (cbor_value_get_int item) (fun _ => (server, [])) fun int_value =>
  let actuator_id := to_uint32 int_value
  if actuator_id ≥ server.actuator_count then (server, []) else
  CBOR_CHECKED_RET (cbor_value_advance item) (fun _ => (server, [])) fun item =>
  if ¬ cbor_value_is_integer item then (server, []) else
  CBOR_CHECKED_RET (cbor_value_get_int item) (fun _ => (server, [])) fun int_value =>
  match server.actuators[actuator_id]? with
  | none => (server, [])
  | some actuator =>
    let new_value := to_uint32 int_value
    let last_value := actuator.last_value
    let calls :=
      match actuator.cb with
      | some cb =>
        if new_value ≠ last_value then
          [{ cb := cb, actuator_id := actuator_id, value := new_value,
             context := actuator.cb_context : actuator_call }]
        else []
      | none => []
    ({ server with
        actuators := server.actuators.set actuator_id { actuator with last_value := new_value } },
      calls)

/-! ## `gble_set_sensor_value` (`generic_btle.c`) -/

/-- One invocation of the sensor callback `sensor_cb(tmp_buf, buf_size,
sensor_cb_context)`: `buf` holds the first `buf_size` bytes of `tmp_buf`, the
part of the scratch buffer that the encoder has written. -/
structure sensor_call where
  cb : Nat
  buf : List Nat
  buf_size : Nat
  context : Nat
  deriving DecidableEq, Repr

/-- `gble_set_sensor_value`: the result, the server and the invocations of
the sensor callback.  `CBOR_CHECKED_RET_FALSE` returns `false` with the
server as it is at that point. -/
def gble_set_sensor_value (server : gble_server) (id : Nat) (value : Int) :
    Bool × gble_server × List sensor_call :=
  if id ≥ server.sensors_count then (false, server, []) else
  match server.sensors[id]? with
  | none => (false, server, [])
  | some sensor =>
    let server : gble_server :=
      { server with sensors := server.sensors.set id { sensor with last_value := value } }
    match server.sensor_cb with
    | none => (true, server, [])
    | some sensor_cb =>
      let root_encoder := cbor_encoder_init 512
      CBOR_CHECKED_RET (cbor_encoder_create_array root_encoder 2)
        (fun _ => (false, server, [])) fun c =>
      let root_encoder := c.1
      CBOR_CHECKED_RET (cbor_encode_uint c.2 id)
        (fun _ => (false, server, [])) fun array_encoder =>
      CBOR_CHECKED_RET (cbor_encode_int array_encoder value)
        (fun _ => (false, server, [])) fun array_encoder =>
      CBOR_CHECKED_RET (cbor_encoder_close_container root_encoder array_encoder)
        (fun _ => (false, server, [])) fun root_encoder =>
      let buf_size := cbor_encoder_get_buffer_size root_encoder
      (true, server,
        [{ cb := sensor_cb, buf := root_encoder.out, buf_size := buf_size,
           context := server.sensor_cb_context }])

/-- `gble_set_sensor_callback_fn` -/
def gble_set_sensor_callback_fn (server : gble_server) (cb : Option Nat) (cb_context : Nat) :
    gble_server :=
  { server with sensor_cb := cb, sensor_cb_context := cb_context }

/-! ## Sequences of calls (`generic_btle.h`) -/

/-- A call of one of the functions of `generic_btle.h` that may follow
`gble_init`. -/
inductive gble_call
  | handle_actuators_changed (buf : List Nat)
  | set_sensor_value (id : Nat) (value : Int)
  | set_sensor_callback_fn (cb : Option Nat) (cb_context : Nat)
  | get_descriptor
  deriving Repr

/-- The server after a call.  `gble_get_descriptor` only reads the server:
its body has no assignment to a field. -/
def gble_call.run (server : gble_server) : gble_call → gble_server
  | .handle_actuators_changed buf => (gble_handle_actuators_changed server buf).1
  | .set_sensor_value id value => (gble_set_sensor_value server id value).2.1
  | .set_sensor_callback_fn cb cb_context => gble_set_sensor_callback_fn server cb cb_context
  | .get_descriptor => server

/-- The server after a sequence of calls, made one after the other. -/
def gble_run (server : gble_server) (calls : List gble_call) : gble_server :=
  calls.foldl gble_call.run server

/-- A sequence of writes handled one after the other by
`gble_handle_actuators_changed`: the server afterwards and all callback
invocations in the order they were made. -/
def gble_handle_writes (server : gble_server) :
    List (List Nat) → gble_server × List actuator_call
  | [] => (server, [])
  | buf :: rest =>
    let r := gble_handle_actuators_changed server buf
    let r' := gble_handle_writes r.1 rest
    (r'.1, r.2 ++ r'.2)

/-- The values of a sequence that differ from their predecessor, `prev`
being the predecessor of the first. -/
def changed_values (prev : Nat) : List Nat → List Nat
  | [] => []
  | v :: rest => if v ≠ prev then v :: changed_values v rest else changed_values v rest

/-! ## GATT server (`gatt_svr.c`, `gatt_svr_priv.h`, `gatt_vars.c`) -/

/-- `CONFIG_NIMBLE_MAX_CONNECTIONS` with the value that `gatt_svr_priv.h`
gives it. -/
def CONFIG_NIMBLE_MAX_CONNECTIONS : Nat := 3

/-- `HANDLE_BATTERY_LEVEL` of `enum attr_handles`, an index into
`Svc_char_handles`. -/
def HANDLE_BATTERY_LEVEL : Nat := 0

/-- `HANDLE_MAIN_RX` of `enum attr_handles`. -/
def HANDLE_MAIN_RX : Nat := 10

/-- `HANDLE_HID_COUNT` of `enum attr_handles`, the length of
`Svc_char_handles`. -/
def HANDLE_HID_COUNT : Nat := 12

/-- `struct gatt_server`.  The callbacks are function pointers (`none` is
`NULL`); the two subscription tables are arrays of `bool` indexed by the
connection handle. -/
structure gatt_server where
  descriptor_cb : Option Nat
  descriptor_cb_context : Nat
  write_cb : Option Nat
  write_cb_context : Nat
  read_buf : List Nat
  read_buf_size : Nat
  battery_level : Nat
  conn_handle_battery_subs : List Bool
  conn_handle_read_subs : List Bool
  deriving DecidableEq, Repr

/-- The arrays of the structure have their declared sizes. -/
def gatt_server.wf (s : gatt_server) : Prop :=
  s.read_buf.length = 256 ∧
  s.conn_handle_battery_subs.length = CONFIG_NIMBLE_MAX_CONNECTIONS ∧
  s.conn_handle_read_subs.length = CONFIG_NIMBLE_MAX_CONNECTIONS

instance (s : gatt_server) : Decidable s.wf := by
  unfold gatt_server.wf
  infer_instance

/-- The global `gatt_server_instance` after the `memset` of `gatt_svr_init`:
every byte zero. -/
def gatt_server_instance : gatt_server :=
  { descriptor_cb := none, descriptor_cb_context := 0, write_cb := none, write_cb_context := 0,
    read_buf := List.replicate 256 0, read_buf_size := 0, battery_level := 0,
    conn_handle_battery_subs := List.replicate CONFIG_NIMBLE_MAX_CONNECTIONS false,
    conn_handle_read_subs := List.replicate CONFIG_NIMBLE_MAX_CONNECTIONS false }

/-- `sizeof` of an array of `uint8_t` or `bool`: one byte for each element. -/
def sizeof_array {α : Type} (x : List α) : Nat := x.length

/-- The macro `COUNT_OF`: the number of elements of an array. -/
def COUNT_OF {α : Type} (x : List α) : Nat := x.length

/-- One call `ble_gatts_notify(conn_handle, chr_val_handle)` of the NimBLE
host. -/
structure ble_gatts_notify_call where
  conn_handle : Nat
  chr_val_handle : Nat
  deriving DecidableEq, Repr

/-- The notification loop of `gatt_svr_set_read_value` and of
`gatt_svr_set_battery_level`:
`for (conn_handle = 0; conn_handle < sizeof(subs); ++conn_handle)
   if (subs[conn_handle]) ble_gatts_notify(conn_handle, chr_val_handle);`.
The result lists the calls in the order they are made. -/
def notify_subscribers (subs : List Bool) (chr_val_handle : Nat) :
    List ble_gatts_notify_call :=
  (List.range (sizeof_array subs)).foldl
    (fun sent conn_handle =>
      if subs.getD conn_handle false = true then
        sent ++ [{ conn_handle := conn_handle, chr_val_handle := chr_val_handle }]
      else sent)
    []

/-- `gatt_svr_set_read_value`; `Svc_char_handles` is the global table of
characteristic handles, which the NimBLE host fills in when the services are
registered.  Returns the result, the server and the notifications sent. -/
def gatt_svr_set_read_value (Svc_char_handles : List Nat) (s : gatt_server)
    (buf : List Nat) (buf_size : Nat) : Bool × gatt_server × List ble_gatts_notify_call :=
  if buf_size > sizeof_array s.read_buf then (false, s, [])
  else
    let s : gatt_server :=
      { s with read_buf := buf.take buf_size ++ s.read_buf.drop buf_size,
               read_buf_size := buf_size }
    (true, s, notify_subscribers s.conn_handle_read_subs (Svc_char_handles.getD HANDLE_MAIN_RX 0))

/-- `gatt_svr_set_battery_level` -/
def gatt_svr_set_battery_level (Svc_char_handles : List Nat) (s : gatt_server)
    (value : Nat) : Bool × gatt_server × List ble_gatts_notify_call :=
  if s.battery_level = value then (false, s, [])
  else
    let s : gatt_server := { s with battery_level := value }
    (true, s,
      notify_subscribers s.conn_handle_battery_subs (Svc_char_handles.getD HANDLE_BATTERY_LEVEL 0))

/-- The assignment `table[index] = flag` to an element of a C array.  An
index outside of the array has no defined behaviour: the result is `none`. -/
def array_store (table : List Bool) (index : Nat) (flag : Bool) : Option (List Bool) :=
  if index < table.length then some (table.set index flag) else none

/-- `gatt_svr_handle_subscribe`; `none` when the function stores outside of
a subscription table. -/
def gatt_svr_handle_subscribe (Svc_char_handles : List Nat) (s : gatt_server)
    (conn_handle attr_handle : Nat) (can_notify _can_indicate : Bool) : Option gatt_server :=
  if conn_handle > COUNT_OF s.conn_handle_battery_subs then some s
  else if attr_handle = Svc_char_handles.getD HANDLE_BATTERY_LEVEL 0 then
    match array_store s.conn_handle_battery_subs conn_handle can_notify with
    | none => none
    | some table => some { s with conn_handle_battery_subs := table }
  else if attr_handle = Svc_char_handles.getD HANDLE_MAIN_RX 0 then
    match array_store s.conn_handle_read_subs conn_handle can_notify with
    | none => none
    | some table => some { s with conn_handle_read_subs := table }
  else some s

/-- `gatt_svr_client_disconnected`; `none` when the function stores outside
of a subscription table. -/
def gatt_svr_client_disconnected (s : gatt_server) (conn_handle : Nat) : Option gatt_server :=
  if conn_handle > COUNT_OF s.conn_handle_battery_subs then some s
  else
    match array_store s.conn_handle_battery_subs conn_handle false with
    | none => none
    | some battery_subs =>
      match array_store s.conn_handle_read_subs conn_handle false with
      | none => none
      | some read_subs =>
        some { s with conn_handle_battery_subs := battery_subs,
                      conn_handle_read_subs := read_subs }

/-- `gatt_svr_set_read_value_ctx`, the wrapper that `main.c` registers as
sensor callback. -/
def gatt_svr_set_read_value_ctx (Svc_char_handles : List Nat) (s : gatt_server)
    (buf : List Nat) (buf_size : Nat) (_context : Nat) :
    gatt_server × List ble_gatts_notify_call :=
  (gatt_svr_set_read_value Svc_char_handles s buf buf_size).2

/-- The invocations of the sensor callback carried out by the function that
`main.c` registers for it, one after the other: the server of the GATT layer
afterwards and all notifications sent. -/
def run_sensor_calls (Svc_char_handles : List Nat) (s : gatt_server) :
    List sensor_call → gatt_server × List ble_gatts_notify_call
  | [] => (s, [])
  | call :: rest =>
    let r := gatt_svr_set_read_value_ctx Svc_char_handles s call.buf call.buf_size call.context
    let r' := run_sensor_calls Svc_char_handles r.1 rest
    (r'.1, r.2 ++ r'.2)

/-! ## Characteristic access (`gatt_svr_chr_access`, `gatt_svr.c`) -/

/-- `GATT_UUID_GBLE_FIRMWARE_CHR` -/
def GATT_UUID_GBLE_FIRMWARE_CHR : Nat := 0xffe1

/-- `GATT_UUID_GBLE_RX_CHR` -/
def GATT_UUID_GBLE_RX_CHR : Nat := 0xffe2

/-- `GATT_UUID_GBLE_TX_CHR` -/
def GATT_UUID_GBLE_TX_CHR : Nat := 0xffe3

/-- `BLE_GATT_ACCESS_OP_READ_CHR` of the NimBLE host. -/
def BLE_GATT_ACCESS_OP_READ_CHR : Nat := 0

/-- `BLE_GATT_ACCESS_OP_WRITE_CHR` of the NimBLE host. -/
def BLE_GATT_ACCESS_OP_WRITE_CHR : Nat := 1

/-- `BLE_ATT_ERR_INVALID_ATTR_VALUE_LEN` -/
def BLE_ATT_ERR_INVALID_ATTR_VALUE_LEN : Nat := 0x0d

/-- `BLE_ATT_ERR_UNLIKELY` -/
def BLE_ATT_ERR_UNLIKELY : Nat := 0x0e

/-- `BLE_ATT_ERR_INSUFFICIENT_RES` -/
def BLE_ATT_ERR_INSUFFICIENT_RES : Nat := 0x11

/-- `BLE_HS_EMSGSIZE` -/
def BLE_HS_EMSGSIZE : Nat := 4

/-- What `gatt_svr_chr_access` uses of `struct ble_gatt_access_ctxt`: the
operation, the 16-bit UUID of the characteristic (`ble_uuid_u16`) and the
bytes of the mbuf chain `om`. -/
structure ble_gatt_access_ctxt where
  op : Nat
  uuid16 : Nat
  om : List Nat
  deriving DecidableEq, Repr

/-- One invocation `write_cb(scratch, flat_len, write_cb_context)` of the
write callback; `buf` holds the first `buf_size` bytes of `scratch`. -/
structure write_call where
  cb : Nat
  buf : List Nat
  buf_size : Nat
  context : Nat
  deriving DecidableEq, Repr

/-- `ble_hs_mbuf_to_flat(om, flat, max_len, &out_copy_len)`: the return code,
the bytes copied and their number. -/
def ble_hs_mbuf_to_flat (om : List Nat) (max_len : Nat) : Nat × List Nat × Nat :=
  if om.length > max_len then (BLE_HS_EMSGSIZE, [], 0) else (0, om, om.length)

/-- `gatt_svr_chr_access`.  The parameters `os_mbuf_append` and
`descriptor_cb` stand for code outside of the program: the function of the
host that appends `len` bytes of `data` to an mbuf chain and returns its
return code with the chain, and the call through the function pointer
`descriptor_cb` with its context, which returns a buffer and, through the out
parameter, a size.  Returns the return code, the mbuf chain and the
invocations of the write callback. -/
def gatt_svr_chr_access (os_mbuf_append : List Nat → List Nat → Nat → Nat × List Nat)
    (descriptor_cb : Nat → Nat → List Nat × Nat) (s : gatt_server)
    (ctxt : ble_gatt_access_ctxt) : Nat × List Nat × List write_call :=
  let uuid16 := ctxt.uuid16
  if uuid16 = GATT_UUID_GBLE_FIRMWARE_CHR ∨ uuid16 = GATT_UUID_GBLE_RX_CHR then
    if ctxt.op ≠ BLE_GATT_ACCESS_OP_READ_CHR then (BLE_ATT_ERR_UNLIKELY, ctxt.om, [])
    else
      let resp : List Nat × Nat :=
        match (if uuid16 = GATT_UUID_GBLE_FIRMWARE_CHR then s.descriptor_cb else none) with
        | some cb => descriptor_cb cb s.descriptor_cb_context
        | none =>
          if uuid16 = GATT_UUID_GBLE_RX_CHR then (s.read_buf, s.read_buf_size) else ([], 0)
      if resp.2 > 0 then
        let r := os_mbuf_append ctxt.om resp.1 resp.2
        if r.1 ≠ 0 then (BLE_ATT_ERR_INSUFFICIENT_RES, r.2, []) else (0, r.2, [])
      else (0, ctxt.om, [])
  else if uuid16 = GATT_UUID_GBLE_TX_CHR then
    if ctxt.op ≠ BLE_GATT_ACCESS_OP_WRITE_CHR then (BLE_ATT_ERR_UNLIKELY, ctxt.om, [])
    else
      match s.write_cb with
      | some write_cb =>
        let om_len := ctxt.om.length
        if om_len > 256 then (BLE_ATT_ERR_INVALID_ATTR_VALUE_LEN, ctxt.om, [])
        else
          let r := ble_hs_mbuf_to_flat ctxt.om 256
          if r.1 ≠ 0 then (BLE_ATT_ERR_UNLIKELY, ctxt.om, [])
          else
            (0, ctxt.om,
              [{ cb := write_cb, buf := r.2.1, buf_size := r.2.2,
                 context := s.write_cb_context }])
      | none => (0, ctxt.om, [])
  else (BLE_ATT_ERR_UNLIKELY, ctxt.om, [])

/-- An `os_mbuf_append` that has the memory it needs: the bytes are appended
and the return code is 0. -/
def os_mbuf_append_ok (om : List Nat) (data : List Nat) (len : Nat) : Nat × List Nat :=
  (0, om ++ data.take len)

/-! ## Sequences of events at the GATT layer -/

/-- `gatt_svr_init`: the `memset` of the global server, followed by the
registration of the services with the NimBLE host, whose four return codes
are parameters; the first of them that is not 0 is returned. -/
def gatt_svr_init (_s : gatt_server)
    (rc_count_included rc_add_included rc_count_user rc_add_user : Int) :
    Int × gatt_server :=
  let s := gatt_server_instance
  if rc_count_included ≠ 0 then (rc_count_included, s)
  else if rc_add_included ≠ 0 then (rc_add_included, s)
  else if rc_count_user ≠ 0 then (rc_count_user, s)
  else if rc_add_user ≠ 0 then (rc_add_user, s)
  else (0, s)

/-- An event that reaches the GATT layer: a subscribe event of the host, a
disconnect, a publish on the read or on the battery channel, or a call of
`gble_set_sensor_value` on a server whose sensor callback is
`gatt_svr_set_read_value_ctx`, as in `main.c`. -/
inductive gatt_event
  | subscribe (conn_handle attr_handle : Nat) (can_notify can_indicate : Bool)
  | client_disconnected (conn_handle : Nat)
  | set_read_value (buf : List Nat) (buf_size : Nat)
  | set_battery_level (value : Nat)
  | set_sensor_value (server : gble_server) (id : Nat) (value : Int)

/-- The server of the GATT layer after an event; `none` when a store went
outside of a subscription table. -/
def gatt_event.run (Svc_char_handles : List Nat) (s : gatt_server) :
    gatt_event → Option gatt_server
  | .subscribe conn_handle attr_handle can_notify can_indicate =>
    gatt_svr_handle_subscribe Svc_char_handles s conn_handle attr_handle can_notify can_indicate
  | .client_disconnected conn_handle => gatt_svr_client_disconnected s conn_handle
  | .set_read_value buf buf_size => some (gatt_svr_set_read_value Svc_char_handles s buf buf_size).2.1
  | .set_battery_level value => some (gatt_svr_set_battery_level Svc_char_handles s value).2.1
  | .set_sensor_value server id value =>
    some (run_sensor_calls Svc_char_handles s (gble_set_sensor_value server id value).2.2).1

/-- The server of the GATT layer after a sequence of events. -/
def gatt_run (Svc_char_handles : List Nat) (s : gatt_server) :
    List gatt_event → Option gatt_server
  | [] => some s
  | e :: rest =>
    match e.run Svc_char_handles s with
    | none => none
    | some s' => gatt_run Svc_char_handles s' rest

/-- The connection id of an event lies below
`CONFIG_NIMBLE_MAX_CONNECTIONS`. -/
def gatt_event.conn_in_range : gatt_event → Prop
  | .subscribe conn_handle _ _ _ => conn_handle < CONFIG_NIMBLE_MAX_CONNECTIONS
  | .client_disconnected conn_handle => conn_handle < CONFIG_NIMBLE_MAX_CONNECTIONS
  | _ => True

/-- The two channels with subscriptions. -/
inductive gatt_channel
  | battery
  | read
  deriving DecidableEq, Repr

/-- The handle of the characteristic of a channel. -/
def gatt_channel.handle (Svc_char_handles : List Nat) : gatt_channel → Nat
  | .battery => Svc_char_handles.getD HANDLE_BATTERY_LEVEL 0
  | .read => Svc_char_handles.getD HANDLE_MAIN_RX 0

/-- The subscription table of a channel. -/
def gatt_channel.table (s : gatt_server) : gatt_channel → List Bool
  | .battery => s.conn_handle_battery_subs
  | .read => s.conn_handle_read_subs

/-- The event is a subscribe or a disconnect that concerns the pair
`(channel, c)`: a subscribe of connection `c` with the handle of the
channel, or a disconnect of `c`. -/
def gatt_event.concerns (Svc_char_handles : List Nat) (channel : gatt_channel) (c : Nat) :
    gatt_event → Bool
  | .subscribe conn_handle attr_handle _ _ =>
    decide (conn_handle = c ∧ attr_handle = channel.handle Svc_char_handles)
  | .client_disconnected conn_handle => decide (conn_handle = c)
  | _ => false

/-- The event is a subscribe with `notify = true`. -/
def gatt_event.subscribes : gatt_event → Bool
  | .subscribe _ _ can_notify _ => can_notify
  | _ => false

/-- The subscription state that the protocol prescribes after a sequence of
events: subscribed exactly when the most recent event that concerns
`(channel, c)` is a subscribe with `notify = true`; `initial` when no event
concerns the pair. -/
def subscribed_after (Svc_char_handles : List Nat) (channel : gatt_channel) (c : Nat)
    (initial : Bool) (events : List gatt_event) : Bool :=
  match events.reverse.find? (gatt_event.concerns Svc_char_handles channel c) with
  | some e => e.subscribes
  | none => initial

/-! ## CBOR data items (RFC 8949)

The part of the CBOR data model that the protocol uses, with its
serialisation written after RFC 8949 section 3 (shortest form of every head). -/

/-- A CBOR data item: unsigned integer (major type 0), negative integer
`-1 - n` (major type 1), text string (major type 3), definite-length array
(major type 4). -/
inductive CborItem
  | uint (n : Nat)
  | nint (n : Nat)
  | text (s : List Nat)
  | array (items : List CborItem)
  deriving Repr

/-- The low `k` bytes of `v` in network byte order. -/
def be_bytes : Nat → Nat → List Nat
  | 0, _ => []
  | k + 1, v => be_bytes k (v / 256) ++ [v % 256]

/-- Head of a data item: major type and argument, the argument in the
shortest of the forms 0, 1, 2, 4 or 8 following bytes. -/
def cbor_head (major arg : Nat) : List Nat :=
  if arg < 24 then [major * 32 + arg]
  else if arg < 2 ^ 8 then (major * 32 + 24) :: be_bytes 1 arg
  else if arg < 2 ^ 16 then (major * 32 + 25) :: be_bytes 2 arg
  else if arg < 2 ^ 32 then (major * 32 + 26) :: be_bytes 4 arg
  else (major * 32 + 27) :: be_bytes 8 arg

mutual
/-- Serialisation of a data item. -/
def CborItem.encode : CborItem → List Nat
  | .uint n => cbor_head 0 n
  | .nint n => cbor_head 1 n
  | .text s => cbor_head 3 s.length ++ s
  | .array items => cbor_head 4 items.length ++ CborItem.encodeList items
/-- Concatenated serialisation of a sequence of data items. -/
def CborItem.encodeList : List CborItem → List Nat
  | [] => []
  | x :: xs => x.encode ++ CborItem.encodeList xs
end

/-- The signed integer `v` as a data item. -/
def CborItem.int (v : Int) : CborItem :=
  if v < 0 then .nint (-1 - v).toNat else .uint v.toNat

/-- Descriptor entry of an actuator:
`[description, feature_type, step_low, step_high, message_type]`. -/
def actuator_item (a : gble_actuator_feature) : CborItem :=
  .array [.text a.description, .uint a.feature_type, .uint a.step_range_low,
          .uint a.step_range_high, .uint a.message_type]

/-- Descriptor entry of a sensor in the wire format of the protocol:
`[description, feature_type, value_low, value_high, message_type]` with the
range bounds as signed integers. -/
def sensor_item (s : gble_sensor_feature) : CborItem :=
  .array [.text s.description, .uint s.feature_type, .int s.value_range_low,
          .int s.value_range_high, .uint s.message_type]

/-- Descriptor entry of a sensor with the range bounds as the unsigned 64-bit
values that `gble_init` hands to the encoder. -/
def sensor_item_unsigned (s : gble_sensor_feature) : CborItem :=
  .array [.text s.description, .uint s.feature_type, .uint (to_uint64 s.value_range_low),
          .uint (to_uint64 s.value_range_high), .uint s.message_type]

/-- The descriptor `[version, device_name, actuators, sensors]` with the given
entries. -/
def descriptor_of (name : List Nat) (actuator_entries sensor_entries : List CborItem) :
    CborItem :=
  .array [.uint GBLE_VERSION, .text name, .array actuator_entries, .array sensor_entries]

/-- The descriptor of the protocol for a device name and the feature lists,
`[version, device_name, actuators, sensors]` in the wire format: the range
bounds of the sensors are signed integers. -/
def descriptor_item (name : List Nat) (actuators : List gble_actuator_feature)
    (sensors : List gble_sensor_feature) : CborItem :=
  descriptor_of name (actuators.map actuator_item) (sensors.map sensor_item)

/-- The data item whose serialisation `gble_init` stores, a description of
the code and not of the protocol: the sensor entries carry the range bounds as
the unsigned 64-bit values that the code hands to `cbor_encode_uint`.  It is
`descriptor_item` when no sensor has a bound below zero. -/
def emitted_descriptor_item (name : List Nat) (actuators : List gble_actuator_feature)
    (sensors : List gble_sensor_feature) : CborItem :=
  descriptor_of name (actuators.map actuator_item) (sensors.map sensor_item_unsigned)

/-- Ids in list order starting from `idx`. -/
def assign_actuator_ids (idx : Nat) : List gble_actuator_feature → List gble_actuator_feature
  | [] => []
  | a :: rest => { a with id := idx } :: assign_actuator_ids (idx + 1) rest

/-- Ids in list order starting from `idx`. -/
def assign_sensor_ids (idx : Nat) : List gble_sensor_feature → List gble_sensor_feature
  | [] => []
  | s :: rest => { s with id := idx } :: assign_sensor_ids (idx + 1) rest

/-- Value of a byte sequence in network byte order. -/
def be_value (bs : List Nat) : Nat := bs.foldl (fun acc b => acc * 256 + b) 0

/-- Reads the head of a data item (RFC 8949 section 3): the major type, the
argument and the bytes that follow the head.  Additional information 28 to 31
has no argument and is refused here. -/
def cbor_decode_head : List Nat → Option (Nat × Nat × List Nat)
  | [] => none
  | b :: rest =>
    if 256 ≤ b then none
    else if b % 32 < 24 then some (b / 32, b % 32, rest)
    else if 27 < b % 32 then none
    else if rest.length < 2 ^ (b % 32 - 24) then none
    else some (b / 32, be_value (rest.take (2 ^ (b % 32 - 24))), rest.drop (2 ^ (b % 32 - 24)))

mutual
/-- Positional decoder for the data items of `CborItem`: reads one item from
the front of the input and returns it with the bytes that follow it.  `fuel`
bounds the number of nested calls. -/
def cbor_decode : Nat → List Nat → Option (CborItem × List Nat)
  | 0, _ => none
  | fuel + 1, bs =>
    match cbor_decode_head bs with
    | none => none
    | some (major, arg, rest) =>
      if major = 0 then some (.uint arg, rest)
      else if major = 1 then some (.nint arg, rest)
      else if major = 3 then
        if rest.length < arg then none else some (.text (rest.take arg), rest.drop arg)
      else if major = 4 then
        match cbor_decode_list fuel arg rest with
        | none => none
        | some (items, rest) => some (.array items, rest)
      else none
/-- Reads `count` items one after the other. -/
def cbor_decode_list : Nat → Nat → List Nat → Option (List CborItem × List Nat)
  | 0, _, _ => none
  | _ + 1, 0, bs => some ([], bs)
  | fuel + 1, count + 1, bs =>
    match cbor_decode fuel bs with
    | none => none
    | some (x, rest) =>
      match cbor_decode_list fuel count rest with
      | none => none
      | some (xs, rest) => some (x :: xs, rest)
end

/-- The integer that a data item of major type 0 or 1 stands for. -/
def CborItem.toInt : CborItem → Option Int
  | .uint n => some (n : Int)
  | .nint n => some (-1 - (n : Int))
  | _ => none

/-- What a controller reads from one descriptor entry: feature type, range
and message type. -/
structure feature_summary where
  feature_type : Int
  low : Int
  high : Int
  message_type : Int
  deriving DecidableEq, Repr

/-- Positional reading of a descriptor entry
`[description, feature_type, low, high, message_type]`. -/
def decode_entry : CborItem → Option feature_summary
  | .array [.text _, t, lo, hi, m] =>
    match t.toInt, lo.toInt, hi.toInt, m.toInt with
    | some t, some lo, some hi, some m =>
      some { feature_type := t, low := lo, high := hi, message_type := m }
    | _, _, _, _ => none
  | _ => none

/-- Positional reading of all entries of a feature array. -/
def decode_entries : List CborItem → Option (List feature_summary)
  | [] => some []
  | x :: xs =>
    match decode_entry x, decode_entries xs with
    | some e, some es => some (e :: es)
    | _, _ => none

/-- Positional decoder of a descriptor
`[version, device_name, actuators, sensors]`: the summaries of the actuators
and of the sensors, in order. -/
def decode_descriptor (bytes : List Nat) :
    Option (List feature_summary × List feature_summary) :=
  match cbor_decode (bytes.length + 1) bytes with
  | some (.array [.uint _, .text _, .array actuators, .array sensors], []) =>
    match decode_entries actuators, decode_entries sensors with
    | some a, some s => some (a, s)
    | _, _ => none
  | _ => none

/-- Summary of a registered actuator. -/
def actuator_summary (a : gble_actuator_feature) : feature_summary :=
  { feature_type := a.feature_type, low := a.step_range_low, high := a.step_range_high,
    message_type := a.message_type }

/-- Summary of a registered sensor. -/
def sensor_summary (s : gble_sensor_feature) : feature_summary :=
  { feature_type := s.feature_type, low := s.value_range_low, high := s.value_range_high,
    message_type := s.message_type }

/-- The integer of a head of major type 0 (`arg`) or 1 (`-1 - arg`). -/
def head_int (major arg : Nat) : Int :=
  if major = 1 then -1 - (arg : Int) else (arg : Int)

/-- Decoding of an actuator-change message as the protocol describes it:
the input must start with the head of a definite-length array of two
elements, followed by two complete integer items (major type 0 or 1), the
actuator id and the value.  Any other shape - not an array, another element
count, indefinite length, a non-integer element, a truncated buffer - is a
decode error.  Bytes after the second integer are not looked at. -/
def decode_actuator_change (bytes : List Nat) : Option (Int × Int) :=
  match cbor_decode_head bytes with
  | none => none
  | some (major, count, r1) =>
    if major = 4 ∧ count = 2 then
      match cbor_decode_head r1 with
      | none => none
      | some (m1, x, r2) =>
        if m1 = 0 ∨ m1 = 1 then
          match cbor_decode_head r2 with
          | none => none
          | some (m2, y, _) =>
            if m2 = 0 ∨ m2 = 1 then some (head_int m1 x, head_int m2 y) else none
        else none
    else none

/-- An actuator message read the way RFC 8949 defines a well-formed data
item: the whole input is one definite-length array of two integers, with no
byte left over. -/
def decode_actuator_message (bytes : List Nat) : Option (Int × Int) :=
  match cbor_decode (bytes.length + 1) bytes with
  | some (.array [id, value], []) =>
    match id.toInt, value.toInt with
    | some id, some value => some (id, value)
    | _, _ => none
  | _ => none

/-- What `gble_handle_actuators_changed` does with a decoded message: the id
is checked against `actuator_count`; the callback, if there is one, is called
when the value differs from `last_value`; `last_value` is set. -/
def apply_actuator_change (server : gble_server) (actuator_id new_value : Nat) :
    gble_server × List actuator_call :=
  if actuator_id ≥ server.actuator_count then (server, [])
  else
    match server.actuators[actuator_id]? with
    | none => (server, [])
    | some actuator =>
      ({ server with
          actuators :=
            server.actuators.set actuator_id { actuator with last_value := new_value } },
       match actuator.cb with
       | some cb =>
         if new_value ≠ actuator.last_value then
           [{ cb := cb, actuator_id := actuator_id, value := new_value,
              context := actuator.cb_context : actuator_call }]
         else []
       | none => [])

/-- The sensor message of the protocol, `[sensor_id, value]`: the id an
unsigned integer, the value a signed one. -/
def sensor_value_item (id : Nat) (value : Int) : CborItem :=
  .array [.uint id, .int value]

/-- Positional decoder of a sensor message `[sensor_id, value]`: a
definite-length array of two integers and nothing after it. -/
def decode_sensor_value (bytes : List Nat) : Option (Int × Int) :=
  match cbor_decode (bytes.length + 1) bytes with
  | some (.array [id, value], []) =>
    match id.toInt, value.toInt with
    | some id, some value => some (id, value)
    | _, _ => none
  | _ => none

/-- Positional reading of the head of a descriptor
`[version, device_name, actuators, sensors]`: the version, the device name
and the numbers of actuator and sensor entries. -/
def decode_descriptor_header (bytes : List Nat) : Option (Nat × List Nat × Nat × Nat) :=
  match cbor_decode (bytes.length + 1) bytes with
  | some (.array [.uint version, .text name, .array actuators, .array sensors], []) =>
    some (version, name, actuators.length, sensors.length)
  | _ => none

/-- The server keeps the element count of its arrays, and the values lie in
the ranges of their C types. -/
def gble_server.wf (server : gble_server) : Prop :=
  server.actuator_count = server.actuators.length ∧
  server.sensors_count = server.sensors.length ∧
  server.actuator_count < 2 ^ 32 ∧ server.sensors_count < 2 ^ 32 ∧
  (∀ a ∈ server.actuators, a.wf) ∧ (∀ s ∈ server.sensors, s.wf)

/-! ## The reference device of `main.c` -/

/-- The zero-initialised global `gble_server_instance`. -/
def gble_server_instance : gble_server :=
  { descriptor_buffer := List.replicate 512 0, descriptor_size := 0, name := [],
    actuators := [], actuator_count := 0, sensors := [], sensors_count := 0,
    sensor_cb := none, sensor_cb_context := 0 }

/-- The address of `handle_actuator_change`. -/
def handle_actuator_change : Nat := 1

/-- The string "Generic Device". -/
def main_name : List Nat := [71, 101, 110, 101, 114, 105, 99, 32, 68, 101, 118, 105, 99, 101]

/-- The array `actuators` of `main.c` ("Actuator 1", "Actuator 2"). -/
def main_actuators : List gble_actuator_feature :=
  [ { description := [65, 99, 116, 117, 97, 116, 111, 114, 32, 49], feature_type := 1,
      step_range_low := 0, step_range_high := 20, message_type := 1,
      cb := some handle_actuator_change, cb_context := 0, id := 0, last_value := 0 },
    { description := [65, 99, 116, 117, 97, 116, 111, 114, 32, 50], feature_type := 1,
      step_range_low := 0, step_range_high := 20, message_type := 1,
      cb := some handle_actuator_change, cb_context := 0, id := 0, last_value := 0 } ]

/-- The array `sensors` of `main.c` ("Sensor 1", "State 1"). -/
def main_sensors : List gble_sensor_feature :=
  [ { description := [83, 101, 110, 115, 111, 114, 32, 49], feature_type := 4,
      value_range_low := 0, value_range_high := 16, message_type := 2,
      id := 0, last_value := 0 },
    { description := [83, 116, 97, 116, 101, 32, 49], feature_type := 3,
      value_range_low := 0, value_range_high := 2, message_type := 2,
      id := 0, last_value := 0 } ]

/-- A sensor whose range starts below zero. -/
def sensor_negative_range : gble_sensor_feature :=
  { description := [84], feature_type := 4, value_range_low := -1, value_range_high := 2,
    message_type := 1, id := 0, last_value := 0 }

/-- A sensor whose range lies below zero, `[-20, -1]`. -/
def sensor_below_zero : gble_sensor_feature :=
  { description := [84], feature_type := 4, value_range_low := -20, value_range_high := -1,
    message_type := 1, id := 0, last_value := 0 }

/-- The server that `gble_init` leaves for the reference device of `main.c`. -/
def main_server : gble_server :=
  (gble_init gble_server_instance main_name main_actuators main_sensors).2

/-- The address of `gatt_svr_set_read_value_ctx`, which `main.c` registers as
sensor callback. -/
def gatt_svr_set_read_value_ctx_ptr : Nat := 2

/-- The server of `main.c` after `gble_set_sensor_callback_fn`. -/
def main_server_wired : gble_server :=
  gble_set_sensor_callback_fn main_server (some gatt_svr_set_read_value_ctx_ptr) 0

/-- A table of characteristic handles as the host assigns them: distinct
attribute handles for the characteristics. -/
def main_Svc_char_handles : List Nat := [12, 16, 18, 20, 22, 24, 26, 28, 30, 33, 35, 38]

/-- A server of the GATT layer on which the connections 0 and 2 are subscribed
to the read channel and connection 1 to the battery channel. -/
def gatt_server_subscribed : gatt_server :=
  { gatt_server_instance with
    conn_handle_battery_subs := [false, true, false],
    conn_handle_read_subs := [true, false, true] }

/-- A server of the GATT layer on which every connection is subscribed to
both channels. -/
def gatt_server_all_subscribed : gatt_server :=
  { gatt_server_instance with
    conn_handle_battery_subs := [true, true, true],
    conn_handle_read_subs := [true, true, true] }

/-- A server of the GATT layer on which only connection 0 is subscribed to
the read channel. -/
def gatt_server_one_reader : gatt_server :=
  { gatt_server_instance with conn_handle_read_subs := [true, false, false] }

/-! ## Properties of the encoder -/

theorem saturated_decrement_eq (e : CborEncoder) :
    saturated_decrement e = { e with remaining := e.remaining - 1 } := by
  unfold saturated_decrement
  split
  · rfl
  · rename_i h
    have h0 : e.remaining = 0 := by simpa using h
    cases e
    simp_all

theorem append_to_buffer_fits (e : CborEncoder) (d : List Nat) (hn : e.end_null = false)
    (hfit : e.out.length + d.length ≤ e.size) :
    append_to_buffer e d = (CborNoError, { e with out := e.out ++ d }) := by
  unfold append_to_buffer would_overflow
  simp [hn]
  omega

theorem append_to_buffer_ok_iff (e : CborEncoder) (d : List Nat) (hn : e.end_null = false) :
    (append_to_buffer e d).1 = CborNoError ↔ e.out.length + d.length ≤ e.size := by
  unfold append_to_buffer would_overflow
  simp only [hn]
  by_cases h : e.size < e.out.length + d.length
  · simp [h]
  · simp [h]; omega

theorem append_to_buffer_end_null (e : CborEncoder) (d : List Nat) (hn : e.end_null = true)
    (hb : 0 < e.bytes_needed) : (append_to_buffer e d).1 = CborErrorOutOfMemory := by
  unfold append_to_buffer would_overflow
  simp [hn, hb]

theorem append_to_buffer_overflow (e : CborEncoder) (d : List Nat) (hn : e.end_null = false)
    (hle : e.out.length ≤ e.size) (h : e.size < e.out.length + d.length) :
    (append_to_buffer e d).1 = CborErrorOutOfMemory ∧
    (append_to_buffer e d).2.end_null = true ∧ 0 < (append_to_buffer e d).2.bytes_needed ∧
    (append_to_buffer e d).2.out = e.out := by
  unfold append_to_buffer would_overflow
  simp only [hn, h, decide_True, if_true, Bool.false_eq_true, if_false, and_true, true_and]
  omega

theorem encode_number_bytes_eq (ui major : Nat) (hm : major < 8) :
    encode_number_bytes ui (major * 2 ^ MajorTypeShift) = cbor_head major ui := by
  unfold encode_number_bytes cbor_head Value8Bit MajorTypeShift put64
  norm_num
  split_ifs <;> simp [be_bytes, Nat.div_div_eq_div_mul] <;> omega

theorem append_to_buffer_eq (e : CborEncoder) (d : List Nat) (hn : e.end_null = false) :
    append_to_buffer e d =
      if e.out.length + d.length ≤ e.size then (CborNoError, { e with out := e.out ++ d })
      else (CborErrorOutOfMemory,
        { e with end_null := true, bytes_needed := d.length - (e.size - e.out.length) }) := by
  unfold append_to_buffer would_overflow
  simp only [hn]
  by_cases h : e.size < e.out.length + d.length
  · have h2 : ¬ e.out.length + d.length ≤ e.size := by omega
    simp [h, h2]
  · have h2 : e.out.length + d.length ≤ e.size := by omega
    simp [h, h2]

theorem cbor_encode_uint_eq (e : CborEncoder) (v : Nat) (hn : e.end_null = false) :
    cbor_encode_uint e v =
      if e.out.length + (cbor_head 0 v).length ≤ e.size then
        (CborNoError, { e with out := e.out ++ cbor_head 0 v, remaining := e.remaining - 1 })
      else
        (CborErrorOutOfMemory,
          { e with remaining := e.remaining - 1, end_null := true,
                   bytes_needed := (cbor_head 0 v).length - (e.size - e.out.length) }) := by
  unfold cbor_encode_uint encode_number encode_number_no_update
  rw [saturated_decrement_eq, encode_number_bytes_eq _ _ (by unfold UnsignedIntegerType; omega),
    append_to_buffer_eq _ _ (by simpa using hn)]
  rfl

theorem cbor_head_length_pos (major arg : Nat) : 0 < (cbor_head major arg).length := by
  unfold cbor_head
  split_ifs <;> simp

theorem cbor_head_length_le (major arg : Nat) : (cbor_head major arg).length ≤ 9 := by
  unfold cbor_head
  split_ifs <;> simp [be_bytes]

/-- The encoder after `cbor_encode_text_stringz` ran out of buffer space. -/
def text_overflow (e : CborEncoder) (s : List Nat) : CborEncoder :=
  if e.out.length + (cbor_head 3 s.length).length ≤ e.size then
    { e with out := e.out ++ cbor_head 3 s.length, remaining := e.remaining - 1,
             end_null := true,
             bytes_needed := s.length - (e.size - (e.out ++ cbor_head 3 s.length).length) }
  else
    { e with remaining := e.remaining - 1, end_null := true,
             bytes_needed := (cbor_head 3 s.length).length - (e.size - e.out.length) + s.length }

theorem cbor_encode_text_stringz_eq (e : CborEncoder) (s : List Nat) (hn : e.end_null = false) :
    cbor_encode_text_stringz e s =
      if e.out.length + (cbor_head 3 s.length ++ s).length ≤ e.size then
        (CborNoError,
          { e with out := e.out ++ (cbor_head 3 s.length ++ s), remaining := e.remaining - 1 })
      else
        (CborErrorOutOfMemory, text_overflow e s) := by
  unfold cbor_encode_text_stringz encode_string encode_number encode_number_no_update
    text_overflow
  rw [saturated_decrement_eq, encode_number_bytes_eq _ _ (by unfold TextStringType; omega),
    append_to_buffer_eq _ _ (by simpa using hn)]
  unfold TextStringType
  by_cases h1 : e.out.length + (cbor_head 3 s.length).length ≤ e.size
  · simp only [h1, if_true, ne_eq, not_true_eq_false, false_and, if_false]
    rw [append_to_buffer_eq _ _ (by simpa using hn)]
    simp only [List.length_append, List.append_assoc, Nat.add_assoc]
  · have h2 : ¬ e.out.length + (cbor_head 3 s.length ++ s).length ≤ e.size := by
      simp; omega
    simp only [h1, h2, if_false, ne_eq, not_true_eq_false, and_false]
    unfold append_to_buffer would_overflow
    have hp := cbor_head_length_pos 3 s.length
    have : 0 < (cbor_head 3 s.length).length - (e.size - e.out.length) + s.length := by omega
    simp [this]

theorem cbor_encoder_create_array_eq (e : CborEncoder) (n : Nat) (hn : e.end_null = false)
    (hlen : n ≠ SIZE_MAX) :
    cbor_encoder_create_array e n =
      if e.out.length + (cbor_head 4 n).length ≤ e.size then
        (CborNoError, { e with remaining := e.remaining - 1 },
          { out := e.out ++ cbor_head 4 n, size := e.size, end_null := false,
            bytes_needed := e.bytes_needed, remaining := (n + 1) % 2 ^ 32,
            flag_UnknownLength := false, flag_ContainerIsMap := false })
      else
        (CborErrorOutOfMemory, { e with remaining := e.remaining - 1 },
          { out := e.out, size := e.size, end_null := true,
            bytes_needed := (cbor_head 4 n).length - (e.size - e.out.length),
            remaining := (n + 1) % 2 ^ 32,
            flag_UnknownLength := false, flag_ContainerIsMap := false }) := by
  unfold cbor_encoder_create_array encode_number_no_update CborIndefiniteLength
  simp only [hlen, if_false]
  rw [saturated_decrement_eq, encode_number_bytes_eq _ _ (by unfold ArrayType; omega),
    append_to_buffer_eq _ _ (by simpa using hn)]
  unfold ArrayType
  split_ifs <;> simp [hn]

theorem cbor_encoder_close_container_eq (e c : CborEncoder) (hn : c.end_null = false)
    (hu : c.flag_UnknownLength = false) (hr : c.remaining = 1) :
    cbor_encoder_close_container e c =
      (CborNoError, { e with out := c.out, bytes_needed := c.bytes_needed, end_null := false }) := by
  unfold cbor_encoder_close_container
  simp [hn, hu, hr]

/-- The five-element entry `[description, v1, v2, v3, v4]`. -/
def entry_item (description : List Nat) (v1 v2 v3 v4 : Nat) : CborItem :=
  .array [.text description, .uint v1, .uint v2, .uint v3, .uint v4]

/-- The statements that both loop bodies of `gble_init` run to encode one
entry `[description, v1, v2, v3, v4]`. -/
def encode_entry (arr : CborEncoder) (description : List Nat) (v1 v2 v3 v4 : Nat) :
    Bool × CborEncoder :=
  CBOR_CHECKED_RET (cbor_encoder_create_array arr 5) (fun c => (false, c.2)) fun c =>
  CBOR_CHECKED_RET (cbor_encode_text_stringz c.2 description) (fun tmp => (false, tmp)) fun tmp =>
  CBOR_CHECKED_RET (cbor_encode_uint tmp v1) (fun tmp => (false, tmp)) fun tmp =>
  CBOR_CHECKED_RET (cbor_encode_uint tmp v2) (fun tmp => (false, tmp)) fun tmp =>
  CBOR_CHECKED_RET (cbor_encode_uint tmp v3) (fun tmp => (false, tmp)) fun tmp =>
  CBOR_CHECKED_RET (cbor_encode_uint tmp v4) (fun tmp => (false, tmp)) fun tmp =>
  CBOR_CHECKED_RET (cbor_encoder_close_container c.1 tmp) (fun arr => (false, arr)) fun arr =>
  (true, arr)

theorem gble_init_actuator_entry_eq (arr : CborEncoder) (a : gble_actuator_feature) :
    gble_init_actuator_entry arr a =
      encode_entry arr a.description a.feature_type a.step_range_low a.step_range_high
        a.message_type := rfl

theorem gble_init_sensor_entry_eq (arr : CborEncoder) (s : gble_sensor_feature) :
    gble_init_sensor_entry arr s =
      encode_entry arr s.description s.feature_type (to_uint64 s.value_range_low)
        (to_uint64 s.value_range_high) s.message_type := rfl

theorem entry_item_encode (d : List Nat) (v1 v2 v3 v4 : Nat) :
    (entry_item d v1 v2 v3 v4).encode =
      cbor_head 4 5 ++ ((cbor_head 3 d.length ++ d) ++ (cbor_head 0 v1 ++ (cbor_head 0 v2 ++
        (cbor_head 0 v3 ++ cbor_head 0 v4)))) := by
  simp [entry_item, CborItem.encode, CborItem.encodeList]

theorem checked_uint {β : Type} (e : CborEncoder) (v : Nat) (leave k : CborEncoder → β)
    (hn : e.end_null = false) :
    CBOR_CHECKED_RET (cbor_encode_uint e v) leave k =
      if e.out.length + (cbor_head 0 v).length ≤ e.size then
        k { e with out := e.out ++ cbor_head 0 v, remaining := e.remaining - 1 }
      else
        leave { e with remaining := e.remaining - 1, end_null := true,
                       bytes_needed := (cbor_head 0 v).length - (e.size - e.out.length) } := by
  unfold CBOR_CHECKED_RET
  rw [cbor_encode_uint_eq e v hn]
  split_ifs <;> simp_all

theorem checked_text {β : Type} (e : CborEncoder) (s : List Nat) (leave k : CborEncoder → β)
    (hn : e.end_null = false) :
    CBOR_CHECKED_RET (cbor_encode_text_stringz e s) leave k =
      if e.out.length + (cbor_head 3 s.length ++ s).length ≤ e.size then
        k { e with out := e.out ++ (cbor_head 3 s.length ++ s), remaining := e.remaining - 1 }
      else
        leave (text_overflow e s) := by
  unfold CBOR_CHECKED_RET
  rw [cbor_encode_text_stringz_eq e s hn]
  split_ifs <;> simp_all

theorem checked_create_array {β : Type} (e : CborEncoder) (n : Nat)
    (leave k : CborEncoder × CborEncoder → β) (hn : e.end_null = false) (hlen : n ≠ SIZE_MAX) :
    CBOR_CHECKED_RET (cbor_encoder_create_array e n) leave k =
      if e.out.length + (cbor_head 4 n).length ≤ e.size then
        k ({ e with remaining := e.remaining - 1 },
          { out := e.out ++ cbor_head 4 n, size := e.size, end_null := false,
            bytes_needed := e.bytes_needed, remaining := (n + 1) % 2 ^ 32,
            flag_UnknownLength := false, flag_ContainerIsMap := false })
      else
        leave ({ e with remaining := e.remaining - 1 },
          { out := e.out, size := e.size, end_null := true,
            bytes_needed := (cbor_head 4 n).length - (e.size - e.out.length),
            remaining := (n + 1) % 2 ^ 32,
            flag_UnknownLength := false, flag_ContainerIsMap := false }) := by
  unfold CBOR_CHECKED_RET
  rw [cbor_encoder_create_array_eq e n hn hlen]
  split_ifs <;> simp_all

theorem checked_close_container {β : Type} (e c : CborEncoder) (leave k : CborEncoder → β)
    (hn : c.end_null = false) (hu : c.flag_UnknownLength = false) (hr : c.remaining = 1) :
    CBOR_CHECKED_RET (cbor_encoder_close_container e c) leave k =
      k { e with out := c.out, bytes_needed := c.bytes_needed, end_null := false } := by
  unfold CBOR_CHECKED_RET
  rw [cbor_encoder_close_container_eq e c hn hu hr]
  simp

theorem encode_entry_spec (e : CborEncoder) (d : List Nat) (v1 v2 v3 v4 : Nat)
    (hn : e.end_null = false) :
    (e.out.length + (entry_item d v1 v2 v3 v4).encode.length ≤ e.size →
      encode_entry e d v1 v2 v3 v4 =
        (true, { e with out := e.out ++ (entry_item d v1 v2 v3 v4).encode,
                        remaining := e.remaining - 1, end_null := false })) ∧
    (¬ e.out.length + (entry_item d v1 v2 v3 v4).encode.length ≤ e.size →
      (encode_entry e d v1 v2 v3 v4).1 = false) := by
  rw [entry_item_encode]
  unfold encode_entry
  rw [checked_create_array e 5 _ _ hn (by decide)]
  simp only [checked_text, checked_uint]
  rw [checked_close_container _ _ _ _ rfl rfl (by simp)]
  simp only [List.length_append, List.append_assoc]
  split_ifs <;> refine ⟨fun hf => ?_, fun hf => ?_⟩ <;>
    first
    | rfl
    | (exfalso; omega)

theorem actuator_item_eq (a : gble_actuator_feature) :
    actuator_item a =
      entry_item a.description a.feature_type a.step_range_low a.step_range_high
        a.message_type := rfl

theorem sensor_item_unsigned_eq (s : gble_sensor_feature) :
    sensor_item_unsigned s =
      entry_item s.description s.feature_type (to_uint64 s.value_range_low)
        (to_uint64 s.value_range_high) s.message_type := rfl

theorem encodeList_cons (x : CborItem) (xs : List CborItem) :
    CborItem.encodeList (x :: xs) = x.encode ++ CborItem.encodeList xs := by
  simp [CborItem.encodeList]

theorem encodeList_nil : CborItem.encodeList [] = [] := by
  simp [CborItem.encodeList]

theorem gble_init_actuators_spec (l : List gble_actuator_feature) :
    ∀ (e : CborEncoder) (idx : Nat), e.end_null = false → e.out.length ≤ e.size →
      (e.out.length + (CborItem.encodeList (l.map actuator_item)).length ≤ e.size →
        gble_init_actuators e idx l =
          (true, { e with out := e.out ++ CborItem.encodeList (l.map actuator_item),
                          remaining := e.remaining - l.length, end_null := false },
            assign_actuator_ids idx l)) ∧
      (¬ e.out.length + (CborItem.encodeList (l.map actuator_item)).length ≤ e.size →
        (gble_init_actuators e idx l).1 = false) := by
  induction l with
  | nil =>
    intro e idx hn hle
    refine ⟨fun _ => ?_, fun hf => ?_⟩
    · cases e
      simp_all [gble_init_actuators, assign_actuator_ids, encodeList_nil]
    · simp [encodeList_nil] at hf
      omega
  | cons a rest ih =>
    intro e idx hn hle
    have hs := encode_entry_spec e a.description a.feature_type a.step_range_low
      a.step_range_high a.message_type hn
    rw [← actuator_item_eq, ← gble_init_actuator_entry_eq] at hs
    simp only [List.map_cons, encodeList_cons, List.length_append, List.length_cons]
    unfold gble_init_actuators
    by_cases h1 : e.out.length + (actuator_item a).encode.length ≤ e.size
    · rw [hs.1 h1]
      have ih2 := ih { e with out := e.out ++ (actuator_item a).encode,
                              remaining := e.remaining - 1, end_null := false } (idx + 1) rfl
        (by simpa using h1)
      simp only [List.length_append] at ih2
      refine ⟨fun hf => ?_, fun hf => ?_⟩
      · dsimp only
        rw [ih2.1 (by omega)]
        simp [assign_actuator_ids, Nat.sub_sub, Nat.add_comm]
      · have := ih2.2 (by omega)
        simp [this]
    · refine ⟨fun hf => by omega, fun _ => ?_⟩
      simp [hs.2 h1]

theorem gble_init_sensors_spec (l : List gble_sensor_feature) :
    ∀ (e : CborEncoder) (idx : Nat), e.end_null = false → e.out.length ≤ e.size →
      (e.out.length + (CborItem.encodeList (l.map sensor_item_unsigned)).length ≤ e.size →
        gble_init_sensors e idx l =
          (true, { e with out := e.out ++ CborItem.encodeList (l.map sensor_item_unsigned),
                          remaining := e.remaining - l.length, end_null := false },
            assign_sensor_ids idx l)) ∧
      (¬ e.out.length + (CborItem.encodeList (l.map sensor_item_unsigned)).length ≤ e.size →
        (gble_init_sensors e idx l).1 = false) := by
  induction l with
  | nil =>
    intro e idx hn hle
    refine ⟨fun _ => ?_, fun hf => ?_⟩
    · cases e
      simp_all [gble_init_sensors, assign_sensor_ids, encodeList_nil]
    · simp [encodeList_nil] at hf
      omega
  | cons a rest ih =>
    intro e idx hn hle
    have hs := encode_entry_spec e a.description a.feature_type (to_uint64 a.value_range_low)
      (to_uint64 a.value_range_high) a.message_type hn
    rw [← sensor_item_unsigned_eq, ← gble_init_sensor_entry_eq] at hs
    simp only [List.map_cons, encodeList_cons, List.length_append, List.length_cons]
    unfold gble_init_sensors
    by_cases h1 : e.out.length + (sensor_item_unsigned a).encode.length ≤ e.size
    · rw [hs.1 h1]
      have ih2 := ih { e with out := e.out ++ (sensor_item_unsigned a).encode,
                              remaining := e.remaining - 1, end_null := false } (idx + 1) rfl
        (by simpa using h1)
      simp only [List.length_append] at ih2
      refine ⟨fun hf => ?_, fun hf => ?_⟩
      · dsimp only
        rw [ih2.1 (by omega)]
        simp [assign_sensor_ids, Nat.sub_sub, Nat.add_comm]
      · have := ih2.2 (by omega)
        simp [this]
    · refine ⟨fun hf => by omega, fun _ => ?_⟩
      simp [hs.2 h1]

theorem CborItem.encode_length_pos (x : CborItem) : 0 < x.encode.length := by
  have h := cbor_head_length_pos
  cases x
  · simpa only [CborItem.encode] using h 0 _
  · simpa only [CborItem.encode] using h 1 _
  · rename_i s
    have := h 3 s.length
    simp only [CborItem.encode, List.length_append]
    omega
  · rename_i items
    have := h 4 items.length
    simp only [CborItem.encode, List.length_append]
    omega

theorem encodeList_length_ge (l : List CborItem) : l.length ≤ (CborItem.encodeList l).length := by
  induction l with
  | nil => simp
  | cons x xs ih =>
    have := x.encode_length_pos
    simp only [encodeList_cons, List.length_append, List.length_cons]
    omega

theorem emitted_descriptor_item_encode (name : List Nat) (acts : List gble_actuator_feature)
    (sens : List gble_sensor_feature) :
    (emitted_descriptor_item name acts sens).encode =
      cbor_head 4 4 ++ (cbor_head 0 1 ++ ((cbor_head 3 name.length ++ name) ++
        ((cbor_head 4 acts.length ++ CborItem.encodeList (acts.map actuator_item)) ++
          (cbor_head 4 sens.length ++ CborItem.encodeList (sens.map sensor_item_unsigned))))) := by
  simp [emitted_descriptor_item, descriptor_of, CborItem.encode, CborItem.encodeList, GBLE_VERSION]

theorem checked_create_array_indefinite {β : Type} (e : CborEncoder) (n : Nat)
    (leave k : CborEncoder × CborEncoder → β) (hn : e.end_null = false) (hlen : n = SIZE_MAX) :
    CBOR_CHECKED_RET (cbor_encoder_create_array e n) leave k =
      if e.out.length + 1 ≤ e.size then
        k ({ e with remaining := e.remaining - 1 },
          { out := e.out ++ [159], size := e.size, end_null := false,
            bytes_needed := e.bytes_needed, remaining := 0,
            flag_UnknownLength := true, flag_ContainerIsMap := false })
      else
        leave ({ e with remaining := e.remaining - 1 },
          { out := e.out, size := e.size, end_null := true,
            bytes_needed := 1 - (e.size - e.out.length),
            remaining := 0,
            flag_UnknownLength := true, flag_ContainerIsMap := false }) := by
  subst hlen
  unfold CBOR_CHECKED_RET cbor_encoder_create_array append_byte_to_buffer CborIndefiniteLength
  simp only [if_true]
  rw [saturated_decrement_eq, append_to_buffer_eq _ _ (by simpa using hn)]
  unfold ArrayType MajorTypeShift IndefiniteLength SIZE_MAX
  split_ifs <;> simp_all

/-- The number of leading entries, of the given encoded lengths, that fit one
after the other into `avail` bytes. -/
def entries_fitting (avail : Nat) : List Nat → Nat
  | [] => 0
  | len :: rest => if len ≤ avail then entries_fitting (avail - len) rest + 1 else 0

theorem gble_init_actuators_ids (l : List gble_actuator_feature) :
    ∀ (e : CborEncoder) (idx : Nat), e.end_null = false → e.out.length ≤ e.size →
      (gble_init_actuators e idx l).2.2 =
        assign_actuator_ids idx
          (l.take (entries_fitting (e.size - e.out.length)
            (l.map fun a => (actuator_item a).encode.length))) ++
        l.drop (entries_fitting (e.size - e.out.length)
          (l.map fun a => (actuator_item a).encode.length)) := by
  induction l with
  | nil =>
    intro e idx _ _
    simp [gble_init_actuators, assign_actuator_ids, entries_fitting]
  | cons a rest ih =>
    intro e idx hn hle
    have hs := encode_entry_spec e a.description a.feature_type a.step_range_low
      a.step_range_high a.message_type hn
    rw [← actuator_item_eq, ← gble_init_actuator_entry_eq] at hs
    unfold gble_init_actuators
    simp only [List.map_cons, entries_fitting]
    by_cases h1 : e.out.length + (actuator_item a).encode.length ≤ e.size
    · have h2 : (actuator_item a).encode.length ≤ e.size - e.out.length := by omega
      rw [hs.1 h1, if_pos h2]
      have ih2 := ih { e with out := e.out ++ (actuator_item a).encode,
                              remaining := e.remaining - 1, end_null := false } (idx + 1) rfl
        (by simpa using h1)
      dsimp only at ih2 ⊢
      simp only [List.length_append] at ih2
      have h3 : e.size - (e.out.length + (actuator_item a).encode.length) =
          e.size - e.out.length - (actuator_item a).encode.length := by omega
      rw [h3] at ih2
      simp [ih2, assign_actuator_ids]
    · have h2 : ¬ (actuator_item a).encode.length ≤ e.size - e.out.length := by omega
      rw [if_neg h2]
      simp [hs.2 h1, assign_actuator_ids]

theorem gble_init_sensors_ids (l : List gble_sensor_feature) :
    ∀ (e : CborEncoder) (idx : Nat), e.end_null = false → e.out.length ≤ e.size →
      (gble_init_sensors e idx l).2.2 =
        assign_sensor_ids idx
          (l.take (entries_fitting (e.size - e.out.length)
            (l.map fun a => (sensor_item_unsigned a).encode.length))) ++
        l.drop (entries_fitting (e.size - e.out.length)
          (l.map fun a => (sensor_item_unsigned a).encode.length)) := by
  induction l with
  | nil =>
    intro e idx _ _
    simp [gble_init_sensors, assign_sensor_ids, entries_fitting]
  | cons a rest ih =>
    intro e idx hn hle
    have hs := encode_entry_spec e a.description a.feature_type (to_uint64 a.value_range_low)
      (to_uint64 a.value_range_high) a.message_type hn
    rw [← sensor_item_unsigned_eq, ← gble_init_sensor_entry_eq] at hs
    unfold gble_init_sensors
    simp only [List.map_cons, entries_fitting]
    by_cases h1 : e.out.length + (sensor_item_unsigned a).encode.length ≤ e.size
    · have h2 : (sensor_item_unsigned a).encode.length ≤ e.size - e.out.length := by omega
      rw [hs.1 h1, if_pos h2]
      have ih2 := ih { e with out := e.out ++ (sensor_item_unsigned a).encode,
                              remaining := e.remaining - 1, end_null := false } (idx + 1) rfl
        (by simpa using h1)
      dsimp only at ih2 ⊢
      simp only [List.length_append] at ih2
      have h3 : e.size - (e.out.length + (sensor_item_unsigned a).encode.length) =
          e.size - e.out.length - (sensor_item_unsigned a).encode.length := by omega
      rw [h3] at ih2
      simp [ih2, assign_sensor_ids]
    · have h2 : ¬ (sensor_item_unsigned a).encode.length ≤ e.size - e.out.length := by omega
      rw [if_neg h2]
      simp [hs.2 h1, assign_sensor_ids]

/-- The bytes that `cbor_encoder_create_array` stores for an array of `n`
elements (`n = SIZE_MAX` is `CborIndefiniteLength`). -/
def array_head_emitted (n : Nat) : List Nat :=
  if n = SIZE_MAX then [159] else cbor_head 4 n

/-- Number of bytes that `gble_init` stores before the first actuator entry. -/
def actuators_start (name : List Nat) (actuator_count : Nat) : Nat :=
  (cbor_head 4 4).length + (cbor_head 0 1).length +
    ((cbor_head 3 name.length).length + name.length) + (array_head_emitted actuator_count).length

/-- Number of actuator entries that `gble_init` encodes completely. -/
def actuators_encoded (name : List Nat) (actuators : List gble_actuator_feature) : Nat :=
  if actuators_start name actuators.length ≤ 512 then
    entries_fitting (512 - actuators_start name actuators.length)
      (actuators.map fun a => (actuator_item a).encode.length)
  else 0

/-- Number of bytes stored before the first sensor entry, when all actuator
entries have been encoded. -/
def sensors_start (name : List Nat) (actuators : List gble_actuator_feature)
    (sensor_count : Nat) : Nat :=
  actuators_start name actuators.length +
    (CborItem.encodeList (actuators.map actuator_item)).length +
    (array_head_emitted sensor_count).length

/-- Number of sensor entries that `gble_init` encodes completely. -/
def sensors_encoded (name : List Nat) (actuators : List gble_actuator_feature)
    (sensors : List gble_sensor_feature) : Nat :=
  if sensors_start name actuators sensors.length ≤ 512 then
    entries_fitting (512 - sensors_start name actuators sensors.length)
      (sensors.map fun s => (sensor_item_unsigned s).encode.length)
  else 0

/-- The actuator array after `gble_init`: the features whose entries were
encoded completely carry their index as id, the others are untouched. -/
def actuators_after_init (name : List Nat) (actuators : List gble_actuator_feature) :
    List gble_actuator_feature :=
  assign_actuator_ids 0 (actuators.take (actuators_encoded name actuators)) ++
    actuators.drop (actuators_encoded name actuators)

/-- The sensor array after `gble_init`, as `actuators_after_init`. -/
def sensors_after_init (name : List Nat) (actuators : List gble_actuator_feature)
    (sensors : List gble_sensor_feature) : List gble_sensor_feature :=
  assign_sensor_ids 0 (sensors.take (sensors_encoded name actuators sensors)) ++
    sensors.drop (sensors_encoded name actuators sensors)

theorem actuators_after_init_none (name : List Nat) (acts : List gble_actuator_feature)
    (h : ¬ actuators_start name acts.length ≤ 512) : actuators_after_init name acts = acts := by
  simp [actuators_after_init, actuators_encoded, h, assign_actuator_ids]

theorem sensors_after_init_none (name : List Nat) (acts : List gble_actuator_feature)
    (sens : List gble_sensor_feature) (h : ¬ sensors_start name acts sens.length ≤ 512) :
    sensors_after_init name acts sens = sens := by
  simp [sensors_after_init, sensors_encoded, h, assign_sensor_ids]

theorem actuators_after_init_eq (name : List Nat) (acts : List gble_actuator_feature)
    (e : CborEncoder) (hn : e.end_null = false) (hsize : e.size = 512)
    (hout : e.out.length = actuators_start name acts.length) (hle : e.out.length ≤ e.size) :
    (gble_init_actuators e 0 acts).2.2 = actuators_after_init name acts := by
  rw [gble_init_actuators_ids acts e 0 hn hle]
  unfold actuators_after_init actuators_encoded
  rw [if_pos (by omega), hsize, hout]

theorem sensors_after_init_eq (name : List Nat) (acts : List gble_actuator_feature)
    (sens : List gble_sensor_feature)
    (e : CborEncoder) (hn : e.end_null = false) (hsize : e.size = 512)
    (hout : e.out.length = sensors_start name acts sens.length) (hle : e.out.length ≤ e.size) :
    (gble_init_sensors e 0 sens).2.2 = sensors_after_init name acts sens := by
  rw [gble_init_sensors_ids sens e 0 hn hle]
  unfold sensors_after_init sensors_encoded
  rw [if_pos (by omega), hsize, hout]

/-- The server that a successful `gble_init` leaves behind. -/
def gble_init_done (server : gble_server) (name : List Nat)
    (actuators : List gble_actuator_feature) (sensors : List gble_sensor_feature) :
    gble_server :=
  { descriptor_buffer :=
      (emitted_descriptor_item name actuators sensors).encode ++
        server.descriptor_buffer.drop (emitted_descriptor_item name actuators sensors).encode.length,
    descriptor_size := (emitted_descriptor_item name actuators sensors).encode.length,
    name := name,
    actuators := assign_actuator_ids 0 actuators,
    actuator_count := actuators.length,
    sensors := assign_sensor_ids 0 sensors,
    sensors_count := sensors.length,
    sensor_cb := server.sensor_cb,
    sensor_cb_context := server.sensor_cb_context }

theorem gble_init_cases (server : gble_server) (name : List Nat)
    (acts : List gble_actuator_feature) (sens : List gble_sensor_feature) :
    ((emitted_descriptor_item name acts sens).encode.length ≤ 512 ∧
      gble_init server name acts sens = (true, gble_init_done server name acts sens)) ∨
    (¬ (emitted_descriptor_item name acts sens).encode.length ≤ 512 ∧
      (gble_init server name acts sens).1 = false ∧
      (gble_init server name acts sens).2.actuators = actuators_after_init name acts ∧
      (gble_init server name acts sens).2.sensors = sensors_after_init name acts sens) := by
  have hA := encodeList_length_ge (acts.map actuator_item)
  have hS := encodeList_length_ge (sens.map sensor_item_unsigned)
  simp only [List.length_map] at hA hS
  have hpos := cbor_head_length_pos
  have hstart : actuators_start name acts.length =
      (cbor_head 4 4).length + (cbor_head 0 1).length +
        ((cbor_head 3 name.length).length + name.length) +
        (array_head_emitted acts.length).length := rfl
  have hsstart : sensors_start name acts sens.length =
      actuators_start name acts.length +
        (CborItem.encodeList (acts.map actuator_item)).length +
        (array_head_emitted sens.length).length := rfl
  have hhead : ∀ n, 0 < (array_head_emitted n).length := by
    intro n
    unfold array_head_emitted
    split
    · simp
    · exact hpos 4 n
  have hN1 := hhead acts.length
  have hM1 := hhead sens.length
  unfold gble_init_done
  rw [emitted_descriptor_item_encode]
  unfold gble_init
  dsimp only
  rw [checked_create_array _ 4 _ _ rfl (by decide)]
  simp only [checked_uint, checked_text, cbor_encoder_init, GBLE_VERSION]
  simp only [List.nil_append, List.length_nil, Nat.zero_add, List.length_append]
  split_ifs with c1 c2 c3
  · by_cases hN : acts.length = 4294967295
    · have hNh : (array_head_emitted acts.length).length = 1 := by
        simp [array_head_emitted, hN, SIZE_MAX]
      rw [checked_create_array_indefinite _ acts.length _ _ rfl hN]
      dsimp only
      simp only [List.length_append]
      split
      · rename_i c4
        have hl := gble_init_actuators_spec acts
          { out := cbor_head 4 4 ++ cbor_head 0 1 ++
              (cbor_head 3 name.length ++ name) ++ [159],
            size := 512, end_null := false, bytes_needed := 0,
            remaining := 0,
            flag_UnknownLength := true, flag_ContainerIsMap := false } 0 rfl
          (by simp only [List.length_append, List.length_singleton]; omega)
        have ha := actuators_after_init_eq name acts
          { out := cbor_head 4 4 ++ cbor_head 0 1 ++
              (cbor_head 3 name.length ++ name) ++ [159],
            size := 512, end_null := false, bytes_needed := 0,
            remaining := 0,
            flag_UnknownLength := true, flag_ContainerIsMap := false } rfl rfl
          (by simp only [List.length_append, List.length_singleton]; omega)
          (by simp only [List.length_append, List.length_singleton]; omega)
        rw [if_pos (hl.2 (by simp only [List.length_append, List.length_singleton]; omega))]
        right
        exact ⟨by omega, rfl, ha,
          (sensors_after_init_none name acts sens (by omega)).symm⟩
      · right
        exact ⟨by omega, rfl, (actuators_after_init_none name acts (by omega)).symm,
          (sensors_after_init_none name acts sens (by omega)).symm⟩
    · have hNh : (array_head_emitted acts.length).length = (cbor_head 4 acts.length).length := by
        simp [array_head_emitted, hN, SIZE_MAX]
      rw [checked_create_array _ acts.length _ _ rfl hN]
      dsimp only
      simp only [List.length_append]
      split
      · rename_i c4
        have hl := gble_init_actuators_spec acts
          { out := cbor_head 4 4 ++ cbor_head 0 1 ++
              (cbor_head 3 name.length ++ name) ++ cbor_head 4 acts.length,
            size := 512, end_null := false, bytes_needed := 0,
            remaining := (acts.length + 1) % 2 ^ 32,
            flag_UnknownLength := false, flag_ContainerIsMap := false } 0 rfl
          (by simp only [List.length_append]; omega)
        have ha := actuators_after_init_eq name acts
          { out := cbor_head 4 4 ++ cbor_head 0 1 ++
              (cbor_head 3 name.length ++ name) ++ cbor_head 4 acts.length,
            size := 512, end_null := false, bytes_needed := 0,
            remaining := (acts.length + 1) % 2 ^ 32,
            flag_UnknownLength := false, flag_ContainerIsMap := false } rfl rfl
          (by simp only [List.length_append]; omega)
          (by simp only [List.length_append]; omega)
        simp only [List.length_append] at hl
        split
        · rename_i c5
          right
          refine ⟨?_, rfl, ha, (sensors_after_init_none name acts sens ?_).symm⟩
          · intro hfit
            rw [(hl.1 (by omega))] at c5
            simp at c5
          · intro hfit
            rw [(hl.1 (by omega))] at c5
            simp at c5
        · rename_i c5
          have c5f : (cbor_head 4 4).length + (cbor_head 0 1).length +
              ((cbor_head 3 name.length).length + name.length) + (cbor_head 4 acts.length).length +
              (CborItem.encodeList (List.map actuator_item acts)).length ≤ 512 := by
            by_contra hc
            exact c5 (hl.2 hc)
          rw [hl.1 c5f] at ha ⊢
          dsimp only at ha ⊢
          rw [checked_close_container _ _ _ _ rfl rfl (by simp; omega)]
          by_cases hM : sens.length = 4294967295
          · have hMh : (array_head_emitted sens.length).length = 1 := by
              simp [array_head_emitted, hM, SIZE_MAX]
            rw [checked_create_array_indefinite _ sens.length _ _ rfl hM]
            dsimp only
            simp only [List.length_append]
            split
            · have hk := gble_init_sensors_spec sens
                { out := cbor_head 4 4 ++ cbor_head 0 1 ++
                    (cbor_head 3 name.length ++ name) ++ cbor_head 4 acts.length ++
                    CborItem.encodeList (List.map actuator_item acts) ++ [159],
                  size := 512, end_null := false, bytes_needed := 0,
                  remaining := 0,
                  flag_UnknownLength := true, flag_ContainerIsMap := false } 0 rfl
                (by simp only [List.length_append, List.length_singleton]; omega)
              have hb := sensors_after_init_eq name acts sens
                { out := cbor_head 4 4 ++ cbor_head 0 1 ++
                    (cbor_head 3 name.length ++ name) ++ cbor_head 4 acts.length ++
                    CborItem.encodeList (List.map actuator_item acts) ++ [159],
                  size := 512, end_null := false, bytes_needed := 0,
                  remaining := 0,
                  flag_UnknownLength := true, flag_ContainerIsMap := false } rfl rfl
                (by simp only [List.length_append, List.length_singleton]; omega)
                (by simp only [List.length_append, List.length_singleton]; omega)
              rw [if_pos (hk.2 (by simp only [List.length_append, List.length_singleton]; omega))]
              right
              exact ⟨by omega, rfl, ha, hb⟩
            · right
              exact ⟨by omega, rfl, ha,
                (sensors_after_init_none name acts sens (by omega)).symm⟩
          · have hMh : (array_head_emitted sens.length).length =
                (cbor_head 4 sens.length).length := by
              simp [array_head_emitted, hM, SIZE_MAX]
            rw [checked_create_array _ sens.length _ _ rfl hM]
            dsimp only
            simp only [List.length_append]
            split
            · rename_i c6
              have hk := gble_init_sensors_spec sens
                { out := cbor_head 4 4 ++ cbor_head 0 1 ++
                    (cbor_head 3 name.length ++ name) ++ cbor_head 4 acts.length ++
                    CborItem.encodeList (List.map actuator_item acts) ++
                    cbor_head 4 sens.length,
                  size := 512, end_null := false, bytes_needed := 0,
                  remaining := (sens.length + 1) % 2 ^ 32,
                  flag_UnknownLength := false, flag_ContainerIsMap := false } 0 rfl
                (by simp only [List.length_append]; omega)
              have hb := sensors_after_init_eq name acts sens
                { out := cbor_head 4 4 ++ cbor_head 0 1 ++
                    (cbor_head 3 name.length ++ name) ++ cbor_head 4 acts.length ++
                    CborItem.encodeList (List.map actuator_item acts) ++
                    cbor_head 4 sens.length,
                  size := 512, end_null := false, bytes_needed := 0,
                  remaining := (sens.length + 1) % 2 ^ 32,
                  flag_UnknownLength := false, flag_ContainerIsMap := false } rfl rfl
                (by simp only [List.length_append]; omega)
                (by simp only [List.length_append]; omega)
              simp only [List.length_append] at hk
              split
              · rename_i c7
                right
                refine ⟨?_, rfl, ha, hb⟩
                intro hfit
                rw [(hk.1 (by omega))] at c7
                simp at c7
              · rename_i c7
                have c7f : (cbor_head 4 4).length + (cbor_head 0 1).length +
                    ((cbor_head 3 name.length).length + name.length) +
                    (cbor_head 4 acts.length).length +
                    (CborItem.encodeList (List.map actuator_item acts)).length +
                    (cbor_head 4 sens.length).length +
                    (CborItem.encodeList (List.map sensor_item_unsigned sens)).length ≤ 512 := by
                  by_contra hc
                  exact c7 (hk.2 hc)
                rw [hk.1 c7f]
                dsimp only
                rw [checked_close_container _ _ _ _ rfl rfl (by simp; omega)]
                rw [checked_close_container _ _ _ _ rfl rfl (by simp)]
                left
                refine ⟨by omega, ?_⟩
                simp [gble_init_leave, cbor_encoder_get_buffer_size, Nat.add_assoc]
            · right
              exact ⟨by omega, rfl, ha,
                (sensors_after_init_none name acts sens (by omega)).symm⟩
      · right
        exact ⟨by omega, rfl, (actuators_after_init_none name acts (by omega)).symm,
          (sensors_after_init_none name acts sens (by omega)).symm⟩
  · right
    exact ⟨by omega, rfl, (actuators_after_init_none name acts (by omega)).symm,
      (sensors_after_init_none name acts sens (by omega)).symm⟩
  · right
    exact ⟨by omega, rfl, (actuators_after_init_none name acts (by omega)).symm,
      (sensors_after_init_none name acts sens (by omega)).symm⟩
  · right
    exact ⟨by omega, rfl, (actuators_after_init_none name acts (by omega)).symm,
      (sensors_after_init_none name acts sens (by omega)).symm⟩

theorem CBOR_CHECKED_RET_cases {σ β : Type} (P : β → Prop) (stmt : CborError × σ)
    (leave k : σ → β) (h1 : ∀ s, P (leave s)) (h2 : ∀ s, P (k s)) :
    P (CBOR_CHECKED_RET stmt leave k) := by
  unfold CBOR_CHECKED_RET
  split
  · exact h1 _
  · exact h2 _

theorem gble_init_false_size (server : gble_server) (name : List Nat)
    (acts : List gble_actuator_feature) (sens : List gble_sensor_feature)
    (h : (gble_init server name acts sens).1 = false) :
    (gble_init server name acts sens).2.descriptor_size = 0 := by
  revert h
  unfold gble_init
  dsimp only
  refine CBOR_CHECKED_RET_cases
    (fun r : Bool × gble_server => r.1 = false → r.2.descriptor_size = 0) _ _ _
    (fun _ _ => rfl) (fun c => ?_)
  refine CBOR_CHECKED_RET_cases
    (fun r : Bool × gble_server => r.1 = false → r.2.descriptor_size = 0) _ _ _
    (fun _ _ => rfl) (fun e => ?_)
  refine CBOR_CHECKED_RET_cases
    (fun r : Bool × gble_server => r.1 = false → r.2.descriptor_size = 0) _ _ _
    (fun _ _ => rfl) (fun e => ?_)
  refine CBOR_CHECKED_RET_cases
    (fun r : Bool × gble_server => r.1 = false → r.2.descriptor_size = 0) _ _ _
    (fun _ _ => rfl) (fun c => ?_)
  dsimp only
  split
  · exact fun _ => rfl
  refine CBOR_CHECKED_RET_cases
    (fun r : Bool × gble_server => r.1 = false → r.2.descriptor_size = 0) _ _ _
    (fun _ _ => rfl) (fun e => ?_)
  refine CBOR_CHECKED_RET_cases
    (fun r : Bool × gble_server => r.1 = false → r.2.descriptor_size = 0) _ _ _
    (fun _ _ => rfl) (fun c => ?_)
  dsimp only
  split
  · exact fun _ => rfl
  refine CBOR_CHECKED_RET_cases
    (fun r : Bool × gble_server => r.1 = false → r.2.descriptor_size = 0) _ _ _
    (fun _ _ => rfl) (fun e => ?_)
  refine CBOR_CHECKED_RET_cases
    (fun r : Bool × gble_server => r.1 = false → r.2.descriptor_size = 0) _ _ _
    (fun _ _ => rfl) (fun e => ?_)
  intro h
  cases h

theorem gble_init_true (server : gble_server) (name : List Nat)
    (acts : List gble_actuator_feature) (sens : List gble_sensor_feature)
    (h : (gble_init server name acts sens).1 = true) :
    (emitted_descriptor_item name acts sens).encode.length ≤ 512 ∧
      gble_init server name acts sens = (true, gble_init_done server name acts sens) := by
  rcases gble_init_cases server name acts sens with hc | hc
  · exact hc
  · rw [hc.2.1] at h
    exact absurd h (by decide)

theorem gble_descriptor_bytes_done (server : gble_server) (name : List Nat)
    (acts : List gble_actuator_feature) (sens : List gble_sensor_feature) :
    gble_descriptor_bytes (gble_init_done server name acts sens) =
      (emitted_descriptor_item name acts sens).encode := by
  simp [gble_descriptor_bytes, gble_get_descriptor, gble_init_done]

set_option maxRecDepth 100000

/-- C1: whenever `gble_init` returns true, the descriptor bytes are the CBOR
encoding of a definite-length array of four elements: the unsigned integer
`GBLE_VERSION`, which is 1, the device name as a text string, an array with
exactly `actuator_count` entries and an array with exactly `sensor_count`
entries. -/
theorem C1_descriptor_is_four_element_array (server : gble_server) (name : List Nat)
    (acts : List gble_actuator_feature) (sens : List gble_sensor_feature)
    (h : (gble_init server name acts sens).1 = true) :
    GBLE_VERSION = 1 ∧
    (gble_init server name acts sens).2.actuator_count = acts.length ∧
    (gble_init server name acts sens).2.sensors_count = sens.length ∧
    ∃ A S : List CborItem,
      A.length = (gble_init server name acts sens).2.actuator_count ∧
      S.length = (gble_init server name acts sens).2.sensors_count ∧
      gble_descriptor_bytes (gble_init server name acts sens).2 =
        (CborItem.array [CborItem.uint GBLE_VERSION, CborItem.text name,
          CborItem.array A, CborItem.array S]).encode := by
  obtain ⟨_, heq⟩ := gble_init_true server name acts sens h
  rw [heq]
  refine ⟨rfl, rfl, rfl, acts.map actuator_item, sens.map sensor_item_unsigned, ?_, ?_, ?_⟩
  · simp [gble_init_done]
  · simp [gble_init_done]
  · exact gble_descriptor_bytes_done server name acts sens

/-- Witness of C1 on the reference device of `main.c`. -/
theorem C1_witness :
    (gble_init gble_server_instance main_name main_actuators main_sensors).1 = true ∧
    ∃ A S : List CborItem,
      A.length = 2 ∧ S.length = 2 ∧
      gble_descriptor_bytes
          (gble_init gble_server_instance main_name main_actuators main_sensors).2 =
        (CborItem.array [CborItem.uint GBLE_VERSION, CborItem.text main_name,
          CborItem.array A, CborItem.array S]).encode := by
  have h := C1_descriptor_is_four_element_array gble_server_instance main_name main_actuators
    main_sensors (by decide)
  obtain ⟨_, h1, h2, A, S, hA, hS, hb⟩ := h
  exact ⟨by decide, A, S, by rw [hA, h1]; rfl, by rw [hS, h2]; rfl, hb⟩

/-- C2: after a successful `gble_init`, for every index `i < actuator_count`
the `i`-th entry of the actuators array of the descriptor is the array of the
five elements description (text), feature_type, step_range_low,
step_range_high, message_type (unsigned integers) of `actuators[i]`, in this
order; the entries are in the order of the input list. -/
theorem C2_actuator_entries (server : gble_server) (name : List Nat)
    (acts : List gble_actuator_feature) (sens : List gble_sensor_feature)
    (h : (gble_init server name acts sens).1 = true) :
    ∃ A S : List CborItem,
      gble_descriptor_bytes (gble_init server name acts sens).2 =
        (descriptor_of name A S).encode ∧
      A.length = acts.length ∧
      ∀ (i : Nat) (a : gble_actuator_feature), acts[i]? = some a →
        A[i]? = some (CborItem.array [CborItem.text a.description,
          CborItem.uint a.feature_type, CborItem.uint a.step_range_low,
          CborItem.uint a.step_range_high, CborItem.uint a.message_type]) := by
  obtain ⟨_, heq⟩ := gble_init_true server name acts sens h
  rw [heq]
  refine ⟨acts.map actuator_item, sens.map sensor_item_unsigned,
    gble_descriptor_bytes_done server name acts sens, by simp, ?_⟩
  intro i a hi
  simp [hi, actuator_item]

/-- Witness of C2 on the reference device of `main.c`. -/
theorem C2_witness :
    (gble_init gble_server_instance main_name main_actuators main_sensors).1 = true ∧
    ∃ A S : List CborItem,
      gble_descriptor_bytes
          (gble_init gble_server_instance main_name main_actuators main_sensors).2 =
        (descriptor_of main_name A S).encode ∧
      A[1]? = some (CborItem.array [CborItem.text [65, 99, 116, 117, 97, 116, 111, 114, 32, 50],
          CborItem.uint 1, CborItem.uint 0, CborItem.uint 20, CborItem.uint 1]) := by
  obtain ⟨A, S, hb, _, hA⟩ := C2_actuator_entries gble_server_instance main_name main_actuators
    main_sensors (by decide)
  exact ⟨by decide, A, S, hb, hA 1 _ rfl⟩

/-- What decides the result of `gble_init` is the size of the bytes it
emits: it returns true exactly when the serialisation of
`emitted_descriptor_item` fits into the 512 bytes of the descriptor buffer;
then `descriptor_size` is the length of that serialisation and the descriptor
read back is that serialisation; otherwise it returns false,
`descriptor_size` is 0 and `gble_get_descriptor` reports an empty
descriptor. -/
theorem gble_init_succeeds_iff_emitted_fits (server : gble_server) (name : List Nat)
    (acts : List gble_actuator_feature) (sens : List gble_sensor_feature) :
    ((gble_init server name acts sens).1 = true ↔
      (emitted_descriptor_item name acts sens).encode.length ≤ 512) ∧
    ((gble_init server name acts sens).1 = true →
      (gble_init server name acts sens).2.descriptor_size =
        (emitted_descriptor_item name acts sens).encode.length ∧
      (gble_init server name acts sens).2.descriptor_size ≤ 512 ∧
      gble_descriptor_bytes (gble_init server name acts sens).2 =
        (emitted_descriptor_item name acts sens).encode) ∧
    (¬ (emitted_descriptor_item name acts sens).encode.length ≤ 512 →
      (gble_init server name acts sens).1 = false ∧
      (gble_init server name acts sens).2.descriptor_size = 0 ∧
      (gble_get_descriptor (gble_init server name acts sens).2).2 = 0 ∧
      gble_descriptor_bytes (gble_init server name acts sens).2 = []) := by
  refine ⟨⟨fun h => (gble_init_true server name acts sens h).1, fun hf => ?_⟩, fun h => ?_,
    fun hf => ?_⟩
  · rcases gble_init_cases server name acts sens with hc | hc
    · rw [hc.2]
    · exact absurd hf hc.1
  · obtain ⟨hfit, heq⟩ := gble_init_true server name acts sens h
    rw [heq]
    exact ⟨rfl, hfit, gble_descriptor_bytes_done server name acts sens⟩
  · rcases gble_init_cases server name acts sens with hc | hc
    · exact absurd hc.1 hf
    · have hz := gble_init_false_size server name acts sens hc.2.1
      refine ⟨hc.2.1, hz, hz, ?_⟩
      simp [gble_descriptor_bytes, gble_get_descriptor, hz]

/-- Without a bound below zero the bytes that `gble_init` emits are those of
the wire format. -/
theorem emitted_descriptor_item_eq (name : List Nat) (acts : List gble_actuator_feature)
    (sens : List gble_sensor_feature)
    (h : ∀ s ∈ sens, 0 ≤ s.value_range_low ∧ s.value_range_low < 2 ^ 63 ∧
      0 ≤ s.value_range_high ∧ s.value_range_high < 2 ^ 63) :
    emitted_descriptor_item name acts sens = descriptor_item name acts sens := by
  unfold emitted_descriptor_item descriptor_item
  congr 1
  apply List.map_congr_left
  intro s hs
  obtain ⟨h1, h2, h3, h4⟩ := h s hs
  have hconv : ∀ v : Int, 0 ≤ v → v < 2 ^ 63 → CborItem.uint (to_uint64 v) = CborItem.int v := by
    intro v hv0 hv
    unfold CborItem.int to_uint64
    rw [if_neg (by omega)]
    have hm : v % 2 ^ 64 = v := by omega
    rw [hm]
  unfold sensor_item_unsigned sensor_item
  rw [hconv _ h1 h2, hconv _ h3 h4]

/-- C6 (the code departs from it, by the defect of C3): for the device name
of `main.c`, no actuator and thirty sensors with the range `[-20, -1]` the
CBOR encoding of the descriptor has 230 bytes and fits the buffer of 512
bytes, yet `gble_init` returns false and leaves `descriptor_size = 0`: with
the bounds handed to `cbor_encode_uint` the bytes to emit are 710.  For one
sensor with the range `[-1, 2]` `gble_init` returns true with
`descriptor_size = 34`, while the encoding of the descriptor has 26 bytes. -/
theorem C6_init_fails_although_descriptor_fits :
    (descriptor_item main_name [] (List.replicate 30 sensor_below_zero)).encode.length = 230 ∧
    (gble_init gble_server_instance main_name [] (List.replicate 30 sensor_below_zero)).1 =
      false ∧
    (gble_init gble_server_instance main_name []
      (List.replicate 30 sensor_below_zero)).2.descriptor_size = 0 ∧
    (emitted_descriptor_item main_name []
      (List.replicate 30 sensor_below_zero)).encode.length = 710 ∧
    (gble_init gble_server_instance main_name [] [sensor_negative_range]).1 = true ∧
    (gble_init gble_server_instance main_name [] [sensor_negative_range]).2.descriptor_size =
      34 ∧
    (descriptor_item main_name [] [sensor_negative_range]).encode.length = 26 := by
  refine ⟨by decide, by decide, by decide, by decide, by decide, by decide, by decide⟩

/-- C3 (defect of the code): `gble_init` hands the `int32_t` range bounds of a
sensor to `cbor_encode_uint`.  For the sensor with the range `[-1, 2]` it
succeeds and the entry of the descriptor holds the unsigned integer
`2^64 - 1` as lower bound, where the wire format has the signed integer `-1`
(major type 1, argument 0); the descriptor differs from the one with the
entry `[description, feature_type, -1, 2, message_type]`. -/
theorem C3_negative_bound_encoded_unsigned :
    (gble_init gble_server_instance main_name [] [sensor_negative_range]).1 = true ∧
    gble_descriptor_bytes
        (gble_init gble_server_instance main_name [] [sensor_negative_range]).2 =
      (descriptor_of main_name []
        [CborItem.array [CborItem.text [84], CborItem.uint 4,
          CborItem.uint 18446744073709551615, CborItem.uint 2, CborItem.uint 1]]).encode ∧
    sensor_item sensor_negative_range =
      CborItem.array [CborItem.text [84], CborItem.uint 4, CborItem.nint 0, CborItem.uint 2,
        CborItem.uint 1] ∧
    gble_descriptor_bytes
        (gble_init gble_server_instance main_name [] [sensor_negative_range]).2 ≠
      (descriptor_of main_name [] [sensor_item sensor_negative_range]).encode := by
  refine ⟨by decide, by decide, by rfl, by decide⟩

/-- C4 (defect of the code, the one of C3): for the sensor with the range
`[-1, 2]` the descriptor fits the buffer, and the positional decoder reads
back the range `(2^64 - 1, 2)`, not the registered range `(-1, 2)`. -/
theorem C4_round_trip_fails_for_negative_range :
    (gble_init gble_server_instance main_name [] [sensor_negative_range]).1 = true ∧
    decode_descriptor (gble_descriptor_bytes
        (gble_init gble_server_instance main_name [] [sensor_negative_range]).2) =
      some ([], [{ feature_type := 4, low := 18446744073709551615, high := 2,
                   message_type := 1 }]) ∧
    sensor_summary sensor_negative_range =
      { feature_type := 4, low := -1, high := 2, message_type := 1 } := by
  refine ⟨by decide, by decide, by decide⟩

theorem CborParser.byte_eq (parser : CborParser) (p b : Nat) (rest : List Nat)
    (h : parser.buffer.drop p = b :: rest) : parser.byte p = b := by
  unfold CborParser.byte
  have h2 : parser.buffer[p]? = some b := by
    have := List.head?_drop parser.buffer p
    rw [h] at this
    simpa using this.symm
  simp [List.getD_eq_getElem?_getD, h2]

theorem CborParser.get_eq (parser : CborParser) (p k b : Nat) (rest : List Nat)
    (h : parser.buffer.drop p = b :: rest) : parser.get (p + 1) k = be_value (rest.take k) := by
  unfold CborParser.get be_value
  have : parser.buffer.drop (p + 1) = rest := by
    have h2 := congrArg (List.drop 1) h
    simpa [List.drop_drop, Nat.add_comm] using h2
  rw [this]

theorem CborParser.byte_succ (parser : CborParser) (p b c : Nat) (rest : List Nat)
    (h : parser.buffer.drop p = b :: c :: rest) : parser.byte (p + 1) = c := by
  have : parser.buffer.drop (p + 1) = c :: rest := by
    have h2 := congrArg (List.drop 1) h
    simpa [List.drop_drop, Nat.add_comm] using h2
  exact CborParser.byte_eq parser (p + 1) c rest this

/-- What `preparse_value` leaves for an item with the head `(major, arg)`. -/
def parsed_as (it' it : CborValue) (major arg : Nat) : Prop :=
  it'.parser = it.parser ∧ it'.ptr = it.ptr ∧ it'.remaining = it.remaining ∧
  it'.type = (if major = 4 then CborArrayType else CborIntegerType) ∧
  it'.flag_NegativeInteger = decide (major = 1) ∧ it'.flag_UnknownLength = false ∧
  _cbor_value_extract_int64_helper it' = arg

theorem be_value_take_one (b : Nat) (rest : List Nat) : be_value ((b :: rest).take 1) = b := by
  simp [be_value]

theorem cbor_decode_head_some (b : Nat) (rest : List Nat) (major arg : Nat) (r : List Nat)
    (hd : cbor_decode_head (b :: rest) = some (major, arg, r)) :
    b < 256 ∧ b / 32 = major ∧
    ((b % 32 < 24 ∧ b % 32 = arg ∧ rest = r) ∨
     (∃ k, (b % 32 = 24 ∧ k = 1 ∨ b % 32 = 25 ∧ k = 2 ∨ b % 32 = 26 ∧ k = 4 ∨
            b % 32 = 27 ∧ k = 8) ∧
        k ≤ rest.length ∧ be_value (rest.take k) = arg ∧ rest.drop k = r)) := by
  simp only [cbor_decode_head] at hd
  split_ifs at hd with h1 h2 h3 h4
  · simp only [Option.some.injEq, Prod.mk.injEq] at hd
    exact ⟨by omega, hd.1, Or.inl ⟨h2, hd.2.1, hd.2.2⟩⟩
  · simp only [Option.some.injEq, Prod.mk.injEq] at hd
    refine ⟨by omega, hd.1, Or.inr ⟨2 ^ (b % 32 - 24), ?_, by omega, hd.2.1, hd.2.2⟩⟩
    have hcls : b % 32 = 24 ∨ b % 32 = 25 ∨ b % 32 = 26 ∨ b % 32 = 27 := by omega
    rcases hcls with h | h | h | h <;> simp [h]

theorem be_value_take_one' (rest : List Nat) (p : Nat) (parser : CborParser) (b : Nat)
    (hl : parser.buffer.drop p = b :: rest) (hk : 1 ≤ rest.length) :
    parser.byte (p + 1) = be_value (rest.take 1) := by
  cases rest with
  | nil => simp at hk
  | cons c rest' =>
    rw [CborParser.byte_succ parser p b c rest' hl]
    simp [be_value]

theorem preparse_value_good (it : CborValue) (major arg : Nat) (r : List Nat)
    (hd : cbor_decode_head (it.parser.buffer.drop it.ptr) = some (major, arg, r))
    (hm : major = 0 ∨ major = 1 ∨ major = 4) :
    (preparse_value it).1 = CborNoError ∧ parsed_as (preparse_value it).2 it major arg ∧
    extract_number it.parser it.ptr = (CborNoError, it.parser.buffer.length - r.length, arg) ∧
    it.parser.buffer.drop (it.parser.buffer.length - r.length) = r := by
  cases hl : it.parser.buffer.drop it.ptr with
  | nil => rw [hl] at hd; simp [cbor_decode_head] at hd
  | cons b rest =>
    rw [hl] at hd
    have hb := CborParser.byte_eq _ _ _ _ hl
    have hget := fun k => CborParser.get_eq it.parser it.ptr k b rest hl
    have hlen : it.parser.buffer.length - it.ptr = rest.length + 1 := by
      have := congrArg List.length hl
      simpa using this
    have hne : it.ptr ≠ it.parser.buffer.length := by omega
    have hdrop : ∀ k, it.parser.buffer.drop (it.ptr + (k + 1)) = rest.drop k := by
      intro k
      have h2 := congrArg (List.drop (k + 1)) hl
      rw [List.drop_drop, List.drop_succ_cons] at h2
      exact h2
    obtain ⟨h256, hmaj, hcase⟩ := cbor_decode_head_some b rest major arg r hd
    rcases hcase with ⟨h, harg, hr⟩ | ⟨k, hk, hkl, harg, hr⟩
    · subst hr
      subst harg
      have hr2 : it.parser.buffer.length - rest.length = it.ptr + (0 + 1) := by omega
      have hA : ¬ (27 < b % 32) := by omega
      rw [hr2, hdrop]
      rcases hm with rfl | rfl | rfl <;>
      simp [preparse_value, parsed_as, _cbor_value_extract_int64_helper, extract_number,
        Value64Bit, Value8Bit, MajorTypeShift, SimpleTypesType, NegativeIntegerType,
        CborArrayType, CborIntegerType, hb, hlen, hne, hr2, hdrop, hmaj, h, hA]
    · subst hr
      subst harg
      have hr2 : it.parser.buffer.length - (rest.drop k).length = it.ptr + (k + 1) := by
        rw [List.length_drop]
        omega
      have hlen2 : it.parser.buffer.length - (it.ptr + 1) = rest.length := by omega
      rw [hr2, hdrop]
      have hb2 : b % 2 = b % 32 % 2 := by omega
      rcases hk with ⟨h, rfl⟩ | ⟨h, rfl⟩ | ⟨h, rfl⟩ | ⟨h, rfl⟩
      · have hbyte := be_value_take_one' rest it.ptr it.parser b hl hkl
        have hkl2 : ¬ rest.length < 1 := by omega
        have hkl3 : ¬ rest.length + 1 < 2 := by omega
        rcases hm with rfl | rfl | rfl <;>
        simp [preparse_value, parsed_as, _cbor_value_extract_int64_helper, extract_number,
          _cbor_value_decode_int64_internal, Value16Bit, Value32Bit,
          Value64Bit, Value8Bit, MajorTypeShift, SimpleTypesType, NegativeIntegerType,
          CborArrayType, CborIntegerType, hb, hlen, hlen2, hne, hr2, hdrop, hmaj, h, hget,
          hbyte, hkl2, hkl3, hb2]
      · have hkl2 : ¬ rest.length < 2 := by omega
        have hkl3 : ¬ rest.length + 1 < 3 := by omega
        rcases hm with rfl | rfl | rfl <;>
        simp [preparse_value, parsed_as, _cbor_value_extract_int64_helper, extract_number,
          _cbor_value_decode_int64_internal, Value16Bit, Value32Bit,
          Value64Bit, Value8Bit, MajorTypeShift, SimpleTypesType, NegativeIntegerType,
          CborArrayType, CborIntegerType, hb, hlen, hlen2, hne, hr2, hdrop, hmaj, h, hget,
          hkl2, hkl3, hb2]
      · have hkl2 : ¬ rest.length < 4 := by omega
        have hkl3 : ¬ rest.length + 1 < 5 := by omega
        rcases hm with rfl | rfl | rfl <;>
        simp [preparse_value, parsed_as, _cbor_value_extract_int64_helper, extract_number,
          _cbor_value_decode_int64_internal, Value16Bit, Value32Bit,
          Value64Bit, Value8Bit, MajorTypeShift, SimpleTypesType, NegativeIntegerType,
          CborArrayType, CborIntegerType, hb, hlen, hlen2, hne, hr2, hdrop, hmaj, h, hget,
          hkl2, hkl3, hb2]
      · have hkl2 : ¬ rest.length < 8 := by omega
        have hkl3 : ¬ rest.length + 1 < 9 := by omega
        rcases hm with rfl | rfl | rfl <;>
        simp [preparse_value, parsed_as, _cbor_value_extract_int64_helper, extract_number,
          _cbor_value_decode_int64_internal, Value16Bit, Value32Bit,
          Value64Bit, Value8Bit, MajorTypeShift, SimpleTypesType, NegativeIntegerType,
          CborArrayType, CborIntegerType, hb, hlen, hlen2, hne, hr2, hdrop, hmaj, h, hget,
          hkl2, hkl3, hb2]
theorem cbor_decode_head_cons (b : Nat) (rest : List Nat) (k : Nat) (h256 : b < 256)
    (hk : b % 32 < 24 ∧ k = 0 ∨ b % 32 = 24 ∧ k = 1 ∨ b % 32 = 25 ∧ k = 2 ∨
      b % 32 = 26 ∧ k = 4 ∨ b % 32 = 27 ∧ k = 8) (hkl : k ≤ rest.length) :
    ∃ arg r, cbor_decode_head (b :: rest) = some (b / 32, arg, r) := by
  simp only [cbor_decode_head]
  rcases hk with ⟨h, rfl⟩ | ⟨h, rfl⟩ | ⟨h, rfl⟩ | ⟨h, rfl⟩ | ⟨h, rfl⟩
  · rw [if_neg (by omega), if_pos h]
    exact ⟨_, _, rfl⟩
  all_goals
    rw [if_neg (by omega), if_neg (by omega), if_neg (by omega), if_neg (by rw [h]; omega)]
    exact ⟨_, _, rfl⟩

set_option maxHeartbeats 2000000 in
theorem preparse_value_bad (it : CborValue)
    (hd : ∀ major arg r, cbor_decode_head (it.parser.buffer.drop it.ptr) = some (major, arg, r) →
      major ≠ 0 ∧ major ≠ 1 ∧ major ≠ 4) :
    (preparse_value it).1 ≠ CborNoError ∨
    ((preparse_value it).2.type ≠ CborIntegerType ∧
      ((preparse_value it).2.type ≠ CborArrayType ∨
        (preparse_value it).2.flag_UnknownLength = true)) := by
  cases hl : it.parser.buffer.drop it.ptr with
  | nil =>
    left
    have hge : it.parser.buffer.length ≤ it.ptr := by
      have := congrArg List.length hl
      simp at this
      omega
    have hb : it.parser.byte it.ptr = 0 := by
      unfold CborParser.byte
      rw [List.getD_eq_getElem?_getD, List.getElem?_eq_none hge]
      rfl
    have hlen : it.parser.buffer.length - it.ptr = 0 := by omega
    unfold preparse_value
    simp only [hb, hlen, Value64Bit, Value8Bit]
    split <;> simp
  | cons b rest =>
    rw [hl] at hd
    have hb := CborParser.byte_eq _ _ _ _ hl
    have hlen : it.parser.buffer.length - it.ptr = rest.length + 1 := by
      have := congrArg List.length hl
      simpa using this
    have hne : it.ptr ≠ it.parser.buffer.length := by omega
    have hmajor : ∀ k, b < 256 →
        (b % 32 < 24 ∧ k = 0 ∨ b % 32 = 24 ∧ k = 1 ∨ b % 32 = 25 ∧ k = 2 ∨
          b % 32 = 26 ∧ k = 4 ∨ b % 32 = 27 ∧ k = 8) → k ≤ rest.length →
        b / 32 ≠ 0 ∧ b / 32 ≠ 1 ∧ b / 32 ≠ 4 := by
      intro k h256 hk hkl
      obtain ⟨arg, r, he⟩ := cbor_decode_head_cons b rest k h256 hk hkl
      exact hd _ _ _ he
    have hcls : b % 32 < 24 ∨ b % 32 = 24 ∨ b % 32 = 25 ∨ b % 32 = 26 ∨ b % 32 = 27 ∨
        27 < b % 32 := by omega
    unfold preparse_value
    simp only [hb, hlen, hne, if_false]
    by_cases h256 : b < 256
    · rcases hcls with h | h | h | h | h | h
      · have hm := hmajor 0 h256 (Or.inl ⟨h, rfl⟩) (by omega)
        simp only [Value64Bit, Value8Bit, MajorTypeShift, SimpleTypesType, NegativeIntegerType,
          CborArrayType, CborIntegerType, CborBooleanType, FalseValue, TrueValue, NullValue,
          UndefinedValue, HalfPrecisionFloat, SinglePrecisionFloat, DoublePrecisionFloat,
          SimpleTypeInNextByte, Value16Bit]
        split_ifs <;> simp <;> omega
      · rw [h]
        simp only [Value64Bit, Value8Bit, MajorTypeShift, SimpleTypesType, NegativeIntegerType,
            CborArrayType, CborIntegerType, CborBooleanType, FalseValue, TrueValue, NullValue,
            UndefinedValue, HalfPrecisionFloat, SinglePrecisionFloat, DoublePrecisionFloat,
            SimpleTypeInNextByte, Value16Bit, IndefiniteLength, CborInvalidType]
        norm_num
        by_cases hk : 1 ≤ rest.length
        · obtain ⟨hm0, hm1, hm4⟩ := hmajor 1 h256 (Or.inr (Or.inl ⟨h, rfl⟩)) hk
          simp only [hm1, if_false]
          split_ifs <;> simp <;> omega
        · rw [if_pos (by omega)]
          simp
      · rw [h]
        simp only [Value64Bit, Value8Bit, MajorTypeShift, SimpleTypesType, NegativeIntegerType,
            CborArrayType, CborIntegerType, CborBooleanType, FalseValue, TrueValue, NullValue,
            UndefinedValue, HalfPrecisionFloat, SinglePrecisionFloat, DoublePrecisionFloat,
            SimpleTypeInNextByte, Value16Bit, IndefiniteLength, CborInvalidType]
        norm_num
        by_cases hk : 2 ≤ rest.length
        · obtain ⟨hm0, hm1, hm4⟩ := hmajor 2 h256 (Or.inr (Or.inr (Or.inl ⟨h, rfl⟩))) hk
          simp only [hm1, if_false]
          split_ifs <;> simp <;> omega
        · rw [if_pos (by omega)]
          simp
      · rw [h]
        simp only [Value64Bit, Value8Bit, MajorTypeShift, SimpleTypesType, NegativeIntegerType,
            CborArrayType, CborIntegerType, CborBooleanType, FalseValue, TrueValue, NullValue,
            UndefinedValue, HalfPrecisionFloat, SinglePrecisionFloat, DoublePrecisionFloat,
            SimpleTypeInNextByte, Value16Bit, IndefiniteLength, CborInvalidType]
        norm_num
        by_cases hk : 4 ≤ rest.length
        · obtain ⟨hm0, hm1, hm4⟩ := hmajor 4 h256 (Or.inr (Or.inr (Or.inr (Or.inl ⟨h, rfl⟩)))) hk
          simp only [hm1, if_false]
          split_ifs <;> simp <;> omega
        · rw [if_pos (by omega)]
          simp
      · rw [h]
        simp only [Value64Bit, Value8Bit, MajorTypeShift, SimpleTypesType, NegativeIntegerType,
            CborArrayType, CborIntegerType, CborBooleanType, FalseValue, TrueValue, NullValue,
            UndefinedValue, HalfPrecisionFloat, SinglePrecisionFloat, DoublePrecisionFloat,
            SimpleTypeInNextByte, Value16Bit, IndefiniteLength, CborInvalidType]
        norm_num
        by_cases hk : 8 ≤ rest.length
        · obtain ⟨hm0, hm1, hm4⟩ := hmajor 8 h256 (Or.inr (Or.inr (Or.inr (Or.inr (⟨h, rfl⟩))))) hk
          simp only [hm1, if_false]
          split_ifs <;> simp <;> omega
        · rw [if_pos (by omega)]
          simp
      · simp only [Value64Bit, Value8Bit, MajorTypeShift, SimpleTypesType, NegativeIntegerType,
            CborArrayType, CborIntegerType, CborBooleanType, FalseValue, TrueValue, NullValue,
            UndefinedValue, HalfPrecisionFloat, SinglePrecisionFloat, DoublePrecisionFloat,
            SimpleTypeInNextByte, Value16Bit, IndefiniteLength, CborInvalidType, is_fixed_type,
            CborTextStringType, CborByteStringType, CborMapType, CborSimpleType]
        rw [if_pos h]
        split_ifs <;> simp_all
        omega
    · have h8 : 8 ≤ b / 32 := by omega
      simp only [Value64Bit, Value8Bit, MajorTypeShift, SimpleTypesType, NegativeIntegerType,
            CborArrayType, CborIntegerType, CborBooleanType, FalseValue, TrueValue, NullValue,
            UndefinedValue, HalfPrecisionFloat, SinglePrecisionFloat, DoublePrecisionFloat,
            SimpleTypeInNextByte, Value16Bit, IndefiniteLength, CborInvalidType, is_fixed_type,
            CborTextStringType, CborByteStringType, CborMapType, CborSimpleType]
      norm_num
      have hn1 : ¬ b / 32 = 1 := by omega
      have hn7 : ¬ b / 32 = 7 := by omega
      simp only [hn1, hn7, if_false]
      split_ifs <;> simp <;> omega

theorem to_uint32_to_int32 (v : Int) : to_uint32 (to_int32 v) = to_uint32 v := by
  have h : ((v + 2 ^ 31) % 2 ^ 32 - 2 ^ 31) % 2 ^ 32 = v % 2 ^ 32 := by omega
  exact congrArg Int.toNat h

theorem to_uint32_neg (arg : Nat) :
    to_uint32 (-(to_int32 (arg : Int)) - 1) = to_uint32 (-1 - (arg : Int)) := by
  have h : (-((((arg : Int)) + 2 ^ 31) % 2 ^ 32 - 2 ^ 31) - 1) % 2 ^ 32 =
      (-1 - (arg : Int)) % 2 ^ 32 := by omega
  exact congrArg Int.toNat h

theorem cbor_value_get_int_eq (it' it : CborValue) (major arg : Nat)
    (hp : parsed_as it' it major arg) (hm : major = 0 ∨ major = 1) :
    (cbor_value_get_int it').1 = CborNoError ∧
    to_uint32 (cbor_value_get_int it').2 = to_uint32 (head_int major arg) := by
  obtain ⟨_, _, _, _, hneg, _, harg⟩ := hp
  unfold cbor_value_get_int head_int
  rw [harg, hneg]
  rcases hm with rfl | rfl
  · exact ⟨rfl, to_uint32_to_int32 _⟩
  · refine ⟨rfl, ?_⟩
    show to_uint32 (to_int32 (-(to_int32 (arg : Int)) - 1)) = to_uint32 (-1 - (arg : Int))
    rw [to_uint32_to_int32, to_uint32_neg]

theorem cbor_value_get_array_length_eq (it' it : CborValue) (arg : Nat)
    (hp : parsed_as it' it 4 arg) :
    cbor_value_get_array_length it' =
      if arg % 2 ^ 32 ≠ arg then (CborErrorDataTooLarge, arg % 2 ^ 32)
      else (CborNoError, arg % 2 ^ 32) := by
  obtain ⟨_, _, _, _, _, hu, harg⟩ := hp
  unfold cbor_value_get_array_length
  rw [hu, harg]
  rfl
theorem cbor_value_enter_container_eq (it' it : CborValue) (p : Nat)
    (hp : parsed_as it' it 4 2)
    (he : extract_number it.parser it.ptr = (CborNoError, p, 2)) :
    cbor_value_enter_container it' = preparse_value { it' with ptr := p, remaining := 2 } := by
  obtain ⟨hpar, hptr, _, htype, _, _, _⟩ := hp
  have ht : it'.type = CborArrayType := by simpa using htype
  unfold cbor_value_enter_container
  rw [hpar, hptr, he]
  dsimp only
  rw [ht]
  rfl

theorem cbor_value_advance_eq (it' it : CborValue) (major arg p : Nat)
    (hp : parsed_as it' it major arg) (hm : major = 0 ∨ major = 1)
    (hr : it.remaining = 2)
    (he : extract_number it.parser it.ptr = (CborNoError, p, arg)) :
    cbor_value_advance it' = preparse_value { it' with ptr := p, remaining := 1 } := by
  obtain ⟨hpar, hptr, hrem, htype, _, _, _⟩ := hp
  have ht : it'.type = CborIntegerType := by
    rcases hm with rfl | rfl <;> simpa using htype
  unfold cbor_value_advance advance_internal preparse_next_value
  rw [hpar, hptr, he]
  dsimp only
  rw [ht, hrem, hr]
  rfl

theorem checked_not_array {β : Type} (r : CborError × CborValue) (z : β)
    (k : CborValue → Nat → β)
    (hbad : r.1 ≠ CborNoError ∨ (r.2.type ≠ CborIntegerType ∧
      (r.2.type ≠ CborArrayType ∨ r.2.flag_UnknownLength = true))) :
    CBOR_CHECKED_RET r (fun _ => z) (fun root =>
      if ¬ cbor_value_is_array root then z else
      CBOR_CHECKED_RET (cbor_value_get_array_length root) (fun _ => z) (k root)) = z := by
  unfold CBOR_CHECKED_RET
  rcases hbad with h | ⟨_, h | h⟩
  · rw [if_pos h]
  · split
    · rfl
    · dsimp only
      rw [if_pos (by simpa [cbor_value_is_array] using h)]
  · split
    · rfl
    · dsimp only
      split
      · rfl
      · have h2 : cbor_value_get_array_length r.2 = (CborErrorUnknownLength, 0) := by
          unfold cbor_value_get_array_length
          rw [h]
          rfl
        rw [h2]
        rfl

theorem checked_not_integer {β : Type} (r : CborError × CborValue) (z : β)
    (k : CborValue → β)
    (hbad : r.1 ≠ CborNoError ∨ r.2.type ≠ CborIntegerType) :
    CBOR_CHECKED_RET r (fun _ => z) (fun item =>
      if ¬ cbor_value_is_integer item then z else k item) = z := by
  unfold CBOR_CHECKED_RET
  rcases hbad with h | h
  · rw [if_pos h]
  · split
    · rfl
    · dsimp only
      rw [if_pos (by simpa [cbor_value_is_integer] using h)]

theorem checked_ok {σ β : Type} (r : CborError × σ) (leave k : σ → β)
    (h : r.1 = CborNoError) : CBOR_CHECKED_RET r leave k = k r.2 := by
  unfold CBOR_CHECKED_RET
  rw [if_neg (by simp [h])]

/-- The iterator that `cbor_parser_init` starts from. -/
def parser_start (buf : List Nat) : CborValue :=
  { parser := { buffer := buf }, ptr := 0, remaining := 1, extra := 0,
    type := CborInvalidType, flag_IntegerValueTooLarge := false,
    flag_NegativeInteger := false, flag_UnknownLength := false }

theorem preparse_value_not_integer (it : CborValue)
    (hd : ∀ major arg r, cbor_decode_head (it.parser.buffer.drop it.ptr) = some (major, arg, r) →
      major ≠ 0 ∧ major ≠ 1) :
    (preparse_value it).1 ≠ CborNoError ∨ (preparse_value it).2.type ≠ CborIntegerType := by
  cases h : cbor_decode_head (it.parser.buffer.drop it.ptr) with
  | none =>
    rcases preparse_value_bad it (by intro m a r h2; rw [h] at h2; cases h2) with hb | hb
    · exact Or.inl hb
    · exact Or.inr hb.1
  | some t =>
    obtain ⟨major, arg, r⟩ := t
    have hm := hd major arg r h
    by_cases h4 : major = 4
    · subst h4
      obtain ⟨_, hp, _, _⟩ := preparse_value_good it 4 arg r h (Or.inr (Or.inr rfl))
      right
      rw [hp.2.2.2.1]
      decide
    · rcases preparse_value_bad it (by
        intro m a r2 h2
        rw [h] at h2
        cases h2
        exact ⟨hm.1, hm.2, h4⟩) with hb | hb
      · exact Or.inl hb
      · exact Or.inr hb.1

theorem array_stage_bad {β : Type} (it : CborValue) (z : β) (k : CborValue → β)
    (hd : ∀ r, cbor_decode_head (it.parser.buffer.drop it.ptr) ≠ some (4, 2, r)) :
    CBOR_CHECKED_RET (preparse_value it) (fun _ => z) (fun root =>
      if ¬ cbor_value_is_array root then z else
      CBOR_CHECKED_RET (cbor_value_get_array_length root) (fun _ => z) (fun array_len =>
        if array_len ≠ 2 then z else k root)) = z := by
  cases h : cbor_decode_head (it.parser.buffer.drop it.ptr) with
  | none =>
    exact checked_not_array _ _ _
      (preparse_value_bad it (by intro m a r h2; rw [h] at h2; cases h2))
  | some t =>
    obtain ⟨major, arg, r⟩ := t
    by_cases hm : major = 0 ∨ major = 1 ∨ major = 4
    · obtain ⟨h1, hp, _, _⟩ := preparse_value_good it major arg r h hm
      rw [checked_ok _ _ _ h1]
      by_cases h4 : major = 4
      · subst h4
        have hne : arg ≠ 2 := by
          intro h2
          subst h2
          exact hd r h
        have ht : cbor_value_is_array (preparse_value it).2 = true := by
          unfold cbor_value_is_array
          rw [hp.2.2.2.1]
          rfl
        rw [if_neg (by simp [ht]), cbor_value_get_array_length_eq _ _ _ hp]
        unfold CBOR_CHECKED_RET
        by_cases hc : arg % 2 ^ 32 ≠ arg
        · rw [if_pos hc, if_pos (by simp)]
        · rw [if_neg hc, if_neg (by simp)]
          dsimp only
          rw [if_pos (by omega)]
      · have ht : cbor_value_is_array (preparse_value it).2 = false := by
          unfold cbor_value_is_array
          rw [hp.2.2.2.1, if_neg h4]
          rfl
        rw [if_pos (by simp [ht])]
    · exact checked_not_array _ _ _ (preparse_value_bad it (by
        intro m a r2 h2
        rw [h] at h2
        cases h2
        exact ⟨fun h0 => hm (Or.inl h0), fun h0 => hm (Or.inr (Or.inl h0)),
          fun h0 => hm (Or.inr (Or.inr h0))⟩))
theorem int_stage_bad {β : Type} (it : CborValue) (z : β) (k : CborValue → β)
    (hd : ∀ major arg r, cbor_decode_head (it.parser.buffer.drop it.ptr) = some (major, arg, r) →
      major ≠ 0 ∧ major ≠ 1) :
    CBOR_CHECKED_RET (preparse_value it) (fun _ => z) (fun item =>
      if ¬ cbor_value_is_integer item then z else k item) = z :=
  checked_not_integer _ _ _ (preparse_value_not_integer it hd)

theorem int_stage_good {β : Type} (it : CborValue) (z : β) (k : CborValue → Int → β)
    (major arg : Nat) (r : List Nat)
    (hd : cbor_decode_head (it.parser.buffer.drop it.ptr) = some (major, arg, r))
    (hm : major = 0 ∨ major = 1) :
    CBOR_CHECKED_RET (preparse_value it) (fun _ => z) (fun item =>
      if ¬ cbor_value_is_integer item then z else
      CBOR_CHECKED_RET (cbor_value_get_int item) (fun _ => z) (fun int_value =>
        k item int_value)) =
      k (preparse_value it).2 (cbor_value_get_int (preparse_value it).2).2 := by
  have hm3 : major = 0 ∨ major = 1 ∨ major = 4 := by
    rcases hm with h | h
    · exact Or.inl h
    · exact Or.inr (Or.inl h)
  obtain ⟨h1, hp, _, _⟩ := preparse_value_good it major arg r hd hm3
  have hg := cbor_value_get_int_eq _ _ _ _ hp hm
  have ht : cbor_value_is_integer (preparse_value it).2 = true := by
    unfold cbor_value_is_integer
    rw [hp.2.2.2.1]
    rcases hm with rfl | rfl <;> rfl
  rw [checked_ok _ _ _ h1, if_neg (by simp [ht]), checked_ok _ _ _ hg.1]

theorem array_stage_good {β : Type} (it : CborValue) (z : β) (k : CborValue → β)
    (r : List Nat)
    (hd : cbor_decode_head (it.parser.buffer.drop it.ptr) = some (4, 2, r)) :
    CBOR_CHECKED_RET (preparse_value it) (fun _ => z) (fun root =>
      if ¬ cbor_value_is_array root then z else
      CBOR_CHECKED_RET (cbor_value_get_array_length root) (fun _ => z) (fun array_len =>
        if array_len ≠ 2 then z else k root)) = k (preparse_value it).2 := by
  obtain ⟨h1, hp, _, _⟩ := preparse_value_good it 4 2 r hd (Or.inr (Or.inr rfl))
  have ht : cbor_value_is_array (preparse_value it).2 = true := by
    unfold cbor_value_is_array
    rw [hp.2.2.2.1]
    rfl
  rw [checked_ok _ _ _ h1, if_neg (by simp [ht]), cbor_value_get_array_length_eq _ _ _ hp]
  unfold CBOR_CHECKED_RET
  rw [if_neg (by decide), if_neg (by simp)]
  dsimp only
  rw [if_neg (by decide)]
/-- The iterator `it` moved to offset `p`, with `remaining` items to go. -/
def CborValue.moved (it : CborValue) (p remaining : Nat) : CborValue :=
  { it with ptr := p, remaining := remaining }

theorem cbor_value_enter_container_moved (it' it : CborValue) (p : Nat)
    (hp : parsed_as it' it 4 2)
    (he : extract_number it.parser it.ptr = (CborNoError, p, 2)) :
    cbor_value_enter_container it' = preparse_value (it'.moved p 2) :=
  cbor_value_enter_container_eq it' it p hp he

theorem cbor_value_advance_moved (it' it : CborValue) (major arg p : Nat)
    (hp : parsed_as it' it major arg) (hm : major = 0 ∨ major = 1)
    (hr : it.remaining = 2)
    (he : extract_number it.parser it.ptr = (CborNoError, p, arg)) :
    cbor_value_advance it' = preparse_value (it'.moved p 1) :=
  cbor_value_advance_eq it' it major arg p hp hm hr he

theorem gble_handle_actuators_changed_eq (server : gble_server) (buf : List Nat) :
    gble_handle_actuators_changed server buf =
      match decode_actuator_change buf with
      | none => (server, [])
      | some (a, v) => apply_actuator_change server (to_uint32 a) (to_uint32 v) := by
  have hinit : cbor_parser_init buf = preparse_value (parser_start buf) := rfl
  have hdrop0 : (parser_start buf).parser.buffer.drop (parser_start buf).ptr = buf := rfl
  unfold gble_handle_actuators_changed
  rw [hinit]
  unfold decode_actuator_change
  cases h0 : cbor_decode_head buf with
  | none =>
    exact array_stage_bad (parser_start buf) _ _ (by rw [hdrop0, h0]; intro r h; cases h)
  | some t0 =>
    obtain ⟨major, count, r1⟩ := t0
    dsimp only
    by_cases hmc : major = 4 ∧ count = 2
    · obtain ⟨rfl, rfl⟩ := hmc
      rw [if_pos ⟨rfl, rfl⟩, array_stage_good (parser_start buf) _ _ r1 (by rw [hdrop0]; exact h0)]
      obtain ⟨_, hp, he, hdr⟩ := preparse_value_good (parser_start buf) 4 2 r1
        (by rw [hdrop0]; exact h0) (Or.inr (Or.inr rfl))
      rw [cbor_value_enter_container_moved _ _ _ hp he]
      have hdrop1 : ∀ it1, it1 = (preparse_value (parser_start buf)).2.moved
          ((parser_start buf).parser.buffer.length - r1.length) 2 →
          it1.parser.buffer.drop it1.ptr = r1 ∧ it1.remaining = 2 := by
        intro it1 h
        subst h
        refine ⟨?_, rfl⟩
        show List.drop _ (preparse_value (parser_start buf)).2.parser.buffer = r1
        rw [hp.1]
        exact hdr
      generalize (preparse_value (parser_start buf)).2.moved
          ((parser_start buf).parser.buffer.length - r1.length) 2 = it1 at hdrop1 ⊢
      obtain ⟨hd1, hrem1⟩ := hdrop1 it1 rfl
      cases h1 : cbor_decode_head r1 with
      | none =>
        exact int_stage_bad it1 _ _ (by rw [hd1, h1]; intro m a r h; cases h)
      | some t1 =>
        obtain ⟨m1, x, r2⟩ := t1
        dsimp only
        by_cases hm1 : m1 = 0 ∨ m1 = 1
        · rw [if_pos hm1, int_stage_good it1 _ _ m1 x r2 (by rw [hd1]; exact h1) hm1]
          obtain ⟨_, hp1, he1, hdr1⟩ := preparse_value_good it1 m1 x r2
            (by rw [hd1]; exact h1) (by
              rcases hm1 with h | h
              · exact Or.inl h
              · exact Or.inr (Or.inl h))
          rw [(cbor_value_get_int_eq _ _ _ _ hp1 hm1).2,
            cbor_value_advance_moved _ it1 m1 x _ hp1 hm1 hrem1 he1]
          have hdrop2 : ∀ it2, it2 = (preparse_value it1).2.moved
              (it1.parser.buffer.length - r2.length) 1 →
              it2.parser.buffer.drop it2.ptr = r2 := by
            intro it2 h
            subst h
            show List.drop _ (preparse_value it1).2.parser.buffer = r2
            rw [hp1.1]
            exact hdr1
          generalize (preparse_value it1).2.moved (it1.parser.buffer.length - r2.length) 1 = it2
            at hdrop2 ⊢
          have hd2 := hdrop2 it2 rfl
          cases h2 : cbor_decode_head r2 with
          | none =>
            rw [int_stage_bad it2 _ _ (by rw [hd2, h2]; intro m a r h; cases h)]
            dsimp only
            split <;> rfl
          | some t2 =>
            obtain ⟨m2, y, r3⟩ := t2
            dsimp only
            by_cases hm2 : m2 = 0 ∨ m2 = 1
            · rw [if_pos hm2, int_stage_good it2 _ _ m2 y r3 (by rw [hd2]; exact h2) hm2]
              obtain ⟨_, hp2, _, _⟩ := preparse_value_good it2 m2 y r3
                (by rw [hd2]; exact h2) (by
                  rcases hm2 with h | h
                  · exact Or.inl h
                  · exact Or.inr (Or.inl h))
              rw [(cbor_value_get_int_eq _ _ _ _ hp2 hm2).2]
              dsimp only
              unfold apply_actuator_change
              rfl
            · rw [if_neg hm2, int_stage_bad it2 _ _ (by
                rw [hd2, h2]
                intro m a r h
                cases h
                exact ⟨fun h => hm2 (Or.inl h), fun h => hm2 (Or.inr h)⟩)]
              dsimp only
              split <;> rfl
        · rw [if_neg hm1]
          exact int_stage_bad it1 _ _ (by
            rw [hd1, h1]
            intro m a r h
            cases h
            exact ⟨fun h => hm1 (Or.inl h), fun h => hm1 (Or.inr h)⟩)
    · rw [if_neg hmc]
      exact array_stage_bad (parser_start buf) _ _ (by
        rw [hdrop0, h0]
        intro r h
        cases h
        exact hmc ⟨rfl, rfl⟩)

/-! ## The positional decoder and well-formed messages -/

theorem cbor_decode_head_cons_eq (b : Nat) (rest : List Nat) :
    cbor_decode_head (b :: rest) =
      if 256 ≤ b then none
      else if b % 32 < 24 then some (b / 32, b % 32, rest)
      else if 27 < b % 32 then none
      else if rest.length < 2 ^ (b % 32 - 24) then none
      else some (b / 32, be_value (rest.take (2 ^ (b % 32 - 24))),
        rest.drop (2 ^ (b % 32 - 24))) := rfl

/-- A head that decodes is a prefix of the input, and what follows it has no
part in its decoding. -/
theorem cbor_decode_head_split (bs : List Nat) (major arg : Nat) (r : List Nat)
    (hd : cbor_decode_head bs = some (major, arg, r)) :
    ∃ h, bs = h ++ r ∧ 0 < h.length ∧
      ∀ r', cbor_decode_head (h ++ r') = some (major, arg, r') := by
  cases bs with
  | nil => simp [cbor_decode_head] at hd
  | cons b rest =>
    rw [cbor_decode_head_cons_eq] at hd
    by_cases h256 : 256 ≤ b
    · rw [if_pos h256] at hd
      cases hd
    · rw [if_neg h256] at hd
      by_cases h24 : b % 32 < 24
      · rw [if_pos h24] at hd
        cases hd
        refine ⟨[b], rfl, by simp, ?_⟩
        intro r'
        show cbor_decode_head (b :: r') = _
        rw [cbor_decode_head_cons_eq, if_neg h256, if_pos h24]
      · rw [if_neg h24] at hd
        by_cases h27 : 27 < b % 32
        · rw [if_pos h27] at hd
          cases hd
        · rw [if_neg h27] at hd
          by_cases hlen : rest.length < 2 ^ (b % 32 - 24)
          · rw [if_pos hlen] at hd
            cases hd
          · rw [if_neg hlen] at hd
            cases hd
            have hk : 2 ^ (b % 32 - 24) ≤ rest.length := by omega
            refine ⟨b :: rest.take (2 ^ (b % 32 - 24)), ?_, by simp, ?_⟩
            · rw [List.cons_append, List.take_append_drop]
            · intro r'
              have hl : (rest.take (2 ^ (b % 32 - 24))).length = 2 ^ (b % 32 - 24) := by
                rw [List.length_take]
                omega
              rw [List.cons_append, cbor_decode_head_cons_eq, if_neg h256, if_neg h24,
                if_neg h27, if_neg (by rw [List.length_append, hl]; omega),
                List.take_left' hl, List.drop_left' hl]

theorem cbor_decode_succ (fuel : Nat) (bs : List Nat) :
    cbor_decode (fuel + 1) bs =
      match cbor_decode_head bs with
      | none => none
      | some (major, arg, rest) =>
        if major = 0 then some (.uint arg, rest)
        else if major = 1 then some (.nint arg, rest)
        else if major = 3 then
          if rest.length < arg then none else some (.text (rest.take arg), rest.drop arg)
        else if major = 4 then
          match cbor_decode_list fuel arg rest with
          | none => none
          | some (items, rest) => some (.array items, rest)
        else none := by
  rw [cbor_decode]

theorem cbor_decode_list_zero (fuel : Nat) (bs : List Nat) :
    cbor_decode_list (fuel + 1) 0 bs = some ([], bs) := by
  rw [cbor_decode_list]

theorem cbor_decode_list_succ (fuel count : Nat) (bs : List Nat) :
    cbor_decode_list (fuel + 1) (count + 1) bs =
      match cbor_decode fuel bs with
      | none => none
      | some (x, rest) =>
        match cbor_decode_list fuel count rest with
        | none => none
        | some (xs, rest) => some (x :: xs, rest) := by
  rw [cbor_decode_list]

theorem cbor_decode_list_fuel_zero (count : Nat) (bs : List Nat) :
    cbor_decode_list 0 count bs = none := by
  rw [cbor_decode_list]

theorem cbor_decode_fuel_zero (bs : List Nat) : cbor_decode 0 bs = none := by
  rw [cbor_decode]

/-- An item that stands for an integer was read from a head of major type 0
or 1. -/
theorem cbor_decode_toInt (fuel : Nat) (bs : List Nat) (item : CborItem) (r : List Nat)
    (a : Int) (hd : cbor_decode fuel bs = some (item, r)) (ha : item.toInt = some a) :
    ∃ m x, (m = 0 ∨ m = 1) ∧ cbor_decode_head bs = some (m, x, r) ∧ a = head_int m x := by
  cases fuel with
  | zero =>
    rw [cbor_decode_fuel_zero] at hd
    cases hd
  | succ fuel =>
    rw [cbor_decode_succ] at hd
    cases hh : cbor_decode_head bs with
    | none =>
      rw [hh] at hd
      cases hd
    | some t =>
      obtain ⟨major, arg, rest⟩ := t
      rw [hh] at hd
      dsimp only at hd
      by_cases h0 : major = 0
      · rw [if_pos h0] at hd
        cases hd
        refine ⟨major, arg, Or.inl h0, rfl, ?_⟩
        simp only [CborItem.toInt] at ha
        cases ha
        unfold head_int
        rw [if_neg (by omega)]
      · rw [if_neg h0] at hd
        by_cases h1 : major = 1
        · rw [if_pos h1] at hd
          cases hd
          refine ⟨major, arg, Or.inr h1, rfl, ?_⟩
          simp only [CborItem.toInt] at ha
          cases ha
          unfold head_int
          rw [if_pos h1]
        · rw [if_neg h1] at hd
          by_cases h3 : major = 3
          · rw [if_pos h3] at hd
            split at hd
            · cases hd
            · cases hd
              simp [CborItem.toInt] at ha
          · rw [if_neg h3] at hd
            by_cases h4 : major = 4
            · rw [if_pos h4] at hd
              split at hd
              · cases hd
              · cases hd
                simp [CborItem.toInt] at ha
            · rw [if_neg h4] at hd
              cases hd

/-- A head of major type 0 or 1 is read as an integer item. -/
theorem cbor_decode_of_int_head (fuel : Nat) (bs : List Nat) (m x : Nat) (r : List Nat)
    (hm : m = 0 ∨ m = 1) (hh : cbor_decode_head bs = some (m, x, r)) :
    ∃ item, cbor_decode (fuel + 1) bs = some (item, r) ∧ item.toInt = some (head_int m x) := by
  rw [cbor_decode_succ, hh]
  dsimp only
  rcases hm with h | h
  · subst h
    exact ⟨.uint x, rfl, rfl⟩
  · subst h
    exact ⟨.nint x, rfl, rfl⟩

theorem cbor_decode_list_nil_inv (fuel count : Nat) (bs r : List Nat)
    (h : cbor_decode_list fuel count bs = some ([], r)) : count = 0 ∧ r = bs := by
  cases fuel with
  | zero =>
    rw [cbor_decode_list_fuel_zero] at h
    cases h
  | succ fuel =>
    cases count with
    | zero =>
      rw [cbor_decode_list_zero] at h
      cases h
      exact ⟨rfl, rfl⟩
    | succ count =>
      rw [cbor_decode_list_succ] at h
      split at h
      · cases h
      · split at h
        · cases h
        · cases h

theorem cbor_decode_list_cons_inv (fuel count : Nat) (bs r : List Nat) (x : CborItem)
    (xs : List CborItem) (h : cbor_decode_list fuel count bs = some (x :: xs, r)) :
    ∃ fuel' count' r', fuel = fuel' + 1 ∧ count = count' + 1 ∧
      cbor_decode fuel' bs = some (x, r') ∧ cbor_decode_list fuel' count' r' = some (xs, r) := by
  cases fuel with
  | zero =>
    rw [cbor_decode_list_fuel_zero] at h
    cases h
  | succ fuel =>
    cases count with
    | zero =>
      rw [cbor_decode_list_zero] at h
      cases h
    | succ count =>
      rw [cbor_decode_list_succ] at h
      cases h1 : cbor_decode fuel bs with
      | none =>
        rw [h1] at h
        cases h
      | some t =>
        obtain ⟨y, r'⟩ := t
        rw [h1] at h
        dsimp only at h
        cases h2 : cbor_decode_list fuel count r' with
        | none =>
          rw [h2] at h
          cases h
        | some t2 =>
          obtain ⟨ys, r''⟩ := t2
          rw [h2] at h
          dsimp only at h
          cases h
          exact ⟨fuel, count, r', rfl, rfl, h1, h2⟩

theorem cbor_decode_array_inv (fuel : Nat) (bs r : List Nat) (items : List CborItem)
    (h : cbor_decode fuel bs = some (.array items, r)) :
    ∃ fuel' count r1, fuel = fuel' + 1 ∧ cbor_decode_head bs = some (4, count, r1) ∧
      cbor_decode_list fuel' count r1 = some (items, r) := by
  cases fuel with
  | zero =>
    rw [cbor_decode_fuel_zero] at h
    cases h
  | succ fuel =>
    rw [cbor_decode_succ] at h
    cases hh : cbor_decode_head bs with
    | none =>
      rw [hh] at h
      cases h
    | some t =>
      obtain ⟨major, arg, rest⟩ := t
      rw [hh] at h
      dsimp only at h
      by_cases h0 : major = 0
      · rw [if_pos h0] at h
        cases h
      · rw [if_neg h0] at h
        by_cases h1 : major = 1
        · rw [if_pos h1] at h
          cases h
        · rw [if_neg h1] at h
          by_cases h3 : major = 3
          · rw [if_pos h3] at h
            split at h
            · cases h
            · cases h
          · rw [if_neg h3] at h
            by_cases h4 : major = 4
            · rw [if_pos h4] at h
              subst h4
              cases hl : cbor_decode_list fuel arg rest with
              | none =>
                rw [hl] at h
                cases h
              | some t2 =>
                obtain ⟨items', r'⟩ := t2
                rw [hl] at h
                dsimp only at h
                cases h
                exact ⟨fuel, arg, rest, rfl, rfl, hl⟩
            · rw [if_neg h4] at h
              cases h

/-- A well-formed message is read as such by the positional decoder,
whatever bytes follow it. -/
theorem decode_actuator_change_of_message (msg extra : List Nat) (a v : Int)
    (h : decode_actuator_message msg = some (a, v)) :
    decode_actuator_change (msg ++ extra) = some (a, v) := by
  unfold decode_actuator_message at h
  split at h
  · rename_i id value hdec
    cases hid : id.toInt with
    | none => simp [hid] at h
    | some a' =>
      cases hval : value.toInt with
      | none => simp [hid, hval] at h
      | some v' =>
        simp only [hid, hval] at h
        cases h
        obtain ⟨f0, count, r1, _, hh0, hl0⟩ := cbor_decode_array_inv _ _ _ _ hdec
        obtain ⟨f1, c1, r2, _, hc1, hd1, hl1⟩ := cbor_decode_list_cons_inv _ _ _ _ _ _ hl0
        obtain ⟨f2, c2, r3, _, hc2, hd2, hl2⟩ := cbor_decode_list_cons_inv _ _ _ _ _ _ hl1
        obtain ⟨hc3, hr3⟩ := cbor_decode_list_nil_inv _ _ _ _ hl2
        obtain ⟨m1, x, hm1, hh1, ha⟩ := cbor_decode_toInt _ _ _ _ _ hd1 hid
        obtain ⟨m2, y, hm2, hh2, hv⟩ := cbor_decode_toInt _ _ _ _ _ hd2 hval
        subst hc3 hc2 hc1 ha hv
        obtain ⟨p0, hp0, _, hp0'⟩ := cbor_decode_head_split _ _ _ _ hh0
        obtain ⟨p1, hp1, _, hp1'⟩ := cbor_decode_head_split _ _ _ _ hh1
        obtain ⟨p2, hp2, _, hp2'⟩ := cbor_decode_head_split _ _ _ _ hh2
        unfold decode_actuator_change
        rw [hp0, List.append_assoc, hp0']
        simp only [and_self, if_true]
        rw [hp1, List.append_assoc, hp1']
        simp only [hm1, if_true]
        rw [hp2, List.append_assoc, hp2']
        simp only [hm2, if_true]
  · cases h

/-- What the positional decoder reads is a well-formed message at the front
of the input. -/
theorem decode_actuator_change_prefix (buf : List Nat) (a v : Int)
    (h : decode_actuator_change buf = some (a, v)) :
    ∃ msg rest, buf = msg ++ rest ∧ decode_actuator_message msg = some (a, v) := by
  unfold decode_actuator_change at h
  cases hh0 : cbor_decode_head buf with
  | none => simp [hh0] at h
  | some t0 =>
    obtain ⟨major, count, r1⟩ := t0
    simp only [hh0] at h
    by_cases hmc : major = 4 ∧ count = 2
    · rw [if_pos hmc] at h
      obtain ⟨hmaj, hcnt⟩ := hmc
      subst hmaj hcnt
      cases hh1 : cbor_decode_head r1 with
      | none => simp [hh1] at h
      | some t1 =>
        obtain ⟨m1, x, r2⟩ := t1
        simp only [hh1] at h
        by_cases hm1 : m1 = 0 ∨ m1 = 1
        · rw [if_pos hm1] at h
          cases hh2 : cbor_decode_head r2 with
          | none => simp [hh2] at h
          | some t2 =>
            obtain ⟨m2, y, r3⟩ := t2
            simp only [hh2] at h
            by_cases hm2 : m2 = 0 ∨ m2 = 1
            · rw [if_pos hm2] at h
              cases h
              obtain ⟨p0, hp0, hl0, hp0'⟩ := cbor_decode_head_split _ _ _ _ hh0
              obtain ⟨p1, hp1, hl1, hp1'⟩ := cbor_decode_head_split _ _ _ _ hh1
              obtain ⟨p2, hp2, hl2, hp2'⟩ := cbor_decode_head_split _ _ _ _ hh2
              refine ⟨p0 ++ (p1 ++ (p2 ++ [])), r3, ?_, ?_⟩
              · rw [hp0, hp1, hp2]
                simp
              · obtain ⟨k, hk⟩ : ∃ k, (p0 ++ (p1 ++ (p2 ++ []))).length = k + 3 := by
                  refine ⟨p0.length + p1.length + p2.length - 3, ?_⟩
                  simp only [List.length_append, List.length_nil]
                  omega
                obtain ⟨i1, hi1, hi1'⟩ := cbor_decode_of_int_head (k + 1) _ _ _ _ hm1
                  (hp1' (p2 ++ []))
                obtain ⟨i2, hi2, hi2'⟩ := cbor_decode_of_int_head k _ _ _ _ hm2 (hp2' [])
                unfold decode_actuator_message
                rw [hk, cbor_decode_succ, hp0']
                dsimp only
                rw [if_neg (by decide), if_neg (by decide), if_neg (by decide), if_pos rfl,
                  cbor_decode_list_succ, hi1]
                dsimp only
                rw [cbor_decode_list_succ, hi2]
                dsimp only
                rw [cbor_decode_list_zero]
                dsimp only
                rw [hi1', hi2']
            · rw [if_neg hm2] at h
              cases h
        · rw [if_neg hm1] at h
          cases h
    · rw [if_neg hmc] at h
      cases h

/-- No prefix of the input is a well-formed message exactly when the
positional decoder fails. -/
theorem no_message_prefix_iff (buf : List Nat) :
    (∀ msg rest, buf = msg ++ rest → decode_actuator_message msg = none) ↔
      decode_actuator_change buf = none := by
  constructor
  · intro h
    cases hd : decode_actuator_change buf with
    | none => rfl
    | some p =>
      obtain ⟨a, v⟩ := p
      obtain ⟨msg, rest, hbuf, hmsg⟩ := decode_actuator_change_prefix buf a v hd
      rw [h msg rest hbuf] at hmsg
      cases hmsg
  · intro h msg rest hbuf
    cases hm : decode_actuator_message msg with
    | none => rfl
    | some p =>
      obtain ⟨a, v⟩ := p
      rw [hbuf, decode_actuator_change_of_message msg rest a v hm] at h
      cases h

/-! ## The claims about `gble_handle_actuators_changed` -/

theorem to_uint32_natCast (n : Nat) (h : n < 2 ^ 32) : to_uint32 (n : Int) = n := by
  unfold to_uint32
  omega

theorem list_set_same {α : Type} (l : List α) (i : Nat) (a : α) (h : l[i]? = some a) :
    l.set i a = l := by
  apply List.ext_getElem?
  intro j
  rw [List.getElem?_set]
  split
  · rename_i hij
    subst hij
    split
    · exact h.symm
    · rename_i hlt
      rw [List.getElem?_eq_none (by omega)] at h
      cases h
  · rfl

/-- C8 as stated fails: the four bytes `82 01 05 00` are not a well-formed
array of two integers - a byte is left over after the array `[1, 5]` - yet
on the device of `main.c` the handler of actuator 1 is invoked with the value
5 and `last_value` becomes 5. -/
theorem C8_counterexample :
    decode_actuator_message [130, 1, 5, 0] = none ∧
    (gble_handle_actuators_changed main_server [130, 1, 5, 0]).2 =
      [{ cb := handle_actuator_change, actuator_id := 1, value := 5, context := 0 }] ∧
    (main_server.actuators.map fun x => x.last_value) = [0, 0] ∧
    ((gble_handle_actuators_changed main_server [130, 1, 5, 0]).1.actuators.map
      fun x => x.last_value) = [0, 5] := by
  decide

/-- C8, amended: an input of which no prefix is a well-formed CBOR
definite-length array of two integers - it is not an array, its element
count is not 2, its length is indefinite, its first or second element is not
an integer, or the buffer ends before the second integer is complete -
invokes no actuator callback and leaves the whole server, the `last_value` of
every actuator included, as it was.  The bytes after the second integer are
not examined: a well-formed message followed by further bytes is handled
exactly as the message alone. -/
theorem C8_malformed_message_has_no_effect (server : gble_server) (buf : List Nat) :
    ((∀ msg rest, buf = msg ++ rest → decode_actuator_message msg = none) →
      gble_handle_actuators_changed server buf = (server, [])) ∧
    (∀ msg extra, buf = msg ++ extra → decode_actuator_message msg ≠ none →
      gble_handle_actuators_changed server buf =
        gble_handle_actuators_changed server msg) := by
  refine ⟨?_, ?_⟩
  · intro h
    rw [gble_handle_actuators_changed_eq, (no_message_prefix_iff buf).mp h]
  · intro msg extra hbuf hmsg
    cases hm : decode_actuator_message msg with
    | none => exact absurd hm hmsg
    | some p =>
      obtain ⟨a, v⟩ := p
      have h1 := decode_actuator_change_of_message msg extra a v hm
      have h2 := decode_actuator_change_of_message msg [] a v hm
      rw [List.append_nil] at h2
      rw [gble_handle_actuators_changed_eq, gble_handle_actuators_changed_eq, hbuf, h1, h2]

/-- Witness of C8: an integer instead of an array, an array of three elements,
an array of indefinite length, a text string as first element, a text string
as second element, a buffer that ends after the first element and one that
ends inside the second; and the message `[1, 5]` followed by a byte, which is
handled as `[1, 5]`. -/
theorem C8_witness :
    gble_handle_actuators_changed main_server [1] = (main_server, []) ∧
    gble_handle_actuators_changed main_server [131, 1, 5, 6] = (main_server, []) ∧
    gble_handle_actuators_changed main_server [159, 1, 5, 255] = (main_server, []) ∧
    gble_handle_actuators_changed main_server [130, 97, 65, 5] = (main_server, []) ∧
    gble_handle_actuators_changed main_server [130, 1, 97, 65] = (main_server, []) ∧
    gble_handle_actuators_changed main_server [130, 1] = (main_server, []) ∧
    gble_handle_actuators_changed main_server [130, 1, 25, 5] = (main_server, []) ∧
    gble_handle_actuators_changed main_server [130, 1, 5, 0] =
      gble_handle_actuators_changed main_server [130, 1, 5] :=
  ⟨(C8_malformed_message_has_no_effect _ _).1 ((no_message_prefix_iff _).mpr (by decide)),
   (C8_malformed_message_has_no_effect _ _).1 ((no_message_prefix_iff _).mpr (by decide)),
   (C8_malformed_message_has_no_effect _ _).1 ((no_message_prefix_iff _).mpr (by decide)),
   (C8_malformed_message_has_no_effect _ _).1 ((no_message_prefix_iff _).mpr (by decide)),
   (C8_malformed_message_has_no_effect _ _).1 ((no_message_prefix_iff _).mpr (by decide)),
   (C8_malformed_message_has_no_effect _ _).1 ((no_message_prefix_iff _).mpr (by decide)),
   (C8_malformed_message_has_no_effect _ _).1 ((no_message_prefix_iff _).mpr (by decide)),
   (C8_malformed_message_has_no_effect main_server [130, 1, 5, 0]).2 [130, 1, 5] [0] rfl
     (by decide)⟩

/-- C9: suppression.  For a valid actuator id `a < actuator_count` and a
message that decodes as `[a, v]` with `v` equal to `actuators[a].last_value`,
`gble_handle_actuators_changed` invokes no callback and leaves the server,
`last_value` included, unchanged. -/
theorem C9_same_value_is_suppressed (server : gble_server) (buf : List Nat) (a v : Nat)
    (actuator : gble_actuator_feature)
    (hmsg : decode_actuator_change buf = some ((a : Int), (v : Int)))
    (ha : a < server.actuator_count) (ha32 : a < 2 ^ 32)
    (hact : server.actuators[a]? = some actuator)
    (hv : v = actuator.last_value) (hv32 : v < 2 ^ 32) :
    gble_handle_actuators_changed server buf = (server, []) := by
  rw [gble_handle_actuators_changed_eq, hmsg]
  dsimp only
  rw [to_uint32_natCast a ha32, to_uint32_natCast v hv32]
  unfold apply_actuator_change
  rw [if_neg (by omega), hact]
  dsimp only
  subst hv
  have hset : server.actuators.set a { actuator with last_value := actuator.last_value } =
      server.actuators := list_set_same _ _ _ hact
  rw [hset]
  cases hcb : actuator.cb <;> simp

/-- Witness of C9: after `[1, 5]` has been applied to the reference device,
sending `[1, 5]` again changes nothing and invokes nothing. -/
theorem C9_witness :
    (gble_handle_actuators_changed main_server [130, 1, 5]).1.actuators[1]? =
      some { description := [65, 99, 116, 117, 97, 116, 111, 114, 32, 50], feature_type := 1,
             step_range_low := 0, step_range_high := 20, message_type := 1,
             cb := some handle_actuator_change, cb_context := 0, id := 1, last_value := 5 } ∧
    gble_handle_actuators_changed (gble_handle_actuators_changed main_server [130, 1, 5]).1
        [130, 1, 5] =
      ((gble_handle_actuators_changed main_server [130, 1, 5]).1, []) :=
  ⟨by decide,
   C9_same_value_is_suppressed (gble_handle_actuators_changed main_server [130, 1, 5]).1
     [130, 1, 5] 1 5
     { description := [65, 99, 116, 117, 97, 116, 111, 114, 32, 50], feature_type := 1,
       step_range_low := 0, step_range_high := 20, message_type := 1,
       cb := some handle_actuator_change, cb_context := 0, id := 1, last_value := 5 }
     (by decide) (by decide) (by decide) (by decide) (by decide) (by decide)⟩

/-- C10: for a valid actuator id `a < actuator_count` and a message that
decodes as `[a, v]` with `v` in the range of `uint32_t` and different from
`actuators[a].last_value`: when `actuators[a].cb` is not null it is invoked
exactly once, with the arguments `(a, v, cb_context)`, and otherwise nothing
is invoked; in both cases `actuators[a].last_value` is `v` afterwards. -/
theorem C10_changed_value_is_dispatched (server : gble_server) (buf : List Nat) (a v : Nat)
    (actuator : gble_actuator_feature)
    (hmsg : decode_actuator_change buf = some ((a : Int), (v : Int)))
    (ha : a < server.actuator_count) (ha32 : a < 2 ^ 32)
    (hact : server.actuators[a]? = some actuator)
    (hv32 : v < 2 ^ 32) (hv : v ≠ actuator.last_value) :
    (gble_handle_actuators_changed server buf).2 =
      (match actuator.cb with
       | some cb => [{ cb := cb, actuator_id := a, value := v, context := actuator.cb_context }]
       | none => []) ∧
    (gble_handle_actuators_changed server buf).1.actuators[a]? =
      some { actuator with last_value := v } := by
  rw [gble_handle_actuators_changed_eq, hmsg]
  dsimp only
  rw [to_uint32_natCast a ha32, to_uint32_natCast v hv32]
  unfold apply_actuator_change
  rw [if_neg (by omega), hact]
  dsimp only
  have hlt : a < server.actuators.length := by
    by_contra hc
    rw [List.getElem?_eq_none (by omega)] at hact
    cases hact
  refine ⟨?_, ?_⟩
  · cases hcb : actuator.cb <;> simp [hv]
  · rw [List.getElem?_set_self hlt]

/-- Witness of C10: on the reference device `[1, 5]` invokes the handler of
actuator 1 with the value 5 and leaves `last_value = 5`. -/
theorem C10_witness :
    (gble_handle_actuators_changed main_server [130, 1, 5]).2 =
      [{ cb := handle_actuator_change, actuator_id := 1, value := 5, context := 0 }] ∧
    ((gble_handle_actuators_changed main_server [130, 1, 5]).1.actuators[1]?.map
      fun x => x.last_value) = some 5 := by
  have h := C10_changed_value_is_dispatched main_server [130, 1, 5] 1 5
    { description := [65, 99, 116, 117, 97, 116, 111, 114, 32, 50], feature_type := 1,
      step_range_low := 0, step_range_high := 20, message_type := 1,
      cb := some handle_actuator_change, cb_context := 0, id := 1, last_value := 0 }
    (by decide) (by decide) (by decide) (by decide) (by decide) (by decide)
  exact ⟨h.1, by rw [h.2]; rfl⟩

/-! ## Properties of `gble_set_sensor_value` -/

theorem cbor_encode_int_eq (e : CborEncoder) (v : Int) (hn : e.end_null = false) :
    cbor_encode_int e v =
      if e.out.length + (CborItem.int v).encode.length ≤ e.size then
        (CborNoError,
          { e with out := e.out ++ (CborItem.int v).encode, remaining := e.remaining - 1 })
      else
        (CborErrorOutOfMemory,
          { e with remaining := e.remaining - 1, end_null := true,
                   bytes_needed := (CborItem.int v).encode.length - (e.size - e.out.length) }) := by
  unfold cbor_encode_int encode_number encode_number_no_update CborItem.int
  by_cases hv : v < 0
  · rw [if_pos hv, if_pos hv, saturated_decrement_eq,
      encode_number_bytes_eq _ _ (by unfold NegativeIntegerType; omega),
      append_to_buffer_eq _ _ (by simpa using hn)]
    rfl
  · rw [if_neg hv, if_neg hv, saturated_decrement_eq,
      encode_number_bytes_eq _ _ (by unfold UnsignedIntegerType; omega),
      append_to_buffer_eq _ _ (by simpa using hn)]
    rfl

theorem checked_int {β : Type} (e : CborEncoder) (v : Int) (leave k : CborEncoder → β)
    (hn : e.end_null = false) :
    CBOR_CHECKED_RET (cbor_encode_int e v) leave k =
      if e.out.length + (CborItem.int v).encode.length ≤ e.size then
        k { e with out := e.out ++ (CborItem.int v).encode, remaining := e.remaining - 1 }
      else
        leave { e with remaining := e.remaining - 1, end_null := true,
                       bytes_needed :=
                         (CborItem.int v).encode.length - (e.size - e.out.length) } := by
  unfold CBOR_CHECKED_RET
  rw [cbor_encode_int_eq e v hn]
  split_ifs <;> simp_all

theorem CborItem.int_encode_length_le (v : Int) : (CborItem.int v).encode.length ≤ 9 := by
  unfold CborItem.int
  split
  · rw [CborItem.encode]; exact cbor_head_length_le _ _
  · rw [CborItem.encode]; exact cbor_head_length_le _ _

theorem sensor_value_item_encode (id : Nat) (value : Int) :
    (sensor_value_item id value).encode =
      [130] ++ cbor_head 0 id ++ (CborItem.int value).encode := by
  unfold sensor_value_item
  rw [CborItem.encode, CborItem.encodeList, CborItem.encodeList, CborItem.encodeList,
    CborItem.encode]
  simp [cbor_head]

/-- The encoder part of `gble_set_sensor_value`: with a callback registered
and a valid id the scratch buffer always suffices and the callback is given
the encoding of `[id, value]`. -/
theorem gble_set_sensor_value_eq (server : gble_server) (id : Nat) (value : Int)
    (sensor : gble_sensor_feature) (hid : id < server.sensors_count)
    (hs : server.sensors[id]? = some sensor) :
    gble_set_sensor_value server id value =
      (true,
       { server with sensors := server.sensors.set id { sensor with last_value := value } },
       match server.sensor_cb with
       | none => []
       | some cb =>
         [{ cb := cb, buf := (sensor_value_item id value).encode,
            buf_size := (sensor_value_item id value).encode.length,
            context := server.sensor_cb_context }]) := by
  unfold gble_set_sensor_value
  rw [if_neg (by omega), hs]
  dsimp only
  cases hcb : server.sensor_cb with
  | none => rfl
  | some cb =>
    dsimp only
    have h9 := cbor_head_length_le 0 id
    have h9i := CborItem.int_encode_length_le value
    rw [checked_create_array _ _ _ _ rfl (by decide)]
    have h4 : cbor_head 4 2 = [130] := by decide
    rw [h4]
    rw [if_pos (by simp [cbor_encoder_init])]
    dsimp only
    rw [checked_uint _ _ _ _ rfl]
    rw [if_pos (by simp [cbor_encoder_init]; omega)]
    rw [checked_int _ _ _ _ rfl]
    rw [if_pos (by simp [cbor_encoder_init]; omega)]
    rw [checked_close_container _ _ _ _ rfl rfl (by simp [cbor_encoder_init])]
    simp [cbor_encoder_get_buffer_size, cbor_encoder_init, sensor_value_item_encode]

/-! ## The claims about actuator ids and `gble_set_sensor_value` -/

/-- C11 (the code departs from it): the message `[4294967297, 5]`, whose id
does not fit in 32 bits and is not below `actuator_count = 2`, is not
discarded: `cbor_value_get_int` narrows the id to `int` and the cast to
`uint32_t` leaves 1, so the callback of actuator 1 is invoked with the value 5
and its `last_value` becomes 5. -/
theorem C11_wide_id_reaches_actuator :
    decode_actuator_change [130, 27, 0, 0, 0, 1, 0, 0, 0, 1, 5] = some (4294967297, 5) ∧
    main_server.actuator_count = 2 ∧
    (main_server.actuators.map fun a => a.last_value) = [0, 0] ∧
    (gble_handle_actuators_changed main_server [130, 27, 0, 0, 0, 1, 0, 0, 0, 1, 5]).2 =
      [{ cb := handle_actuator_change, actuator_id := 1, value := 5, context := 0 }] ∧
    ((gble_handle_actuators_changed main_server
        [130, 27, 0, 0, 0, 1, 0, 0, 0, 1, 5]).1.actuators.map fun a => a.last_value) =
      [0, 5] := by
  decide

/-- C12: `gble_set_sensor_value` returns `false` exactly when
`id >= sensors_count`, and then the server - every sensor's `last_value`
included - is unchanged and the sensor callback is not invoked; for every
`id < sensors_count` and every value it returns `true`, the scratch buffer of
512 bytes being large enough for every message. -/
theorem C12_set_sensor_value_result (server : gble_server) (id : Nat) (value : Int)
    (hcount : server.sensors_count = server.sensors.length) :
    ((gble_set_sensor_value server id value).1 = false ↔ id ≥ server.sensors_count) ∧
    (id ≥ server.sensors_count →
      gble_set_sensor_value server id value = (false, server, [])) ∧
    (id < server.sensors_count → (gble_set_sensor_value server id value).1 = true) := by
  have hfalse : id ≥ server.sensors_count →
      gble_set_sensor_value server id value = (false, server, []) := by
    intro h
    unfold gble_set_sensor_value
    rw [if_pos h]
  have htrue : id < server.sensors_count →
      (gble_set_sensor_value server id value).1 = true := by
    intro h
    have hlt : id < server.sensors.length := by omega
    rw [gble_set_sensor_value_eq server id value server.sensors[id] h
      (List.getElem?_eq_getElem hlt)]
  refine ⟨⟨?_, ?_⟩, hfalse, htrue⟩
  · intro h
    by_contra hc
    rw [htrue (by omega)] at h
    cases h
  · intro h
    rw [hfalse h]

/-- Witness of C12: on the device of `main.c`, which has two sensors, id 2 is
refused and id 1 is accepted. -/
theorem C12_witness :
    gble_set_sensor_value main_server_wired 2 7 = (false, main_server_wired, []) ∧
    (gble_set_sensor_value main_server_wired 1 7).1 = true :=
  ⟨(C12_set_sensor_value_result main_server_wired 2 7 (by decide)).2.1 (by decide),
   (C12_set_sensor_value_result main_server_wired 1 7 (by decide)).2.2 (by decide)⟩

/-- C13: for a valid id and a registered sensor callback,
`gble_set_sensor_value` invokes the callback once, with the bytes of the CBOR
encoding of the definite-length array `[id, value]` - the id as an unsigned
integer, the value as a signed integer, negative values under major type 1 -
and with `buf_size` their number. -/
theorem C13_sensor_message (server : gble_server) (id : Nat) (value : Int) (cb : Nat)
    (hcount : server.sensors_count = server.sensors.length)
    (hid : id < server.sensors_count) (hcb : server.sensor_cb = some cb) :
    (gble_set_sensor_value server id value).2.2 =
      [{ cb := cb,
         buf := cbor_head 4 2 ++ cbor_head 0 id ++
           (if value < 0 then cbor_head 1 (-1 - value).toNat else cbor_head 0 value.toNat),
         buf_size := (sensor_value_item id value).encode.length,
         context := server.sensor_cb_context }] ∧
    (sensor_value_item id value).encode = cbor_head 4 2 ++ cbor_head 0 id ++
      (if value < 0 then cbor_head 1 (-1 - value).toNat else cbor_head 0 value.toNat) := by
  have hlt : id < server.sensors.length := by omega
  have henc : (sensor_value_item id value).encode = cbor_head 4 2 ++ cbor_head 0 id ++
      (if value < 0 then cbor_head 1 (-1 - value).toNat else cbor_head 0 value.toNat) := by
    rw [sensor_value_item_encode]
    have h4 : cbor_head 4 2 = [130] := by decide
    rw [h4]
    unfold CborItem.int
    split <;> rw [CborItem.encode]
  rw [gble_set_sensor_value_eq server id value server.sensors[id] hid
    (List.getElem?_eq_getElem hlt), hcb, ← henc]
  exact ⟨rfl, rfl⟩

/-- Witness of C13: id 0 with the value 7 gives the three bytes `82 00 07`,
which decode to `[0, 7]`; id 1 with the value -3 gives `82 01 22`. -/
theorem C13_witness :
    (gble_set_sensor_value main_server_wired 0 7).2.2 =
      [{ cb := gatt_svr_set_read_value_ctx_ptr, buf := [130, 0, 7], buf_size := 3,
         context := 0 }] ∧
    decode_sensor_value [130, 0, 7] = some (0, 7) ∧
    (gble_set_sensor_value main_server_wired 1 (-3)).2.2 =
      [{ cb := gatt_svr_set_read_value_ctx_ptr, buf := [130, 1, 34], buf_size := 3,
         context := 0 }] ∧
    decode_sensor_value [130, 1, 34] = some (1, -3) :=
  ⟨(C13_sensor_message main_server_wired 0 7 gatt_svr_set_read_value_ctx_ptr
      (by decide) (by decide) (by decide)).1,
   by decide,
   by decide,
   by decide⟩

/-- C14: for a valid id, after `gble_set_sensor_value(server, id, value)` the
field `sensors[id].last_value` is `value`, whether or not a sensor callback is
registered, and no other sensor has changed. -/
theorem C14_sensor_last_value (server : gble_server) (id : Nat) (value : Int)
    (hcount : server.sensors_count = server.sensors.length)
    (hid : id < server.sensors_count) :
    ((gble_set_sensor_value server id value).2.1.sensors[id]?.map fun s => s.last_value) =
      some value ∧
    ∀ j, j ≠ id →
      (gble_set_sensor_value server id value).2.1.sensors[j]? = server.sensors[j]? := by
  have hlt : id < server.sensors.length := by omega
  rw [gble_set_sensor_value_eq server id value server.sensors[id] hid
    (List.getElem?_eq_getElem hlt)]
  dsimp only
  refine ⟨?_, ?_⟩
  · rw [List.getElem?_set_self hlt]
    rfl
  · intro j hj
    rw [List.getElem?_set_ne (Ne.symm hj)]

/-- Witness of C14: with no callback registered, setting sensor 1 of the
device of `main.c` to -4 leaves the values 0 and -4. -/
theorem C14_witness :
    main_server.sensor_cb = none ∧
    ((gble_set_sensor_value main_server 1 (-4)).2.1.sensors[1]?.map fun s => s.last_value) =
      some (-4) ∧
    (gble_set_sensor_value main_server 1 (-4)).2.1.sensors[0]? = main_server.sensors[0]? :=
  ⟨by decide,
   (C14_sensor_last_value main_server 1 (-4) (by decide) (by decide)).1,
   (C14_sensor_last_value main_server 1 (-4) (by decide) (by decide)).2 0 (by decide)⟩

/-! ## Properties of the GATT server -/

theorem notify_loop_eq (subs : List Bool) (h n : Nat) :
    (List.range n).foldl
      (fun sent conn_handle =>
        if subs.getD conn_handle false = true then
          sent ++ [{ conn_handle := conn_handle, chr_val_handle := h : ble_gatts_notify_call }]
        else sent)
      [] =
    ((List.range n).filter fun c => subs.getD c false).map
      fun c => { conn_handle := c, chr_val_handle := h } := by
  induction n with
  | zero => rfl
  | succ n ih =>
    rw [List.range_succ, List.foldl_append, ih, List.filter_append, List.map_append]
    by_cases hs : subs.getD n false = true
    · rw [List.foldl_cons, List.foldl_nil, if_pos hs, List.filter_cons, if_pos hs]
      rfl
    · rw [List.foldl_cons, List.foldl_nil, if_neg hs, List.filter_cons, if_neg hs]
      simp

/-- The notifications of one publish: the subscribed connections in
increasing order, once each. -/
theorem notify_subscribers_eq (subs : List Bool) (h : Nat) :
    notify_subscribers subs h =
      ((List.range subs.length).filter fun c => subs.getD c false).map
        fun c => { conn_handle := c, chr_val_handle := h } := by
  unfold notify_subscribers sizeof_array
  exact notify_loop_eq subs h subs.length

theorem notify_subscribers_conn_handles (subs : List Bool) (h : Nat) :
    (notify_subscribers subs h).map (fun n => n.conn_handle) =
      (List.range subs.length).filter fun c => subs.getD c false := by
  rw [notify_subscribers_eq, List.map_map]
  simp [Function.comp_def]

theorem mem_notify_subscribers (subs : List Bool) (h : Nat) (n : ble_gatts_notify_call) :
    n ∈ notify_subscribers subs h ↔
      n.conn_handle < subs.length ∧ subs[n.conn_handle]? = some true ∧ n.chr_val_handle = h := by
  rw [notify_subscribers_eq, List.mem_map]
  constructor
  · rintro ⟨c, hc, rfl⟩
    rw [List.mem_filter, List.mem_range] at hc
    refine ⟨hc.1, ?_, rfl⟩
    have := hc.2
    rw [List.getD_eq_getElem?_getD] at this
    rw [List.getElem?_eq_getElem hc.1] at this ⊢
    simpa using this
  · rintro ⟨h1, h2, h3⟩
    refine ⟨n.conn_handle, ?_, ?_⟩
    · rw [List.mem_filter, List.mem_range]
      refine ⟨h1, ?_⟩
      rw [List.getD_eq_getElem?_getD, h2]
      rfl
    · cases n
      simp_all

theorem count_notify_subscribers (subs : List Bool) (h c : Nat)
    (hc : subs[c]? = some true) :
    (notify_subscribers subs h).count { conn_handle := c, chr_val_handle := h } = 1 := by
  apply List.count_eq_one_of_mem
  · rw [notify_subscribers_eq]
    apply List.Nodup.map
    · intro a b hab
      injection hab
    · exact (List.nodup_range _).filter _
  · rw [mem_notify_subscribers]
    refine ⟨?_, hc, rfl⟩
    by_contra hlt
    rw [List.getElem?_eq_none (by simpa using hlt)] at hc
    cases hc

/-! ## The claims about the GATT server -/

theorem array_store_eq (table : List Bool) (index : Nat) (flag : Bool)
    (h : index < table.length) : array_store table index flag = some (table.set index flag) := by
  unfold array_store
  rw [if_pos h]

theorem gatt_svr_set_read_value_accepts (handles : List Nat) (s : gatt_server)
    (buf : List Nat) (buf_size : Nat) (hs : s.read_buf.length = 256) (hn : buf_size ≤ 256) :
    gatt_svr_set_read_value handles s buf buf_size =
      (true,
       { s with read_buf := buf.take buf_size ++ s.read_buf.drop buf_size,
                read_buf_size := buf_size },
       notify_subscribers s.conn_handle_read_subs (handles.getD HANDLE_MAIN_RX 0)) := by
  unfold gatt_svr_set_read_value sizeof_array
  rw [if_neg (by omega)]

theorem sensor_value_item_encode_length_le (id : Nat) (value : Int) :
    (sensor_value_item id value).encode.length ≤ 19 := by
  rw [sensor_value_item_encode]
  have h1 := cbor_head_length_le 0 id
  have h2 := CborItem.int_encode_length_le value
  simp only [List.length_append, List.length_cons, List.length_nil]
  omega

/-- C15: no de-duplication on the sensor path.  Two calls of
`gble_set_sensor_value` in a row with the same valid id and the same value
each invoke the registered sensor callback once, with the same bytes; with
the callback that `main.c` registers, `gatt_svr_set_read_value_ctx`, each of
the two calls sends one notification to every connection subscribed to the
read channel. -/
theorem C15_no_deduplication_of_sensor_values (server : gble_server) (g : gatt_server)
    (Svc_char_handles : List Nat) (id : Nat) (value : Int) (cb c : Nat)
    (hcount : server.sensors_count = server.sensors.length)
    (hid : id < server.sensors_count) (hcb : server.sensor_cb = some cb)
    (hg : g.wf) (hc : g.conn_handle_read_subs[c]? = some true) :
    (gble_set_sensor_value server id value).2.2 =
      [{ cb := cb, buf := (sensor_value_item id value).encode,
         buf_size := (sensor_value_item id value).encode.length,
         context := server.sensor_cb_context }] ∧
    (gble_set_sensor_value (gble_set_sensor_value server id value).2.1 id value).2.2 =
      (gble_set_sensor_value server id value).2.2 ∧
    (run_sensor_calls Svc_char_handles g (gble_set_sensor_value server id value).2.2).2.count
      { conn_handle := c, chr_val_handle := Svc_char_handles.getD HANDLE_MAIN_RX 0 } = 1 ∧
    (run_sensor_calls Svc_char_handles
      (run_sensor_calls Svc_char_handles g (gble_set_sensor_value server id value).2.2).1
      (gble_set_sensor_value (gble_set_sensor_value server id value).2.1 id value).2.2).2.count
      { conn_handle := c, chr_val_handle := Svc_char_handles.getD HANDLE_MAIN_RX 0 } = 1 := by
  have hlt : id < server.sensors.length := by omega
  have h1 := gble_set_sensor_value_eq server id value server.sensors[id] hid
    (List.getElem?_eq_getElem hlt)
  rw [hcb] at h1
  dsimp only at h1
  have h2 := gble_set_sensor_value_eq
    { server with
      sensors := server.sensors.set id { server.sensors[id] with last_value := value } }
    id value { server.sensors[id] with last_value := value } hid
    (by dsimp only; rw [List.getElem?_set_self hlt])
  dsimp only at h2
  rw [hcb] at h2
  dsimp only at h2
  have hlen := sensor_value_item_encode_length_le id value
  rw [h1]
  dsimp only
  rw [h2]
  dsimp only
  have hrun : ∀ g' : gatt_server, g'.read_buf.length = 256 →
      run_sensor_calls Svc_char_handles g'
        [{ cb := cb, buf := (sensor_value_item id value).encode,
           buf_size := (sensor_value_item id value).encode.length,
           context := server.sensor_cb_context }] =
      ({ g' with
          read_buf := (sensor_value_item id value).encode.take
              (sensor_value_item id value).encode.length ++
            g'.read_buf.drop (sensor_value_item id value).encode.length,
          read_buf_size := (sensor_value_item id value).encode.length },
       notify_subscribers g'.conn_handle_read_subs
         (Svc_char_handles.getD HANDLE_MAIN_RX 0)) := by
    intro g' hg'
    unfold run_sensor_calls run_sensor_calls gatt_svr_set_read_value_ctx
    dsimp only
    rw [gatt_svr_set_read_value_accepts _ _ _ _ hg' (by omega)]
    dsimp only
    rw [List.append_nil]
  refine ⟨rfl, rfl, ?_, ?_⟩
  · rw [hrun g hg.1]
    exact count_notify_subscribers _ _ _ hc
  · rw [hrun g hg.1]
    dsimp only
    rw [hrun _ (by
      have := hg.1
      simp only [List.length_append, List.length_take, List.length_drop]
      omega)]
    exact count_notify_subscribers _ _ _ hc

/-- Witness of C15: sensor 0 of the device of `main.c` set to 7 twice, with
connection 0 subscribed to the read channel. -/
theorem C15_witness :
    (gble_set_sensor_value (gble_set_sensor_value main_server_wired 0 7).2.1 0 7).2.2 =
      (gble_set_sensor_value main_server_wired 0 7).2.2 ∧
    (run_sensor_calls main_Svc_char_handles gatt_server_subscribed
        (gble_set_sensor_value main_server_wired 0 7).2.2).2.count
      { conn_handle := 0, chr_val_handle := 35 } = 1 ∧
    (run_sensor_calls main_Svc_char_handles
      (run_sensor_calls main_Svc_char_handles gatt_server_subscribed
        (gble_set_sensor_value main_server_wired 0 7).2.2).1
      (gble_set_sensor_value (gble_set_sensor_value main_server_wired 0 7).2.1 0 7).2.2).2.count
      { conn_handle := 0, chr_val_handle := 35 } = 1 :=
  (C15_no_deduplication_of_sensor_values main_server_wired gatt_server_subscribed
    main_Svc_char_handles 0 7 gatt_svr_set_read_value_ctx_ptr 0
    (by decide) (by decide) (by decide) (by decide) (by decide)).2

/-- C16 (the code departs from it): the guard of `gatt_svr_handle_subscribe`
is `conn_handle > COUNT_OF(...)`, so a connection handle equal to
`CONFIG_NIMBLE_MAX_CONNECTIONS = 3` is not rejected: the function goes on to
store at index 3 of a table of three elements, on the battery channel as on
the read channel.  Handles from 4 on are rejected. -/
theorem C16_subscribe_stores_outside_the_table :
    gatt_server_instance.wf ∧
    gatt_svr_handle_subscribe main_Svc_char_handles gatt_server_instance 3 12 true false =
      none ∧
    gatt_svr_handle_subscribe main_Svc_char_handles gatt_server_instance 3 35 true false =
      none ∧
    gatt_svr_handle_subscribe main_Svc_char_handles gatt_server_instance 4 12 true false =
      some gatt_server_instance := by
  decide

/-- C17: cleanup.  For a connection `c < CONFIG_NIMBLE_MAX_CONNECTIONS` and
any state of the tables, `gatt_svr_client_disconnected(c)` sets the entries of
`c` in the battery table and in the read table to `false` and changes nothing
else; a publish on either channel that follows sends no notification to
`c`. -/
theorem C17_disconnect_clears_subscriptions (s : gatt_server) (c : Nat) (hs : s.wf)
    (hc : c < CONFIG_NIMBLE_MAX_CONNECTIONS) :
    ∃ s', gatt_svr_client_disconnected s c = some s' ∧
      s' = { s with conn_handle_battery_subs := s.conn_handle_battery_subs.set c false,
                    conn_handle_read_subs := s.conn_handle_read_subs.set c false } ∧
      s'.conn_handle_battery_subs[c]? = some false ∧
      s'.conn_handle_read_subs[c]? = some false ∧
      (∀ d, d ≠ c →
        s'.conn_handle_battery_subs[d]? = s.conn_handle_battery_subs[d]? ∧
        s'.conn_handle_read_subs[d]? = s.conn_handle_read_subs[d]?) ∧
      (∀ handles buf buf_size, ∀ n ∈ (gatt_svr_set_read_value handles s' buf buf_size).2.2,
        n.conn_handle ≠ c) ∧
      (∀ handles value, ∀ n ∈ (gatt_svr_set_battery_level handles s' value).2.2,
        n.conn_handle ≠ c) := by
  obtain ⟨_, hb, hr⟩ := hs
  have hcb : c < s.conn_handle_battery_subs.length := by omega
  have hcr : c < s.conn_handle_read_subs.length := by omega
  refine ⟨_, ?_, rfl, ?_, ?_, ?_, ?_, ?_⟩
  · unfold gatt_svr_client_disconnected COUNT_OF
    rw [if_neg (by omega), array_store_eq _ _ _ hcb, array_store_eq _ _ _ hcr]
  · exact List.getElem?_set_self hcb
  · exact List.getElem?_set_self hcr
  · intro d hd
    exact ⟨List.getElem?_set_ne (Ne.symm hd), List.getElem?_set_ne (Ne.symm hd)⟩
  · intro handles buf buf_size n hn heq
    unfold gatt_svr_set_read_value at hn
    split at hn
    · cases hn
    · dsimp only at hn
      rw [mem_notify_subscribers, heq, List.getElem?_set_self hcr] at hn
      have := hn.2.1
      cases this
  · intro handles value n hn heq
    unfold gatt_svr_set_battery_level at hn
    split at hn
    · cases hn
    · dsimp only at hn
      rw [mem_notify_subscribers, heq, List.getElem?_set_self hcb] at hn
      have := hn.2.1
      cases this

/-- Witness of C17: connection 1, subscribed on both channels like the other
two, is disconnected. -/
theorem C17_witness :
    gatt_svr_client_disconnected gatt_server_all_subscribed 1 =
      some { gatt_server_all_subscribed with
             conn_handle_battery_subs := [true, false, true],
             conn_handle_read_subs := [true, false, true] } ∧
    ∃ s', gatt_svr_client_disconnected gatt_server_all_subscribed 1 = some s' ∧
      (∀ handles buf buf_size, ∀ n ∈ (gatt_svr_set_read_value handles s' buf buf_size).2.2,
        n.conn_handle ≠ 1) ∧
      (∀ handles value, ∀ n ∈ (gatt_svr_set_battery_level handles s' value).2.2,
        n.conn_handle ≠ 1) := by
  refine ⟨by decide, ?_⟩
  obtain ⟨s', h1, _, _, _, _, h5, h6⟩ :=
    C17_disconnect_clears_subscriptions gatt_server_all_subscribed 1 (by decide) (by decide)
  exact ⟨s', h1, h5, h6⟩

theorem not_notified_of_not_subscribed (subs : List Bool) (h d : Nat)
    (hd : subs[d]? ≠ some true) :
    ∀ n ∈ notify_subscribers subs h, n.conn_handle ≠ d := by
  intro n hn heq
  rw [mem_notify_subscribers, heq] at hn
  exact hd hn.2.1

/-- C18: subscription scoping.  For a connection
`c < CONFIG_NIMBLE_MAX_CONNECTIONS`, `gatt_svr_handle_subscribe` with the
handle of the battery characteristic stores the flag in the battery table and
leaves the read table as it is; with the handle of the RX characteristic
(which the host assigns apart from that of the battery characteristic) it
stores the flag in the read table and leaves the battery table as it is.
`gatt_svr_set_read_value` notifies no connection that is not subscribed in
the read table, `gatt_svr_set_battery_level` none that is not subscribed in
the battery table. -/
theorem C18_subscription_scoping (Svc_char_handles : List Nat) (s : gatt_server)
    (c attr_handle : Nat) (can_notify can_indicate : Bool) (hs : s.wf)
    (hc : c < CONFIG_NIMBLE_MAX_CONNECTIONS) :
    (attr_handle = Svc_char_handles.getD HANDLE_BATTERY_LEVEL 0 →
      gatt_svr_handle_subscribe Svc_char_handles s c attr_handle can_notify can_indicate =
        some { s with conn_handle_battery_subs := s.conn_handle_battery_subs.set c can_notify }) ∧
    (attr_handle = Svc_char_handles.getD HANDLE_MAIN_RX 0 →
      attr_handle ≠ Svc_char_handles.getD HANDLE_BATTERY_LEVEL 0 →
      gatt_svr_handle_subscribe Svc_char_handles s c attr_handle can_notify can_indicate =
        some { s with conn_handle_read_subs := s.conn_handle_read_subs.set c can_notify }) ∧
    (∀ buf buf_size d, s.conn_handle_read_subs[d]? ≠ some true →
      ∀ n ∈ (gatt_svr_set_read_value Svc_char_handles s buf buf_size).2.2, n.conn_handle ≠ d) ∧
    (∀ value d, s.conn_handle_battery_subs[d]? ≠ some true →
      ∀ n ∈ (gatt_svr_set_battery_level Svc_char_handles s value).2.2, n.conn_handle ≠ d) := by
  obtain ⟨_, hb, hr⟩ := hs
  have hcb : c < s.conn_handle_battery_subs.length := by omega
  have hcr : c < s.conn_handle_read_subs.length := by omega
  refine ⟨?_, ?_, ?_, ?_⟩
  · intro ha
    unfold gatt_svr_handle_subscribe COUNT_OF
    rw [if_neg (by omega), if_pos ha, array_store_eq _ _ _ hcb]
  · intro ha hne
    unfold gatt_svr_handle_subscribe COUNT_OF
    rw [if_neg (by omega), if_neg hne, if_pos ha, array_store_eq _ _ _ hcr]
  · intro buf buf_size d hd
    unfold gatt_svr_set_read_value
    split
    · intro n hn
      cases hn
    · exact not_notified_of_not_subscribed _ _ _ hd
  · intro value d hd
    unfold gatt_svr_set_battery_level
    split
    · intro n hn
      cases hn
    · exact not_notified_of_not_subscribed _ _ _ hd

/-- Witness of C18: connection 0 subscribes to the battery channel only; the
read table stays empty, and a publish on the read channel that follows
notifies nobody, while a new battery level is notified to connection 0. -/
theorem C18_witness :
    gatt_svr_handle_subscribe main_Svc_char_handles gatt_server_instance 0 12 true false =
      some { gatt_server_instance with conn_handle_battery_subs := [true, false, false] } ∧
    (gatt_svr_set_read_value main_Svc_char_handles
      { gatt_server_instance with conn_handle_battery_subs := [true, false, false] }
      [130, 0, 7] 3).2.2 = [] ∧
    (gatt_svr_set_battery_level main_Svc_char_handles
      { gatt_server_instance with conn_handle_battery_subs := [true, false, false] }
      50).2.2 = [{ conn_handle := 0, chr_val_handle := 12 }] :=
  ⟨(C18_subscription_scoping main_Svc_char_handles gatt_server_instance 0 12 true false
      (by decide) (by decide)).1 (by decide),
   by decide, by decide⟩

/-- C19: fan-out.  For a blob that `gatt_svr_set_read_value` accepts, the
notifications it sends go, in this order, to the connections
`c < CONFIG_NIMBLE_MAX_CONNECTIONS` with `conn_handle_read_subs[c]` set, in
increasing order of `c` and once for each, all of them on the RX
characteristic; with no subscriber nothing is sent. -/
theorem C19_fan_out (Svc_char_handles : List Nat) (s : gatt_server) (buf : List Nat)
    (buf_size : Nat) (hs : s.wf) (hn : buf_size ≤ 256) :
    ((gatt_svr_set_read_value Svc_char_handles s buf buf_size).2.2.map
        fun n => n.conn_handle) =
      ((List.range CONFIG_NIMBLE_MAX_CONNECTIONS).filter
        fun c : Nat => s.conn_handle_read_subs[c]? = some true) ∧
    ((gatt_svr_set_read_value Svc_char_handles s buf buf_size).2.2.map
        fun n => n.conn_handle).Pairwise (fun a b => a < b) ∧
    (∀ c, c ∈ ((gatt_svr_set_read_value Svc_char_handles s buf buf_size).2.2.map
        fun n => n.conn_handle) ↔
      c < CONFIG_NIMBLE_MAX_CONNECTIONS ∧ s.conn_handle_read_subs[c]? = some true) ∧
    (∀ n ∈ (gatt_svr_set_read_value Svc_char_handles s buf buf_size).2.2,
      n.chr_val_handle = Svc_char_handles.getD HANDLE_MAIN_RX 0) ∧
    ((∀ c : Nat, s.conn_handle_read_subs[c]? ≠ some true) →
      (gatt_svr_set_read_value Svc_char_handles s buf buf_size).2.2 = []) := by
  obtain ⟨hbuf, _, hr⟩ := hs
  rw [gatt_svr_set_read_value_accepts _ _ _ _ hbuf hn]
  dsimp only
  have hmap := notify_subscribers_conn_handles s.conn_handle_read_subs
    (Svc_char_handles.getD HANDLE_MAIN_RX 0)
  rw [hr] at hmap
  have hfilter : ((List.range CONFIG_NIMBLE_MAX_CONNECTIONS).filter
        fun c : Nat => s.conn_handle_read_subs.getD c false) =
      ((List.range CONFIG_NIMBLE_MAX_CONNECTIONS).filter
        fun c : Nat => s.conn_handle_read_subs[c]? = some true) := by
    apply List.filter_congr
    intro c _
    rw [List.getD_eq_getElem?_getD]
    cases hcase : s.conn_handle_read_subs[c]? with
    | none => simp
    | some b => cases b <;> simp
  rw [hfilter] at hmap
  refine ⟨hmap, ?_, ?_, ?_, ?_⟩
  · rw [hmap]
    exact (List.pairwise_lt_range _).filter _
  · intro c
    rw [hmap, List.mem_filter, List.mem_range]
    simp
  · intro n hmem
    rw [mem_notify_subscribers] at hmem
    exact hmem.2.2
  · intro hnone
    apply List.eq_nil_iff_forall_not_mem.mpr
    intro n hmem
    rw [mem_notify_subscribers] at hmem
    exact hnone _ hmem.2.1

/-- Witness of C19: connection 0 is subscribed to the read channel and
connection 1 is not; only connection 0 is notified. -/
theorem C19_witness :
    (gatt_svr_set_read_value main_Svc_char_handles gatt_server_one_reader [130, 0, 7] 3).2.2 =
      [{ conn_handle := 0, chr_val_handle := 35 }] ∧
    ((gatt_svr_set_read_value main_Svc_char_handles gatt_server_one_reader
        [130, 0, 7] 3).2.2.map fun n => n.conn_handle) =
      ((List.range CONFIG_NIMBLE_MAX_CONNECTIONS).filter
        fun c : Nat => gatt_server_one_reader.conn_handle_read_subs[c]? = some true) :=
  ⟨by decide,
   (C19_fan_out main_Svc_char_handles gatt_server_one_reader [130, 0, 7] 3
      (by decide) (by decide)).1⟩

/-- C20: with `buf_size` above the 256 bytes of `read_buf`,
`gatt_svr_set_read_value` returns `false`, leaves the server - `read_buf` and
`read_buf_size` included - as it was and sends no notification; with
`buf_size` up to and including 256 it returns `true`. -/
theorem C20_read_value_size_limit (Svc_char_handles : List Nat) (s : gatt_server)
    (buf : List Nat) (buf_size : Nat) (hs : s.wf) :
    (buf_size > 256 →
      gatt_svr_set_read_value Svc_char_handles s buf buf_size = (false, s, [])) ∧
    (buf_size ≤ 256 → (gatt_svr_set_read_value Svc_char_handles s buf buf_size).1 = true) := by
  obtain ⟨hbuf, _, _⟩ := hs
  refine ⟨?_, ?_⟩
  · intro h
    unfold gatt_svr_set_read_value sizeof_array
    rw [if_pos (by omega)]
  · intro h
    rw [gatt_svr_set_read_value_accepts _ _ _ _ hbuf h]

/-- Witness of C20: 257 bytes are refused, 256 bytes are accepted. -/
theorem C20_witness :
    gatt_svr_set_read_value main_Svc_char_handles gatt_server_subscribed
        (List.replicate 300 1) 257 = (false, gatt_server_subscribed, []) ∧
    (gatt_svr_set_read_value main_Svc_char_handles gatt_server_subscribed
        (List.replicate 300 1) 256).1 = true :=
  ⟨(C20_read_value_size_limit main_Svc_char_handles gatt_server_subscribed
      (List.replicate 300 1) 257 (by decide)).1 (by decide),
   (C20_read_value_size_limit main_Svc_char_handles gatt_server_subscribed
      (List.replicate 300 1) 256 (by decide)).2 (by decide)⟩

/-! ## The claims about the reference scenario and about sequences of calls -/

/-- C21: the reference scenario.  `gble_init` with the name "Generic Device"
and the actuators and sensors of `main.c` returns `true`; the descriptor
decodes to version 1 and that name with two actuator entries and two sensor
entries, which carry type 1, range [0, 20], message type 1 twice, and
type 4, range [0, 16], message type 2 followed by type 3, range [0, 2],
message type 2. -/
theorem C21_reference_scenario :
    (gble_init gble_server_instance main_name main_actuators main_sensors).1 = true ∧
    decode_descriptor_header (gble_descriptor_bytes
        (gble_init gble_server_instance main_name main_actuators main_sensors).2) =
      some (1, main_name, 2, 2) ∧
    decode_descriptor (gble_descriptor_bytes
        (gble_init gble_server_instance main_name main_actuators main_sensors).2) =
      some ([{ feature_type := 1, low := 0, high := 20, message_type := 1 },
             { feature_type := 1, low := 0, high := 20, message_type := 1 }],
            [{ feature_type := 4, low := 0, high := 16, message_type := 2 },
             { feature_type := 3, low := 0, high := 2, message_type := 2 }]) := by
  refine ⟨by decide, by decide, by decide⟩

/-- What `gble_handle_actuators_changed` can do to the server: nothing, or a
new `last_value` for one actuator. -/
theorem gble_handle_actuators_changed_frame (server : gble_server) (buf : List Nat) :
    (gble_handle_actuators_changed server buf).1 = server ∨
    ∃ a actuator v, server.actuators[a]? = some actuator ∧
      (gble_handle_actuators_changed server buf).1 =
        { server with
          actuators := server.actuators.set a { actuator with last_value := v } } := by
  rw [gble_handle_actuators_changed_eq]
  cases hd : decode_actuator_change buf with
  | none => exact Or.inl rfl
  | some p =>
    obtain ⟨a, v⟩ := p
    dsimp only
    unfold apply_actuator_change
    split
    · exact Or.inl rfl
    · cases hact : server.actuators[to_uint32 a]? with
      | none => exact Or.inl rfl
      | some actuator => exact Or.inr ⟨to_uint32 a, actuator, to_uint32 v, hact, rfl⟩

/-- What `gble_set_sensor_value` can do to the server: nothing, or a new
`last_value` for one sensor. -/
theorem gble_set_sensor_value_frame (server : gble_server) (id : Nat) (value : Int) :
    (gble_set_sensor_value server id value).2.1 = server ∨
    ∃ sensor, server.sensors[id]? = some sensor ∧
      (gble_set_sensor_value server id value).2.1 =
        { server with sensors := server.sensors.set id { sensor with last_value := value } } := by
  by_cases hid : id < server.sensors_count
  · cases hs : server.sensors[id]? with
    | none =>
      left
      unfold gble_set_sensor_value
      rw [if_neg (by omega), hs]
    | some sensor =>
      right
      exact ⟨sensor, rfl, by rw [gble_set_sensor_value_eq server id value sensor hid hs]⟩
  · left
    unfold gble_set_sensor_value
    rw [if_pos (by omega)]

theorem gble_call_run_descriptor (server : gble_server) (call : gble_call) :
    gble_get_descriptor (call.run server) = gble_get_descriptor server := by
  cases call with
  | handle_actuators_changed buf =>
    show gble_get_descriptor (gble_handle_actuators_changed server buf).1 = _
    rcases gble_handle_actuators_changed_frame server buf with h | ⟨a, actuator, v, _, h⟩
    · rw [h]
    · rw [h]
      rfl
  | set_sensor_value id value =>
    show gble_get_descriptor (gble_set_sensor_value server id value).2.1 = _
    rcases gble_set_sensor_value_frame server id value with h | ⟨sensor, _, h⟩
    · rw [h]
    · rw [h]
      rfl
  | set_sensor_callback_fn cb cb_context => rfl
  | get_descriptor => rfl

/-- C22: the descriptor is read-only after initialisation.  Whatever calls
of `gble_handle_actuators_changed`, `gble_set_sensor_value`,
`gble_set_sensor_callback_fn` and `gble_get_descriptor` follow, in whatever
order, `gble_get_descriptor` returns the buffer contents and the size that it
returned before them, and the bytes of the descriptor are the same;
`gble_get_descriptor` itself leaves the server as it is. -/
theorem C22_descriptor_is_read_only (server : gble_server) (calls : List gble_call) :
    gble_get_descriptor (gble_run server calls) = gble_get_descriptor server ∧
    gble_descriptor_bytes (gble_run server calls) = gble_descriptor_bytes server ∧
    gble_call.get_descriptor.run server = server := by
  have h : ∀ (calls : List gble_call) (server : gble_server),
      gble_get_descriptor (gble_run server calls) = gble_get_descriptor server := by
    intro calls
    induction calls with
    | nil => intro server; rfl
    | cons call rest ih =>
      intro server
      unfold gble_run
      rw [List.foldl_cons]
      exact (ih (call.run server)).trans (gble_call_run_descriptor server call)
  refine ⟨h calls server, ?_, rfl⟩
  unfold gble_descriptor_bytes
  rw [h calls server]

/-- A message `[a, v]` with a valid id and a value in the range of
`uint32_t`: the new server and the callback invocation. -/
theorem gble_handle_actuators_changed_valid (server : gble_server) (buf : List Nat)
    (a v : Nat) (actuator : gble_actuator_feature)
    (hmsg : decode_actuator_change buf = some ((a : Int), (v : Int)))
    (ha : a < server.actuator_count) (ha32 : a < 2 ^ 32)
    (hact : server.actuators[a]? = some actuator) (hv32 : v < 2 ^ 32) :
    gble_handle_actuators_changed server buf =
      ({ server with
          actuators := server.actuators.set a { actuator with last_value := v } },
       match actuator.cb with
       | some cb =>
         if v ≠ actuator.last_value then
           [{ cb := cb, actuator_id := a, value := v, context := actuator.cb_context }]
         else []
       | none => []) := by
  rw [gble_handle_actuators_changed_eq, hmsg]
  dsimp only
  rw [to_uint32_natCast a ha32, to_uint32_natCast v hv32]
  unfold apply_actuator_change
  rw [if_neg (by omega)]
  simp only [hact]

theorem gble_handle_writes_cons (server : gble_server) (buf : List Nat)
    (rest : List (List Nat)) :
    gble_handle_writes server (buf :: rest) =
      ((gble_handle_writes (gble_handle_actuators_changed server buf).1 rest).1,
       (gble_handle_actuators_changed server buf).2 ++
         (gble_handle_writes (gble_handle_actuators_changed server buf).1 rest).2) := rfl

theorem changed_values_cons (prev v : Nat) (rest : List Nat) :
    changed_values prev (v :: rest) =
      if v ≠ prev then v :: changed_values v rest else changed_values v rest := rfl

theorem to_uint32_emod (n : Int) : to_uint32 (n % 2 ^ 32) = to_uint32 n := by
  unfold to_uint32
  have h : n % 2 ^ 32 % 2 ^ 32 = n % 2 ^ 32 := by omega
  exact congrArg Int.toNat h

/-- C24 as stated fails for a value outside the range of `uint32_t`: on the
device of `main.c` the well-formed messages `[1, 5]` and `[1, 4294967301]`,
whose values differ from each other and the first from the initial
`last_value = 0`, lead to one invocation of the callback, not two, and to
the final `last_value` 5, not 4294967301. -/
theorem C24_counterexample :
    decode_actuator_message [130, 1, 5] = some (1, 5) ∧
    decode_actuator_message [130, 1, 27, 0, 0, 0, 1, 0, 0, 0, 5] = some (1, 4294967301) ∧
    (main_server.actuators.map fun x => x.last_value) = [0, 0] ∧
    changed_values 0 [5, 4294967301] = [5, 4294967301] ∧
    (gble_handle_writes main_server
        [[130, 1, 5], [130, 1, 27, 0, 0, 0, 1, 0, 0, 0, 5]]).2 =
      [{ cb := handle_actuator_change, actuator_id := 1, value := 5, context := 0 }] ∧
    ((gble_handle_writes main_server
        [[130, 1, 5], [130, 1, 27, 0, 0, 0, 1, 0, 0, 0, 5]]).1.actuators.map
      fun x => x.last_value) = [0, 5] := by
  decide

/-- C24: delivery order with single-step suppression.  For an actuator `a`
with a callback and the messages `[a, v1]`, ..., `[a, vn]` handled in this
order, the callback invocations are, in the same order, those `vi` that
differ from their predecessor (`v1` from the `last_value` before the first
message), each with the arguments `(a, vi, cb_context)`; afterwards
`last_value` is `vn`. -/
theorem C24_delivery_order (server : gble_server) (a cb : Nat)
    (actuator : gble_actuator_feature) (msgs : List (List Nat × Nat))
    (ha : a < server.actuator_count) (ha32 : a < 2 ^ 32)
    (hact : server.actuators[a]? = some actuator) (hcb : actuator.cb = some cb)
    (hmsgs : ∀ m ∈ msgs,
      decode_actuator_change m.1 = some ((a : Int), (m.2 : Int)) ∧ m.2 < 2 ^ 32) :
    (gble_handle_writes server (msgs.map fun m => m.1)).2 =
      (changed_values actuator.last_value (msgs.map fun m => m.2)).map
        (fun v => { cb := cb, actuator_id := a, value := v,
                    context := actuator.cb_context }) ∧
    ((gble_handle_writes server (msgs.map fun m => m.1)).1.actuators[a]?.map
        fun x => x.last_value) =
      some ((msgs.map fun m => m.2).getLastD actuator.last_value) := by
  induction msgs generalizing server actuator with
  | nil =>
    refine ⟨rfl, ?_⟩
    show (server.actuators[a]?.map fun x => x.last_value) = _
    rw [hact]
    rfl
  | cons m rest ih =>
    obtain ⟨hm, hm32⟩ := hmsgs m (List.mem_cons_self _ _)
    have hlt : a < server.actuators.length := by
      by_contra hc
      rw [List.getElem?_eq_none (by omega)] at hact
      cases hact
    have hstep := gble_handle_actuators_changed_valid server m.1 a m.2 actuator hm ha ha32
      hact hm32
    rw [hcb] at hstep
    dsimp only at hstep
    have ih' := ih
      { server with
        actuators := server.actuators.set a { actuator with last_value := m.2 } }
      { actuator with last_value := m.2 } ha
      (by dsimp only; rw [List.getElem?_set_self hlt]) hcb
      (fun m' hm' => hmsgs m' (List.mem_cons_of_mem _ hm'))
    dsimp only at ih'
    rw [hcb] at ih'
    rw [List.map_cons, List.map_cons, gble_handle_writes_cons, hstep]
    dsimp only
    rw [ih'.1, ih'.2]
    refine ⟨?_, ?_⟩
    · rw [changed_values_cons]
      by_cases hv : m.2 = actuator.last_value
      · rw [if_neg (by simpa using hv), if_neg (by simpa using hv)]
        rfl
      · rw [if_pos hv, if_pos hv]
        rfl
    · rw [List.getLastD_cons]

/-- Witness of C24: actuator 1 of the device of `main.c`, whose `last_value`
is 0, receives the values 5, 5, 0, 7, 7: the handler is invoked with 5, 0
and 7, and `last_value` is 7 afterwards. -/
theorem C24_witness :
    (gble_handle_writes main_server
        [[130, 1, 5], [130, 1, 5], [130, 1, 0], [130, 1, 7], [130, 1, 7]]).2 =
      [{ cb := handle_actuator_change, actuator_id := 1, value := 5, context := 0 },
       { cb := handle_actuator_change, actuator_id := 1, value := 0, context := 0 },
       { cb := handle_actuator_change, actuator_id := 1, value := 7, context := 0 }] ∧
    ((gble_handle_writes main_server
        [[130, 1, 5], [130, 1, 5], [130, 1, 0], [130, 1, 7], [130, 1, 7]]).1.actuators[1]?.map
        fun x => x.last_value) = some 7 :=
  C24_delivery_order main_server 1 handle_actuator_change
    { description := [65, 99, 116, 117, 97, 116, 111, 114, 32, 50], feature_type := 1,
      step_range_low := 0, step_range_high := 20, message_type := 1,
      cb := some handle_actuator_change, cb_context := 0, id := 1, last_value := 0 }
    [([130, 1, 5], 5), ([130, 1, 5], 5), ([130, 1, 0], 0), ([130, 1, 7], 7), ([130, 1, 7], 7)]
    (by decide) (by decide) (by decide) (by decide) (by decide)

/-- C25: integer narrowing in the actuator decoder.  A message `[n, v]` is
handled exactly as the message `[n mod 2^32, v mod 2^32]` is, the remainder
taken in the non-negative range (two's complement for negative integers). -/
theorem C25_integer_narrowing (server : gble_server) (buf buf' : List Nat) (n v : Int)
    (hmsg : decode_actuator_change buf = some (n, v))
    (hmsg' : decode_actuator_change buf' = some (n % 2 ^ 32, v % 2 ^ 32)) :
    gble_handle_actuators_changed server buf = gble_handle_actuators_changed server buf' := by
  rw [gble_handle_actuators_changed_eq, gble_handle_actuators_changed_eq, hmsg, hmsg']
  dsimp only
  rw [to_uint32_emod, to_uint32_emod]

/-- Witness of C25: on the device of `main.c` the id `1 + 2^32` is
dispatched to actuator 1 like the id 1, and the value -1 reaches the callback
as 4294967295. -/
theorem C25_witness :
    gble_handle_actuators_changed main_server [130, 27, 0, 0, 0, 1, 0, 0, 0, 1, 5] =
      gble_handle_actuators_changed main_server [130, 1, 5] ∧
    (gble_handle_actuators_changed main_server [130, 1, 5]).2 =
      [{ cb := handle_actuator_change, actuator_id := 1, value := 5, context := 0 }] ∧
    gble_handle_actuators_changed main_server [130, 1, 32] =
      gble_handle_actuators_changed main_server [130, 1, 26, 255, 255, 255, 255] ∧
    decode_actuator_change [130, 1, 32] = some (1, -1) ∧
    (gble_handle_actuators_changed main_server [130, 1, 32]).2 =
      [{ cb := handle_actuator_change, actuator_id := 1, value := 4294967295, context := 0 }] :=
  ⟨C25_integer_narrowing main_server [130, 27, 0, 0, 0, 1, 0, 0, 0, 1, 5] [130, 1, 5]
      4294967297 5 (by decide) (by decide),
   by decide,
   C25_integer_narrowing main_server [130, 1, 32] [130, 1, 26, 255, 255, 255, 255]
      1 (-1) (by decide) (by decide),
   by decide,
   by decide⟩

/-- C26: the value of an actuator message is not checked against the step
range.  For a valid id `a`, an actuator with a callback and a value `v` in
the range of `uint32_t` that differs from `last_value` - whatever
`step_range_low` and `step_range_high` are - the callback is invoked with
`(a, v, cb_context)` and `v` is stored in `last_value`. -/
theorem C26_value_outside_step_range (server : gble_server) (buf : List Nat) (a v cb : Nat)
    (actuator : gble_actuator_feature)
    (hmsg : decode_actuator_change buf = some ((a : Int), (v : Int)))
    (ha : a < server.actuator_count) (ha32 : a < 2 ^ 32)
    (hact : server.actuators[a]? = some actuator) (hcb : actuator.cb = some cb)
    (hv32 : v < 2 ^ 32) (hv : v ≠ actuator.last_value) :
    gble_handle_actuators_changed server buf =
      ({ server with
          actuators := server.actuators.set a { actuator with last_value := v } },
       [{ cb := cb, actuator_id := a, value := v, context := actuator.cb_context }]) := by
  rw [gble_handle_actuators_changed_valid server buf a v actuator hmsg ha ha32 hact hv32, hcb]
  dsimp only
  rw [if_pos hv]

/-- Witness of C26: actuator 0 of the device of `main.c` has the step range
[0, 20]; the value 21 is passed to its handler and stored. -/
theorem C26_witness :
    (main_server.actuators.map fun x => (x.step_range_low, x.step_range_high)) =
      [(0, 20), (0, 20)] ∧
    (gble_handle_actuators_changed main_server [130, 0, 21]).2 =
      [{ cb := handle_actuator_change, actuator_id := 0, value := 21, context := 0 }] ∧
    ((gble_handle_actuators_changed main_server [130, 0, 21]).1.actuators.map
      fun x => x.last_value) = [21, 0] := by
  have h := C26_value_outside_step_range main_server [130, 0, 21] 0 21 handle_actuator_change
    { description := [65, 99, 116, 117, 97, 116, 111, 114, 32, 49], feature_type := 1,
      step_range_low := 0, step_range_high := 20, message_type := 1,
      cb := some handle_actuator_change, cb_context := 0, id := 0, last_value := 0 }
    (by decide) (by decide) (by decide) (by decide) (by decide) (by decide) (by decide)
  refine ⟨by decide, ?_, ?_⟩
  · rw [h]
  · rw [h]
    decide

/-- C27: frame of dispatch.  For every input buffer,
`gble_handle_actuators_changed` leaves every field of the server other than
the actuator array as it was and keeps the number of actuators.  When the
buffer does not decode, the server is unchanged.  When it decodes to
`[n, v]`, the actuator addressed is the one at the decoded id, `n` as
`uint32_t`: every actuator at another index is unchanged, and the one at the
decoded id, when that is below `actuator_count`, is what it was with
`last_value` replaced by `v` as `uint32_t` - its id, callback and all other
fields are the same. -/
theorem C27_frame_of_dispatch (server : gble_server) (buf : List Nat) :
    { (gble_handle_actuators_changed server buf).1 with actuators := server.actuators } =
      server ∧
    (gble_handle_actuators_changed server buf).1.actuators.length = server.actuators.length ∧
    (decode_actuator_change buf = none →
      (gble_handle_actuators_changed server buf).1 = server) ∧
    (∀ n v : Int, decode_actuator_change buf = some (n, v) →
      ∀ (j : Nat) (x : gble_actuator_feature), server.actuators[j]? = some x →
        (gble_handle_actuators_changed server buf).1.actuators[j]? =
          some (if j = to_uint32 n ∧ j < server.actuator_count then
                  { x with last_value := to_uint32 v }
                else x)) := by
  rw [gble_handle_actuators_changed_eq]
  cases hd : decode_actuator_change buf with
  | none =>
    refine ⟨rfl, rfl, fun _ => rfl, ?_⟩
    intro n v h
    cases h
  | some p =>
    obtain ⟨n, v⟩ := p
    dsimp only
    unfold apply_actuator_change
    by_cases hge : to_uint32 n ≥ server.actuator_count
    · rw [if_pos hge]
      refine ⟨rfl, rfl, ?_, ?_⟩
      · intro h
        cases h
      intro n' v' h j x hx
      cases h
      rw [if_neg (by omega), hx]
    · rw [if_neg hge]
      cases hact : server.actuators[to_uint32 n]? with
      | none =>
        refine ⟨rfl, rfl, ?_, ?_⟩
        · intro h
          cases h
        intro n' v' h j x hx
        cases h
        by_cases hj : j = to_uint32 n
        · rw [hj, hact] at hx
          cases hx
        · rw [if_neg (fun hc => hj hc.1), hx]
      | some actuator =>
        have hlt : to_uint32 n < server.actuators.length := by
          by_contra hc
          rw [List.getElem?_eq_none (by omega)] at hact
          cases hact
        refine ⟨rfl, ?_, ?_, ?_⟩
        · show (server.actuators.set _ _).length = _
          rw [List.length_set]
        · intro h
          cases h
        · intro n' v' h j x hx
          cases h
          show (server.actuators.set _ _)[j]? = _
          by_cases hj : j = to_uint32 n
          · subst hj
            rw [hact] at hx
            cases hx
            rw [List.getElem?_set_self hlt, if_pos ⟨rfl, by omega⟩]
          · rw [List.getElem?_set_ne (Ne.symm hj), if_neg (fun hc => hj hc.1), hx]

/-- Witness of C27: the message `[1, 5]` on the device of `main.c` changes
`last_value` of actuator 1 and leaves actuator 0 as it is. -/
theorem C27_witness :
    (gble_handle_actuators_changed main_server [130, 1, 5]).1.actuators[0]? =
      main_server.actuators[0]? ∧
    (gble_handle_actuators_changed main_server [130, 1, 5]).1.actuators[1]? =
      some { description := [65, 99, 116, 117, 97, 116, 111, 114, 32, 50], feature_type := 1,
             step_range_low := 0, step_range_high := 20, message_type := 1,
             cb := some handle_actuator_change, cb_context := 0, id := 1, last_value := 5 } ∧
    (gble_handle_actuators_changed main_server [1]).1 = main_server :=
  ⟨(C27_frame_of_dispatch main_server [130, 1, 5]).2.2.2 1 5 (by decide) 0
      { description := [65, 99, 116, 117, 97, 116, 111, 114, 32, 49], feature_type := 1,
        step_range_low := 0, step_range_high := 20, message_type := 1,
        cb := some handle_actuator_change, cb_context := 0, id := 0, last_value := 0 }
      (by decide),
   (C27_frame_of_dispatch main_server [130, 1, 5]).2.2.2 1 5 (by decide) 1
      { description := [65, 99, 116, 117, 97, 116, 111, 114, 32, 50], feature_type := 1,
        step_range_low := 0, step_range_high := 20, message_type := 1,
        cb := some handle_actuator_change, cb_context := 0, id := 1, last_value := 0 }
      (by decide),
   (C27_frame_of_dispatch main_server [1]).2.2.1 (by decide)⟩

/-! ## The claims about the battery channel, disconnects and the cached read value -/

/-- C28: the battery channel de-duplicates.  `gatt_svr_set_battery_level(v)`
with `v` equal to the stored `battery_level` returns `false`, leaves the
server as it is and sends no notification; with another `v` it stores `v`,
returns `true` and notifies, on the battery characteristic, the connections
`c < CONFIG_NIMBLE_MAX_CONNECTIONS` with `conn_handle_battery_subs[c]` set, in
increasing order and once each. -/
theorem C28_battery_level_deduplicates (Svc_char_handles : List Nat) (s : gatt_server)
    (value : Nat) (hs : s.wf) :
    (value = s.battery_level →
      gatt_svr_set_battery_level Svc_char_handles s value = (false, s, [])) ∧
    (value ≠ s.battery_level →
      (gatt_svr_set_battery_level Svc_char_handles s value).1 = true ∧
      (gatt_svr_set_battery_level Svc_char_handles s value).2.1 =
        { s with battery_level := value } ∧
      ((gatt_svr_set_battery_level Svc_char_handles s value).2.2.map
          fun n => n.conn_handle) =
        ((List.range CONFIG_NIMBLE_MAX_CONNECTIONS).filter
          fun c : Nat => s.conn_handle_battery_subs[c]? = some true) ∧
      ∀ n ∈ (gatt_svr_set_battery_level Svc_char_handles s value).2.2,
        n.chr_val_handle = Svc_char_handles.getD HANDLE_BATTERY_LEVEL 0) := by
  obtain ⟨_, hb, _⟩ := hs
  refine ⟨?_, ?_⟩
  · intro h
    unfold gatt_svr_set_battery_level
    rw [if_pos h.symm]
  · intro h
    unfold gatt_svr_set_battery_level
    rw [if_neg (Ne.symm h)]
    dsimp only
    refine ⟨rfl, rfl, ?_, ?_⟩
    · rw [notify_subscribers_conn_handles, hb]
      apply List.filter_congr
      intro c _
      rw [List.getD_eq_getElem?_getD]
      cases hcase : s.conn_handle_battery_subs[c]? with
      | none => simp
      | some b => cases b <;> simp
    · intro n hmem
      rw [mem_notify_subscribers] at hmem
      exact hmem.2.2

/-- Witness of C28: the battery level 50 is notified to connection 1, the
only battery subscriber; setting 50 again does nothing. -/
theorem C28_witness :
    gatt_svr_set_battery_level main_Svc_char_handles gatt_server_subscribed 50 =
      (true, { gatt_server_subscribed with battery_level := 50 },
        [{ conn_handle := 1, chr_val_handle := 12 }]) ∧
    gatt_svr_set_battery_level main_Svc_char_handles
        { gatt_server_subscribed with battery_level := 50 } 50 =
      (false, { gatt_server_subscribed with battery_level := 50 }, []) :=
  ⟨by decide,
   (C28_battery_level_deduplicates main_Svc_char_handles
      { gatt_server_subscribed with battery_level := 50 } 50 (by decide)).1 (by decide)⟩

/-- C29 (the code departs from it): the guard of
`gatt_svr_client_disconnected` is `conn_handle > COUNT_OF(...)`, so the
connection handle 3, equal to `CONFIG_NIMBLE_MAX_CONNECTIONS`, is not
rejected: the function goes on to store at index 3 of the tables of three
elements.  Handles from 4 on are rejected with the tables unchanged. -/
theorem C29_disconnect_stores_outside_the_table :
    gatt_server_all_subscribed.wf ∧
    gatt_svr_client_disconnected gatt_server_all_subscribed 3 = none ∧
    array_store gatt_server_all_subscribed.conn_handle_battery_subs 3 false = none ∧
    gatt_svr_client_disconnected gatt_server_all_subscribed 4 =
      some gatt_server_all_subscribed ∧
    gatt_svr_client_disconnected gatt_server_all_subscribed 65535 =
      some gatt_server_all_subscribed := by
  decide

/-- A read of the RX characteristic answers with the first `read_buf_size`
bytes of `read_buf`, when the host can append them. -/
theorem gatt_svr_chr_access_rx (os_mbuf_append : List Nat → List Nat → Nat → Nat × List Nat)
    (descriptor_cb : Nat → Nat → List Nat × Nat) (s : gatt_server) (om : List Nat)
    (happend : os_mbuf_append om s.read_buf s.read_buf_size =
      (0, om ++ s.read_buf.take s.read_buf_size)) :
    gatt_svr_chr_access os_mbuf_append descriptor_cb s
        { op := BLE_GATT_ACCESS_OP_READ_CHR, uuid16 := GATT_UUID_GBLE_RX_CHR, om := om } =
      (0, om ++ s.read_buf.take s.read_buf_size, []) := by
  unfold gatt_svr_chr_access
  dsimp only
  rw [if_pos (Or.inr rfl), if_neg (by simp),
    if_neg (by decide : ¬ GATT_UUID_GBLE_RX_CHR = GATT_UUID_GBLE_FIRMWARE_CHR)]
  dsimp only
  rw [if_pos rfl]
  dsimp only
  by_cases hz : s.read_buf_size > 0
  · rw [if_pos hz, happend]
    rfl
  · rw [if_neg hz]
    have h0 : s.read_buf_size = 0 := by omega
    rw [h0]
    simp

/-- C30: for a buffer of at least `n <= 256` bytes, after
`gatt_svr_set_read_value(buf, n)`, which returns `true`, `read_buf_size` is
`n` and the first `n` bytes of `read_buf` are those of `buf`; a read of the
RX characteristic that follows, the host appending the response to the mbuf
chain, answers with exactly these `n` bytes.  With the sensor callback wired
as in `main.c`, after `gble_set_sensor_value(server, id, value)` with a valid
id the answer is the encoding of `[id, value]`. -/
theorem C30_cached_read_value (Svc_char_handles : List Nat) (s : gatt_server)
    (buf : List Nat) (n : Nat) (hs : s.wf) (hn : n ≤ 256) (hlen : n ≤ buf.length) :
    (gatt_svr_set_read_value Svc_char_handles s buf n).1 = true ∧
    (gatt_svr_set_read_value Svc_char_handles s buf n).2.1.read_buf_size = n ∧
    (gatt_svr_set_read_value Svc_char_handles s buf n).2.1.read_buf.take n = buf.take n ∧
    (gatt_svr_set_read_value Svc_char_handles s buf n).2.1.read_buf.length = 256 ∧
    (∀ descriptor_cb om,
      gatt_svr_chr_access os_mbuf_append_ok descriptor_cb
          (gatt_svr_set_read_value Svc_char_handles s buf n).2.1
          { op := BLE_GATT_ACCESS_OP_READ_CHR, uuid16 := GATT_UUID_GBLE_RX_CHR, om := om } =
        (0, om ++ buf.take n, [])) ∧
    (∀ (server : gble_server) (id cb : Nat) (value : Int) descriptor_cb om,
      server.sensors_count = server.sensors.length → id < server.sensors_count →
      server.sensor_cb = some cb →
      gatt_svr_chr_access os_mbuf_append_ok descriptor_cb
          (run_sensor_calls Svc_char_handles s (gble_set_sensor_value server id value).2.2).1
          { op := BLE_GATT_ACCESS_OP_READ_CHR, uuid16 := GATT_UUID_GBLE_RX_CHR, om := om } =
        (0, om ++ (sensor_value_item id value).encode, [])) := by
  have hbuf := hs.1
  have htake : ∀ (b : List Nat) (k : Nat), k ≤ b.length →
      (b.take k ++ s.read_buf.drop k).take k = b.take k := by
    intro b k hk
    rw [List.take_append_of_le_length (by rw [List.length_take]; omega)]
    rw [List.take_take, Nat.min_self]
  refine ⟨?_, ?_, ?_, ?_, ?_, ?_⟩
  · rw [gatt_svr_set_read_value_accepts _ _ _ _ hbuf hn]
  · rw [gatt_svr_set_read_value_accepts _ _ _ _ hbuf hn]
  · rw [gatt_svr_set_read_value_accepts _ _ _ _ hbuf hn]
    exact htake buf n hlen
  · rw [gatt_svr_set_read_value_accepts _ _ _ _ hbuf hn]
    dsimp only
    rw [List.length_append, List.length_take, List.length_drop]
    omega
  · intro descriptor_cb om
    rw [gatt_svr_chr_access_rx _ _ _ _ rfl, gatt_svr_set_read_value_accepts _ _ _ _ hbuf hn]
    dsimp only
    rw [htake buf n hlen]
  · intro server id cb value descriptor_cb om hcount hid hcb
    have hlt : id < server.sensors.length := by omega
    rw [gatt_svr_chr_access_rx _ _ _ _ rfl,
      gble_set_sensor_value_eq server id value server.sensors[id] hid
        (List.getElem?_eq_getElem hlt), hcb]
    dsimp only
    have hle := sensor_value_item_encode_length_le id value
    unfold run_sensor_calls run_sensor_calls gatt_svr_set_read_value_ctx
    dsimp only
    rw [gatt_svr_set_read_value_accepts _ _ _ _ hbuf (by omega)]
    dsimp only
    rw [htake _ _ (Nat.le_refl _), List.take_length]

/-- Witness of C30: the three bytes `82 00 07` are cached and returned by a
read of the RX characteristic; with the wiring of `main.c`, after sensor 1 is
set to -3 the read returns `82 01 22`. -/
theorem C30_witness :
    (gatt_svr_set_read_value main_Svc_char_handles gatt_server_subscribed
        [130, 0, 7] 3).2.1.read_buf_size = 3 ∧
    (gatt_svr_set_read_value main_Svc_char_handles gatt_server_subscribed
        [130, 0, 7] 3).2.1.read_buf.take 3 = [130, 0, 7] ∧
    gatt_svr_chr_access os_mbuf_append_ok (fun _ _ => ([], 0))
        (gatt_svr_set_read_value main_Svc_char_handles gatt_server_subscribed [130, 0, 7] 3).2.1
        { op := BLE_GATT_ACCESS_OP_READ_CHR, uuid16 := GATT_UUID_GBLE_RX_CHR, om := [] } =
      (0, [130, 0, 7], []) ∧
    gatt_svr_chr_access os_mbuf_append_ok (fun _ _ => ([], 0))
        (run_sensor_calls main_Svc_char_handles gatt_server_subscribed
          (gble_set_sensor_value main_server_wired 1 (-3)).2.2).1
        { op := BLE_GATT_ACCESS_OP_READ_CHR, uuid16 := GATT_UUID_GBLE_RX_CHR, om := [] } =
      (0, [130, 1, 34], []) := by
  have h := C30_cached_read_value main_Svc_char_handles gatt_server_subscribed [130, 0, 7] 3
    (by decide) (by decide) (by decide)
  exact ⟨h.2.1, h.2.2.1, h.2.2.2.2.1 _ _,
    h.2.2.2.2.2 main_server_wired 1 gatt_svr_set_read_value_ctx_ptr (-3) _ []
      (by decide) (by decide) (by decide)⟩

/-! ## Properties of event sequences -/

theorem subscribed_after_cons (handles : List Nat) (channel : gatt_channel) (c : Nat)
    (initial : Bool) (e : gatt_event) (rest : List gatt_event) :
    subscribed_after handles channel c initial (e :: rest) =
      subscribed_after handles channel c
        (if e.concerns handles channel c then e.subscribes else initial) rest := by
  unfold subscribed_after
  rw [List.reverse_cons, List.find?_append, List.find?_singleton]
  cases rest.reverse.find? (gatt_event.concerns handles channel c) with
  | some e' => rfl
  | none =>
    by_cases hc : e.concerns handles channel c = true
    · rw [if_pos hc, if_pos hc]
      rfl
    · rw [if_neg hc, if_neg hc]
      rfl

theorem gatt_svr_set_read_value_tables (handles : List Nat) (s : gatt_server)
    (buf : List Nat) (buf_size : Nat) :
    (gatt_svr_set_read_value handles s buf buf_size).2.1.conn_handle_battery_subs =
      s.conn_handle_battery_subs ∧
    (gatt_svr_set_read_value handles s buf buf_size).2.1.conn_handle_read_subs =
      s.conn_handle_read_subs := by
  unfold gatt_svr_set_read_value
  split <;> exact ⟨rfl, rfl⟩

theorem gatt_svr_set_battery_level_tables (handles : List Nat) (s : gatt_server)
    (value : Nat) :
    (gatt_svr_set_battery_level handles s value).2.1.conn_handle_battery_subs =
      s.conn_handle_battery_subs ∧
    (gatt_svr_set_battery_level handles s value).2.1.conn_handle_read_subs =
      s.conn_handle_read_subs := by
  unfold gatt_svr_set_battery_level
  split <;> exact ⟨rfl, rfl⟩

theorem run_sensor_calls_tables (handles : List Nat) (calls : List sensor_call) :
    ∀ s : gatt_server,
      (run_sensor_calls handles s calls).1.conn_handle_battery_subs =
        s.conn_handle_battery_subs ∧
      (run_sensor_calls handles s calls).1.conn_handle_read_subs =
        s.conn_handle_read_subs := by
  induction calls with
  | nil => intro s; exact ⟨rfl, rfl⟩
  | cons call rest ih =>
    intro s
    have h1 := gatt_svr_set_read_value_tables handles s call.buf call.buf_size
    have h2 := ih (gatt_svr_set_read_value_ctx handles s call.buf call.buf_size call.context).1
    unfold gatt_svr_set_read_value_ctx at h2
    unfold run_sensor_calls gatt_svr_set_read_value_ctx
    dsimp only
    exact ⟨h2.1.trans h1.1, h2.2.trans h1.2⟩

theorem getD_set_bool (table : List Bool) (i c : Nat) (flag : Bool) (hi : i < table.length) :
    (table.set i flag).getD c false = if i = c then flag else table.getD c false := by
  rw [List.getD_eq_getElem?_getD, List.getD_eq_getElem?_getD, List.getElem?_set]
  by_cases h : i = c
  · subst h
    rw [if_pos rfl, if_pos rfl, if_pos hi]
    rfl
  · rw [if_neg h, if_neg h]

/-- One event: the tables keep their sizes, and an entry takes the flag of
the event when the event concerns it and stays as it is otherwise. -/
theorem gatt_event_run_entry (handles : List Nat) (s : gatt_server) (e : gatt_event)
    (hdistinct : handles.getD HANDLE_BATTERY_LEVEL 0 ≠ handles.getD HANDLE_MAIN_RX 0)
    (hb : s.conn_handle_battery_subs.length = CONFIG_NIMBLE_MAX_CONNECTIONS)
    (hr : s.conn_handle_read_subs.length = CONFIG_NIMBLE_MAX_CONNECTIONS)
    (he : e.conn_in_range) :
    ∃ s', e.run handles s = some s' ∧
      s'.conn_handle_battery_subs.length = CONFIG_NIMBLE_MAX_CONNECTIONS ∧
      s'.conn_handle_read_subs.length = CONFIG_NIMBLE_MAX_CONNECTIONS ∧
      ∀ (channel : gatt_channel) (c : Nat),
        (channel.table s').getD c false =
          if e.concerns handles channel c then e.subscribes
          else (channel.table s).getD c false := by
  cases e with
  | subscribe conn_handle attr_handle can_notify can_indicate =>
    have hc : conn_handle < CONFIG_NIMBLE_MAX_CONNECTIONS := he
    have hcb : conn_handle < s.conn_handle_battery_subs.length := by omega
    have hcr : conn_handle < s.conn_handle_read_subs.length := by omega
    by_cases ha : attr_handle = handles.getD HANDLE_BATTERY_LEVEL 0
    · refine ⟨{ s with conn_handle_battery_subs :=
          s.conn_handle_battery_subs.set conn_handle can_notify }, ?_, ?_, hr, ?_⟩
      · show gatt_svr_handle_subscribe handles s conn_handle attr_handle can_notify
          can_indicate = _
        unfold gatt_svr_handle_subscribe COUNT_OF
        rw [if_neg (by omega), if_pos ha, array_store_eq _ _ _ hcb]
      · show (s.conn_handle_battery_subs.set conn_handle can_notify).length = _
        rw [List.length_set]
        exact hb
      · intro channel c
        cases channel with
        | battery =>
          show (s.conn_handle_battery_subs.set conn_handle can_notify).getD c false = _
          rw [getD_set_bool _ _ _ _ hcb]
          simp [gatt_event.concerns, gatt_event.subscribes, gatt_channel.handle,
            gatt_channel.table, ha]
        | read =>
          show s.conn_handle_read_subs.getD c false = _
          have hne : ¬ attr_handle = handles.getD HANDLE_MAIN_RX 0 := by
            rw [ha]
            exact hdistinct
          have hcon : (gatt_event.subscribe conn_handle attr_handle can_notify
              can_indicate).concerns handles gatt_channel.read c = false :=
            decide_eq_false (fun h => hne h.2)
          rw [hcon]
          rfl
    · by_cases hx : attr_handle = handles.getD HANDLE_MAIN_RX 0
      · refine ⟨{ s with conn_handle_read_subs :=
            s.conn_handle_read_subs.set conn_handle can_notify }, ?_, hb, ?_, ?_⟩
        · show gatt_svr_handle_subscribe handles s conn_handle attr_handle can_notify
            can_indicate = _
          unfold gatt_svr_handle_subscribe COUNT_OF
          rw [if_neg (by omega), if_neg ha, if_pos hx, array_store_eq _ _ _ hcr]
        · show (s.conn_handle_read_subs.set conn_handle can_notify).length = _
          rw [List.length_set]
          exact hr
        · intro channel c
          cases channel with
          | battery =>
            show s.conn_handle_battery_subs.getD c false = _
            have hcon : (gatt_event.subscribe conn_handle attr_handle can_notify
                can_indicate).concerns handles gatt_channel.battery c = false :=
              decide_eq_false (fun h => ha h.2)
            rw [hcon]
            rfl
          | read =>
            show (s.conn_handle_read_subs.set conn_handle can_notify).getD c false = _
            rw [getD_set_bool _ _ _ _ hcr]
            simp [gatt_event.concerns, gatt_event.subscribes, gatt_channel.handle,
              gatt_channel.table, hx]
      · refine ⟨s, ?_, hb, hr, ?_⟩
        · show gatt_svr_handle_subscribe handles s conn_handle attr_handle can_notify
            can_indicate = _
          unfold gatt_svr_handle_subscribe COUNT_OF
          rw [if_neg (by omega), if_neg ha, if_neg hx]
        · intro channel c
          cases channel with
          | battery =>
            have hcon : (gatt_event.subscribe conn_handle attr_handle can_notify
                can_indicate).concerns handles gatt_channel.battery c = false :=
              decide_eq_false (fun h => ha h.2)
            rw [hcon]
            rfl
          | read =>
            have hcon : (gatt_event.subscribe conn_handle attr_handle can_notify
                can_indicate).concerns handles gatt_channel.read c = false :=
              decide_eq_false (fun h => hx h.2)
            rw [hcon]
            rfl
  | client_disconnected conn_handle =>
    have hc : conn_handle < CONFIG_NIMBLE_MAX_CONNECTIONS := he
    have hcb : conn_handle < s.conn_handle_battery_subs.length := by omega
    have hcr : conn_handle < s.conn_handle_read_subs.length := by omega
    refine ⟨{ s with
        conn_handle_battery_subs := s.conn_handle_battery_subs.set conn_handle false,
        conn_handle_read_subs := s.conn_handle_read_subs.set conn_handle false }, ?_, ?_, ?_, ?_⟩
    · show gatt_svr_client_disconnected s conn_handle = _
      unfold gatt_svr_client_disconnected COUNT_OF
      rw [if_neg (by omega), array_store_eq _ _ _ hcb, array_store_eq _ _ _ hcr]
    · show (s.conn_handle_battery_subs.set conn_handle false).length = _
      rw [List.length_set]
      exact hb
    · show (s.conn_handle_read_subs.set conn_handle false).length = _
      rw [List.length_set]
      exact hr
    · intro channel c
      cases channel with
      | battery =>
        show (s.conn_handle_battery_subs.set conn_handle false).getD c false = _
        rw [getD_set_bool _ _ _ _ hcb]
        simp [gatt_event.concerns, gatt_event.subscribes, gatt_channel.table]
      | read =>
        show (s.conn_handle_read_subs.set conn_handle false).getD c false = _
        rw [getD_set_bool _ _ _ _ hcr]
        simp [gatt_event.concerns, gatt_event.subscribes, gatt_channel.table]
  | set_read_value buf buf_size =>
    have h := gatt_svr_set_read_value_tables handles s buf buf_size
    refine ⟨_, rfl, by rw [h.1]; exact hb, by rw [h.2]; exact hr, ?_⟩
    intro channel c
    cases channel with
    | battery =>
      show (gatt_svr_set_read_value handles s buf buf_size).2.1.conn_handle_battery_subs.getD
        c false = _
      rw [h.1]
      rfl
    | read =>
      show (gatt_svr_set_read_value handles s buf buf_size).2.1.conn_handle_read_subs.getD
        c false = _
      rw [h.2]
      rfl
  | set_battery_level value =>
    have h := gatt_svr_set_battery_level_tables handles s value
    refine ⟨_, rfl, by rw [h.1]; exact hb, by rw [h.2]; exact hr, ?_⟩
    intro channel c
    cases channel with
    | battery =>
      show (gatt_svr_set_battery_level handles s value).2.1.conn_handle_battery_subs.getD
        c false = _
      rw [h.1]
      rfl
    | read =>
      show (gatt_svr_set_battery_level handles s value).2.1.conn_handle_read_subs.getD
        c false = _
      rw [h.2]
      rfl
  | set_sensor_value server id value =>
    have h := run_sensor_calls_tables handles (gble_set_sensor_value server id value).2.2 s
    refine ⟨_, rfl, by rw [h.1]; exact hb, by rw [h.2]; exact hr, ?_⟩
    intro channel c
    cases channel with
    | battery =>
      show (run_sensor_calls handles s
        (gble_set_sensor_value server id value).2.2).1.conn_handle_battery_subs.getD c false = _
      rw [h.1]
      rfl
    | read =>
      show (run_sensor_calls handles s
        (gble_set_sensor_value server id value).2.2).1.conn_handle_read_subs.getD c false = _
      rw [h.2]
      rfl

/-- A sequence of events with connection ids in range runs to the end, and
every table entry is what the most recent event that concerns it says. -/
theorem gatt_run_entries (handles : List Nat)
    (hdistinct : handles.getD HANDLE_BATTERY_LEVEL 0 ≠ handles.getD HANDLE_MAIN_RX 0)
    (events : List gatt_event) :
    ∀ s : gatt_server,
      s.conn_handle_battery_subs.length = CONFIG_NIMBLE_MAX_CONNECTIONS →
      s.conn_handle_read_subs.length = CONFIG_NIMBLE_MAX_CONNECTIONS →
      (∀ e ∈ events, e.conn_in_range) →
      ∃ s', gatt_run handles s events = some s' ∧
        s'.conn_handle_battery_subs.length = CONFIG_NIMBLE_MAX_CONNECTIONS ∧
        s'.conn_handle_read_subs.length = CONFIG_NIMBLE_MAX_CONNECTIONS ∧
        ∀ (channel : gatt_channel) (c : Nat),
          (channel.table s').getD c false =
            subscribed_after handles channel c ((channel.table s).getD c false) events := by
  induction events with
  | nil =>
    intro s hb hr _
    exact ⟨s, rfl, hb, hr, fun _ _ => rfl⟩
  | cons e rest ih =>
    intro s hb hr hrange
    obtain ⟨s1, hrun1, hb1, hr1, hent1⟩ :=
      gatt_event_run_entry handles s e hdistinct hb hr (hrange e (List.mem_cons_self _ _))
    obtain ⟨s2, hrun2, hb2, hr2, hent2⟩ :=
      ih s1 hb1 hr1 (fun e' he' => hrange e' (List.mem_cons_of_mem _ he'))
    refine ⟨s2, ?_, hb2, hr2, ?_⟩
    · show (match e.run handles s with
        | none => none
        | some s' => gatt_run handles s' rest) = some s2
      rw [hrun1]
      exact hrun2
    · intro channel c
      rw [hent2, hent1, subscribed_after_cons]

theorem gatt_svr_init_server (s : gatt_server) (rc1 rc2 rc3 rc4 : Int) :
    (gatt_svr_init s rc1 rc2 rc3 rc4).2 = gatt_server_instance := by
  unfold gatt_svr_init
  dsimp only
  split
  · rfl
  · split
    · rfl
    · split
      · rfl
      · split <;> rfl

/-- C23: the subscription state machine.  From the state that
`gatt_svr_init` leaves, a sequence of subscribes, disconnects, publishes on
either channel and sensor updates whose connection ids lie below
`CONFIG_NIMBLE_MAX_CONNECTIONS` runs to its end, and afterwards the entry of
`(channel, c)` is `true` exactly when the most recent subscribe or disconnect
that concerns `(channel, c)` is a subscribe with `notify = true`.  The
publishes and the sensor updates, which concern no pair, change no entry of
either table.  The handles of the two characteristics are distinct, as the
host assigns them. -/
theorem C23_subscription_state_machine (Svc_char_handles : List Nat) (s0 : gatt_server)
    (rc1 rc2 rc3 rc4 : Int) (events : List gatt_event)
    (hdistinct : Svc_char_handles.getD HANDLE_BATTERY_LEVEL 0 ≠
      Svc_char_handles.getD HANDLE_MAIN_RX 0)
    (hrange : ∀ e ∈ events, e.conn_in_range) :
    (∃ s, gatt_run Svc_char_handles (gatt_svr_init s0 rc1 rc2 rc3 rc4).2 events = some s ∧
      ∀ (channel : gatt_channel) (c : Nat), c < CONFIG_NIMBLE_MAX_CONNECTIONS →
        (channel.table s)[c]? =
          some (subscribed_after Svc_char_handles channel c false events)) ∧
    (∀ (s : gatt_server) (channel : gatt_channel) (buf : List Nat) (buf_size : Nat),
      channel.table (gatt_svr_set_read_value Svc_char_handles s buf buf_size).2.1 =
        channel.table s) ∧
    (∀ (s : gatt_server) (channel : gatt_channel) (value : Nat),
      channel.table (gatt_svr_set_battery_level Svc_char_handles s value).2.1 =
        channel.table s) ∧
    (∀ (s : gatt_server) (channel : gatt_channel) (server : gble_server) (id : Nat)
        (value : Int),
      channel.table (run_sensor_calls Svc_char_handles s
          (gble_set_sensor_value server id value).2.2).1 = channel.table s) := by
  refine ⟨?_, ?_, ?_, ?_⟩
  · rw [gatt_svr_init_server]
    obtain ⟨s, hrun, hb, hr, hent⟩ := gatt_run_entries Svc_char_handles hdistinct events
      gatt_server_instance rfl rfl hrange
    refine ⟨s, hrun, ?_⟩
    intro channel c hc
    have h := hent channel c
    have hinit : (channel.table gatt_server_instance).getD c false = false := by
      cases channel <;>
        simp [gatt_channel.table, gatt_server_instance, List.getD_eq_getElem?_getD,
          List.getElem?_replicate, hc]
    rw [hinit, List.getD_eq_getElem?_getD] at h
    have hlen : c < (channel.table s).length := by
      cases channel
      · show c < s.conn_handle_battery_subs.length
        omega
      · show c < s.conn_handle_read_subs.length
        omega
    rw [List.getElem?_eq_getElem hlen] at h ⊢
    exact congrArg some h
  · intro s channel buf buf_size
    have h := gatt_svr_set_read_value_tables Svc_char_handles s buf buf_size
    cases channel
    · exact h.1
    · exact h.2
  · intro s channel value
    have h := gatt_svr_set_battery_level_tables Svc_char_handles s value
    cases channel
    · exact h.1
    · exact h.2
  · intro s channel server id value
    have h := run_sensor_calls_tables Svc_char_handles
      (gble_set_sensor_value server id value).2.2 s
    cases channel
    · exact h.1
    · exact h.2

/-- Witness of C23: connection 0 subscribes to the read channel, connection
1 to both channels, a sensor value and a battery level are published,
connection 1 disconnects and connection 2 subscribes to the battery channel
and withdraws again: connection 0 alone is left, on the read channel. -/
theorem C23_witness :
    gatt_run main_Svc_char_handles (gatt_svr_init gatt_server_all_subscribed 0 0 0 0).2
        [.subscribe 0 35 true false, .subscribe 1 35 true false, .subscribe 1 12 true false,
         .set_sensor_value main_server_wired 0 7, .set_battery_level 50,
         .client_disconnected 1, .subscribe 2 12 true false, .subscribe 2 12 false false] =
      some { gatt_server_instance with
             read_buf := [130, 0, 7] ++ List.replicate 253 0, read_buf_size := 3,
             battery_level := 50,
             conn_handle_battery_subs := [false, false, false],
             conn_handle_read_subs := [true, false, false] } ∧
    ∃ s, gatt_run main_Svc_char_handles (gatt_svr_init gatt_server_all_subscribed 0 0 0 0).2
        [.subscribe 0 35 true false, .subscribe 1 35 true false, .subscribe 1 12 true false,
         .set_sensor_value main_server_wired 0 7, .set_battery_level 50,
         .client_disconnected 1, .subscribe 2 12 true false, .subscribe 2 12 false false] =
        some s ∧
      ∀ (channel : gatt_channel) (c : Nat), c < CONFIG_NIMBLE_MAX_CONNECTIONS →
        (channel.table s)[c]? =
          some (subscribed_after main_Svc_char_handles channel c false
            [.subscribe 0 35 true false, .subscribe 1 35 true false,
             .subscribe 1 12 true false, .set_sensor_value main_server_wired 0 7,
             .set_battery_level 50, .client_disconnected 1, .subscribe 2 12 true false,
             .subscribe 2 12 false false]) :=
  ⟨by decide,
   (C23_subscription_state_machine main_Svc_char_handles gatt_server_all_subscribed 0 0 0 0
      [.subscribe 0 35 true false, .subscribe 1 35 true false, .subscribe 1 12 true false,
       .set_sensor_value main_server_wired 0 7, .set_battery_level 50,
       .client_disconnected 1, .subscribe 2 12 true false, .subscribe 2 12 false false]
      (by decide)
      (by
        intro e he
        simp only [List.mem_cons, List.mem_singleton, List.not_mem_nil, or_false] at he
        rcases he with h | h | h | h | h | h | h | h <;> subst h <;>
          simp [gatt_event.conn_in_range, CONFIG_NIMBLE_MAX_CONNECTIONS])).1⟩

end GenericBtle
